import Mathlib

/-!
# compact_loki.c : a shallow embedding and its specification

Bytes are natural numbers below 256, memory regions and files are `List Nat`.
32-bit `unsigned` values are natural numbers reduced with `u32`; the multi-byte
fields of the on-disk structures are little-endian (the code runs on ARM/x86 and
reads them through struct pointers).

Environment assumptions of the model (the storage medium is outside the code):
`open`, `fstat`, `malloc` and `mmap` succeed, and a `write` to the output
succeeds exactly when its whole source range is readable.  A read outside a
mapping kills the process (`SIGBUS`); the model reports it as `Status.fault`.
-/

namespace Loki

/-! ## Machine words and memory -/

/-- Reduction of a value to a C `unsigned int` (32 bits). -/
def u32 (x : Nat) : Nat := x % 4294967296

/-- The four little-endian bytes of a 32-bit word. -/
def le32 (x : Nat) : List Nat :=
  [x % 256, x / 256 % 256, x / 65536 % 256, x / 16777216 % 256]

/-- The byte at offset `i` of a memory region (a cell counts by its low eight bits). -/
def byteAt (m : List Nat) (i : Nat) : Nat := m.getD i 0 % 256

/-- Load of an `unsigned int` through a pointer to offset `i` (`*(unsigned int *)&m[i]`). -/
def rd32 (m : List Nat) (i : Nat) : Nat :=
  byteAt m i + 256 * byteAt m (i + 1) + 65536 * byteAt m (i + 2) + 16777216 * byteAt m (i + 3)

/-- Store of the bytes `d` at offset `i` of a memory region (`memcpy(m + i, d, len)`). -/
def poke (m : List Nat) (i : Nat) (d : List Nat) : List Nat :=
  m.take i ++ d ++ m.drop (i + d.length)

/-- Store of an `unsigned int` through a pointer to offset `i`. -/
def wr32 (m : List Nat) (i : Nat) (v : Nat) : List Nat := poke m i (le32 v)

/-- The `n` bytes at offset `o`, as far as they exist. -/
def slice (m : List Nat) (o n : Nat) : List Nat := (m.drop o).take n

/-- View of a file through `mmap(0, len, ..., fd, 0)`: the bytes of the file, the last
page zero-filled up to a multiple of 4096, cut at `len`.  Offsets beyond are not readable. -/
def mmap (len : Nat) (file : List Nat) : List Nat :=
  (file ++ List.replicate ((4096 - file.length % 4096) % 4096) 0).take len

/-! ## The catalog of targets -/

/-- The record `struct target`. -/
structure target where
  vendor : String
  device : String
  build : String
  check_sigs : Nat
  hdr : Nat
  lg : Nat

/-- The table `targets[]`. -/
def targets : List target := [
  ⟨"AT&T", "Samsung Galaxy S4", "JDQ39.I337UCUAMDB or JDQ39.I337UCUAMDL", 0x88e0ff98, 0x88f3bafc, 0⟩,
  ⟨"Verizon", "Samsung Galaxy S4", "JDQ39.I545VRUAMDK", 0x88e0fe98, 0x88f372fc, 0⟩,
  ⟨"DoCoMo", "Samsung Galaxy S4", "JDQ39.SC04EOMUAMDI", 0x88e0fcd8, 0x88f0b2fc, 0⟩,
  ⟨"Verizon", "Samsung Galaxy Stellar", "IMM76D.I200VRALH2", 0x88e0f5c0, 0x88ed32e0, 0⟩,
  ⟨"Verizon", "Samsung Galaxy Stellar", "JZO54K.I200VRBMA1", 0x88e101ac, 0x88ed72e0, 0⟩,
  ⟨"DoCoMo", "LG Optimus G", "L01E20b", 0x88F10E48, 0x88F54418, 1⟩,
  ⟨"AT&T or HK", "LG Optimus G Pro", "E98010g or E98810b", 0x88f11084, 0x88f54418, 1⟩,
  ⟨"KT, LGU, or SKT", "LG Optimus G Pro", "F240K10o, F240L10v, or F240S10w", 0x88f110b8, 0x88f54418, 1⟩,
  ⟨"KT, LGU, or SKT", "LG Optimus LTE 2", "F160K20g, F160L20f, F160LV20d, or F160S20f", 0x88f10864, 0x88f802b8, 1⟩,
  ⟨"MetroPCS", "LG Spirit", "MS87010a_05", 0x88f0e634, 0x88f68194, 1⟩,
  ⟨"MetroPCS", "LG Motion", "MS77010f_01", 0x88f1015c, 0x88f58194, 1⟩,
  ⟨"Verizon", "LG Lucid 2", "VS87010B_12", 0x88f10adc, 0x88f702bc, 1⟩,
  ⟨"Verizon", "LG Spectrum 2", "VS93021B_05", 0x88f10c10, 0x88f84514, 1⟩,
  ⟨"Boost Mobile", "LG Optimus F7", "LG870ZV4_06", 0x88f11714, 0x88f842ac, 1⟩,
  ⟨"Virgin Mobile", "LG Optimus F3", "LS720ZV5", 0x88f108f0, 0x88f854f4, 1⟩,
  ⟨"T-Mobile", "LG Optimus F3", "LS720ZV5", 0x88f10264, 0x88f64508, 1⟩,
  ⟨"AT&T", "LG G2", "D80010d", 0xf8132ac, 0xf906440, 1⟩,
  ⟨"Verizon", "LG G2", "VS98010b", 0xf8131f0, 0xf906440, 1⟩,
  ⟨"T-Mobile", "LG G2", "D80110c", 0xf813294, 0xf906440, 1⟩,
  ⟨"Sprint", "LG G2", "LS980ZV7", 0xf813460, 0xf9041c0, 1⟩,
  ⟨"KT, LGU, or SKT", "LG G2", "F320K, F320L, F320S", 0xf81346c, 0xf8de440, 1⟩]

/-! ## Signatures and load bases -/

def PATTERN1 : List Nat := [0xf0, 0xb5, 0x8f, 0xb0, 0x06, 0x46, 0xf0, 0xf7]
def PATTERN2 : List Nat := [0xf0, 0xb5, 0x8f, 0xb0, 0x07, 0x46, 0xf0, 0xf7]
def PATTERN3 : List Nat := [0x2d, 0xe9, 0xf0, 0x41, 0x86, 0xb0, 0xf1, 0xf7]
def PATTERN4 : List Nat := [0x2d, 0xe9, 0xf0, 0x4f, 0xad, 0xf5, 0xc6, 0x6d]
def PATTERN5 : List Nat := [0x2d, 0xe9, 0xf0, 0x4f, 0xad, 0xf5, 0x21, 0x7d]
def PATTERN6 : List Nat := [0x2d, 0xe9, 0xf0, 0x4f, 0xf3, 0xb0, 0x05, 0x46]

def ABOOT_BASE_SAMSUNG : Nat := 0x88dfffd8
def ABOOT_BASE_LG : Nat := 0x88efffd8
def ABOOT_BASE_G2 : Nat := 0xf7fffd8

/-- Test `!memcmp(m + o, pat, 8)`: the eight bytes at offset `o` equal the signature. -/
def memcmp8 (m : List Nat) (o : Nat) (pat : List Nat) : Bool := slice m o 8 == pat

/-! ## The shellcode template -/

/-- The array `patch[]`: 64 bytes of code and markers, and the terminating NUL of the
string literal, so `sizeof(patch)` is 65. -/
def patch : List Nat := [
  0xfe, 0xb5, 0x0d, 0x4d, 0xd5, 0xf8, 0x88, 0x04, 0xab, 0x68, 0x98, 0x42, 0x12, 0xd0,
  0xd5, 0xf8, 0x90, 0x64, 0x0a, 0x4c, 0xd5, 0xf8, 0x8c, 0x74, 0x07, 0xf5, 0x80, 0x57,
  0x0f, 0xce, 0x0f, 0xc4, 0x10, 0x3f, 0xfb, 0xdc, 0xd5, 0xf8, 0x88, 0x04, 0x04, 0x49,
  0xd5, 0xf8, 0x8c, 0x24, 0xa8, 0x60, 0x69, 0x61, 0x2a, 0x61, 0x00, 0x20, 0xfe, 0xbd,
  0xff, 0xff, 0xff, 0xff,
  0xee, 0xee, 0xee, 0xee,
  0x00]

/-- The value `sizeof(patch)`. -/
def sizeof_patch : Nat := 65

/-- Loop state of `loki_patch_shellcode`: the memory starting at `patch[0]` and the two flags. -/
structure ScState where
  mem : List Nat
  found_header : Nat
  found_ramdisk : Nat

/-- One iteration of the loop of `loki_patch_shellcode`, at index `i`. -/
def sc_step (header ramdisk : Nat) (s : ScState) (i : Nat) : ScState :=
  let s1 : ScState :=
    if rd32 s.mem i = 0xffffffff then ⟨wr32 s.mem i header, 1, s.found_ramdisk⟩
    else if rd32 s.mem i = header then ⟨s.mem, 2, s.found_ramdisk⟩
    else s
  if rd32 s1.mem i = 0xeeeeeeee then ⟨wr32 s1.mem i ramdisk, s1.found_header, 1⟩
  else if rd32 s1.mem i = ramdisk then ⟨s1.mem, s1.found_header, 2⟩
  else s1

/-- The function `loki_patch_shellcode`.  `mem` is the memory starting at `patch[0]`:
the 65 bytes of the global array followed by whatever the linker placed after it (the
loop reads up to three bytes past the array).  Returns the C return value and the
memory after the call; the arguments are converted to `unsigned int`. -/
def loki_patch_shellcode (mem : List Nat) (header ramdisk : Nat) : Int × List Nat :=
  let s := (List.range sizeof_patch).foldl (sc_step (u32 header) (u32 ramdisk)) ⟨mem, 0, 0⟩
  (if s.found_header ≠ 0 ∧ s.found_ramdisk ≠ 0 then 0 else -1, s.mem)

/-! ## loki_patch -/

/-- Result of the scan loop of `loki_patch`: left by `break` with `target` and
`aboot_base` set, run to its bound with `target` still 0, or killed by a read outside
the mapping. -/
inductive ScanResult
  | found (target_addr aboot_base : Nat)
  | exhausted
  | fault
deriving DecidableEq, Repr

/-- The loop `for (ptr = aboot; ptr < aboot + 1048576 - 0x1000; ptr++)`, with `n`
iterations left and `ptr = aboot + o`.  `memcmp` is taken to read its eight bytes. -/
def scan_loop (aboot : List Nat) : Nat → Nat → ScanResult
  | 0, _ => .exhausted
  | n + 1, o =>
    if aboot.length < o + 8 then .fault
    else if memcmp8 aboot o PATTERN1 || memcmp8 aboot o PATTERN2 || memcmp8 aboot o PATTERN3 then
      .found (o + ABOOT_BASE_SAMSUNG) ABOOT_BASE_SAMSUNG
    else if memcmp8 aboot o PATTERN4 then .found (o + ABOOT_BASE_LG) ABOOT_BASE_LG
    else if memcmp8 aboot o PATTERN5 then .found (o + ABOOT_BASE_G2) ABOOT_BASE_G2
    else scan_loop aboot n (o + 1)

/-- Number of iterations of the scan loop: start offsets `0 .. 1048576 - 0x1000 - 1`. -/
def SCAN_LIMIT : Nat := 1048576 - 0x1000

/-- The scan of the mapped bootloader. -/
def scan (aboot : List Nat) : ScanResult := scan_loop aboot SCAN_LIMIT 0

/-- The loop over `targets[]`: the first entry whose `check_sigs` is the scanned address. -/
def lookup (target_addr : Nat) : Option target :=
  targets.find? (fun t => t.check_sigs == target_addr)

/-- The bytes `"LOKI"`. -/
def LOKI_MAGIC : List Nat := [0x4c, 0x4f, 0x4b, 0x49]

/-- The bytes `"ANDROID!"`. -/
def BOOT_MAGIC : List Nat := [0x41, 0x4e, 0x44, 0x52, 0x4f, 0x49, 0x44, 0x21]

/-- The bytes stored by `strncpy(dst, s, n)`: the characters of `s`, NUL-padded to `n`. -/
def strncpy (s : String) (n : Nat) : List Nat :=
  (s.toList.map Char.toNat).take n ++ List.replicate (n - ((s.toList.map Char.toNat).take n).length) 0

/-- The expression `(x + page_mask) & ~page_mask` on `unsigned`. -/
def align_up (x page_mask : Nat) : Nat := u32 (x + page_mask) &&& (0xffffffff - page_mask)

/-- Effect of `lseek(fd, pos, SEEK_SET); write(fd, data, len)` on a regular file. -/
def pwrite (file : List Nat) (pos : Nat) (data : List Nat) : List Nat :=
  file.take pos ++ List.replicate (pos - file.length) 0 ++ data ++ file.drop (pos + data.length)

/-- Exit of `loki_patch`: `ok` is `return 0`; the others are the `return 1` exits, named
after their message, and `fault` the death of the process on a bad access. -/
inductive Status
  | ok
  | usage
  | noPattern
  | unsupported
  | copyFailed
  | shellcode
  | writeHeader
  | writeKernel
  | writeRamdisk
  | writeDt
  | fault
deriving DecidableEq, Repr

/-- What `loki_patch` leaves behind: its exit, the content of the output file
`Loki_Image`, and the memory at the global `patch[]`. -/
structure PatchResult where
  status : Status
  out : List Nat
  pm : List Nat

/-- Offsets of the fields of `struct boot_img_hdr`. -/
def KERNEL_SIZE : Nat := 8
def KERNEL_ADDR : Nat := 12
def RAMDISK_SIZE : Nat := 16
def RAMDISK_ADDR : Nat := 20
def PAGE_SIZE : Nat := 36
def DT_SIZE : Nat := 40

/-- Offset of the field `second_size` of `struct boot_img_hdr` (the code never reads it). -/
def SECOND_SIZE : Nat := 24

/-- The buffer after `lseek(aboot_fd, pos, SEEK_SET); read(aboot_fd, buf, n)` on a fresh
`malloc(n)`: `n` bytes of the aboot device from position `pos`, and the old content `junk`
of the buffer where the device ends (the return value of `read` is not looked at). -/
def filler (abootFile : List Nat) (pos n : Nat) (junk : Nat → Nat) : List Nat :=
  (List.range n).map (fun i => (abootFile.get? (pos + i)).getD (junk i))

/-- The end of `loki_patch`, from "Write the image header" on.  `orig` is the mapped image
with all edits made, `pm` the memory at `patch[]` after `loki_patch_shellcode`; the other
arguments are the local variables of the same names. -/
def loki_patch_emit (abootFile : List Nat) (aboot_base : Nat) (tgt : target) (orig : List Nat)
    (page_size page_mask orig_kernel_size orig_ramdisk_size offset fake_size : Nat)
    (pm : List Nat) (junk : Nat → Nat) : PatchResult :=
  -- Write the image header
  let out := orig.take page_size
  if orig.length < page_size then ⟨.writeHeader, out, pm⟩ else
  let page_kernel_size := align_up orig_kernel_size page_mask
  -- Write the kernel
  let out := out ++ slice orig page_size page_kernel_size
  if orig.length < page_size + page_kernel_size then ⟨.writeKernel, out, pm⟩ else
  let page_ramdisk_size := align_up orig_ramdisk_size page_mask
  -- Write the ramdisk
  let out := out ++ slice orig (page_size + page_kernel_size) page_ramdisk_size
  if orig.length < page_size + page_kernel_size + page_ramdisk_size then ⟨.writeRamdisk, out, pm⟩ else
  -- Write fake_size bytes of original code to the output
  let buf := filler abootFile (tgt.check_sigs - aboot_base - offset) fake_size junk
  let out := out ++ buf
  let pos := out.length
  -- Write the device tree if needed
  let dt_size := rd32 orig DT_SIZE
  let dt := slice orig (page_size + page_kernel_size + page_ramdisk_size) dt_size
  let out := if dt_size ≠ 0 then out ++ dt else out
  if dt_size ≠ 0 ∧ orig.length < page_size + page_kernel_size + page_ramdisk_size + dt_size then
    ⟨.writeDt, out, pm⟩ else
  -- lseek(ofd, pos - (fake_size - offset), SEEK_SET) and write the patch
  let out := pwrite out ((pos : Int) - ((fake_size : Int) - (offset : Int))).toNat (pm.take sizeof_patch)
  ⟨.ok, out, pm⟩

/-- The middle of `loki_patch`: from "Store the original values in unused fields of the
header" to the choice of `fake_size`.  `orig` is the mapped image with the Loki magic,
kind flag and build string set. -/
def loki_patch_rewrite (abootFile : List Nat) (aboot_base : Nat) (tgt : target) (orig : List Nat)
    (page_size page_mask orig_kernel_size orig_ramdisk_size : Nat)
    (pm : List Nat) (junk : Nat → Nat) : PatchResult :=
  let orig := wr32 orig 0x488 orig_kernel_size
  let orig := wr32 orig 0x48c orig_ramdisk_size
  let orig := wr32 orig 0x490 (u32 (rd32 orig KERNEL_ADDR + align_up (rd32 orig KERNEL_SIZE) page_mask))
  let sc := loki_patch_shellcode pm tgt.hdr (rd32 orig RAMDISK_ADDR)
  if sc.1 < 0 then ⟨.shellcode, [], sc.2⟩ else
  -- Ramdisk must be aligned to a page boundary
  let orig := wr32 orig KERNEL_SIZE
    (u32 (align_up (rd32 orig KERNEL_SIZE) page_mask + rd32 orig RAMDISK_SIZE))
  -- Guarantee 16-byte alignment
  let offset := tgt.check_sigs &&& 0xf
  let orig := wr32 orig RAMDISK_ADDR (u32 (tgt.check_sigs - offset))
  let fake_size := if tgt.lg ≠ 0 then page_size else 0x200
  let orig := wr32 orig RAMDISK_SIZE (if tgt.lg ≠ 0 then page_size else 0)
  loki_patch_emit abootFile aboot_base tgt orig page_size page_mask orig_kernel_size
    orig_ramdisk_size offset fake_size sc.2 junk

/-- The part of `loki_patch` after the target is resolved (from "Map the original
boot/recovery image" on; it goes on in `loki_patch_rewrite` and `loki_patch_emit`).
`abootFile` is the aboot device as read through `aboot_fd`, `aboot_base` the base left by
the scan, `img` the source image, `pm` the memory at `patch[]`, `junk` the content of
the fresh `malloc` buffer. -/
def loki_patch_body (recovery : Nat) (abootFile : List Nat) (aboot_base : Nat) (tgt : target)
    (img pm : List Nat) (junk : Nat → Nat) : PatchResult :=
  let orig := mmap 25174016 img
  if orig.length < 0x404 then ⟨.fault, [], pm⟩ else
  if slice orig 0x400 4 = LOKI_MAGIC then
    -- write(ofd, orig, 25165824)
    if 25165824 ≤ orig.length then ⟨.ok, orig.take 25165824, pm⟩
    else ⟨.copyFailed, orig.take 25165824, pm⟩
  else
  -- Set the Loki header
  let orig := poke orig 0x400 LOKI_MAGIC
  let orig := wr32 orig 0x404 recovery
  let orig := poke orig 0x408 (strncpy tgt.build 127)
  let page_size := rd32 orig PAGE_SIZE
  let page_mask := u32 (rd32 orig PAGE_SIZE + 0xffffffff)
  let orig_kernel_size := rd32 orig KERNEL_SIZE
  let orig_ramdisk_size := rd32 orig RAMDISK_SIZE
  loki_patch_rewrite abootFile aboot_base tgt orig page_size page_mask orig_kernel_size
    orig_ramdisk_size pm junk

/-- The function `loki_patch`.  `partition` is its first argument, `abootFile` the content of
the aboot device, `img` the content of `partitionPath`, `out0` what the output file held
before, `pm` the memory at the global `patch[]` (the array and the bytes after it), `junk`
the content of the fresh `malloc` buffer. -/
def loki_patch (partition : String) (abootFile img out0 pm : List Nat) (junk : Nat → Nat) :
    PatchResult :=
  if partition ≠ "boot" ∧ partition ≠ "recovery" then ⟨.usage, out0, pm⟩ else
  let recovery : Nat := if partition = "boot" then 0 else 1
  -- open(Loki_Image, O_WRONLY|O_CREAT|O_TRUNC): the output file is empty from here on
  let aboot := mmap 1048576 abootFile
  match scan aboot with
  | .fault => ⟨.fault, [], pm⟩
  | .exhausted => ⟨.noPattern, [], pm⟩
  | .found target_addr aboot_base =>
    if target_addr = 0 then ⟨.noPattern, [], pm⟩ else
    match lookup target_addr with
    | none => ⟨.unsupported, [], pm⟩
    | some tgt => loki_patch_body recovery abootFile aboot_base tgt img pm junk

/-! ## loki_flash -/

/-- Exit of `loki_flash`: `ok` is `return 0`, the others the `return 1` exits named after
their message, `fault` the death of the process on a bad access. -/
inductive FlashStatus
  | ok
  | usage
  | notLoki
  | wrongKind
  | invalidLok
  | noMatch
  | writeFailed
  | fault
deriving DecidableEq, Repr

/-- What `loki_flash` leaves behind: its exit and the content of the destination partition. -/
structure FlashResult where
  status : FlashStatus
  dest : List Nat

/-- How the loop over `offs` of `loki_flash` ends. -/
inductive MatchResult
  | matched
  | noMatch
  | invalid
  | fault
deriving DecidableEq, Repr

/-- The base subtracted from `hdr->ramdisk_addr` by `loki_flash`. -/
def flash_base (ramdisk_addr : Nat) : Nat :=
  if ramdisk_addr < ABOOT_BASE_SAMSUNG then ABOOT_BASE_G2
  else if ramdisk_addr < ABOOT_BASE_LG then ABOOT_BASE_SAMSUNG
  else ABOOT_BASE_LG

/-- The loop `for (offs = 0; offs < 0x10; offs += 0x4)` of `loki_flash`, over the values
of `offs` still to come.  `patch - aboot` is computed on 32-bit pointers. -/
def flash_loop (aboot : List Nat) (ramdisk_addr : Nat) : List Nat → MatchResult
  | [] => .noMatch
  | offs :: rest =>
    let rel := u32 (u32 (ramdisk_addr + 4294967296 - flash_base ramdisk_addr) + offs)
    if 0x40000 - 8 < rel then .invalid
    else if aboot.length < rel + 8 then .fault
    else if memcmp8 aboot rel PATTERN1 || memcmp8 aboot rel PATTERN2 || memcmp8 aboot rel PATTERN3
        || memcmp8 aboot rel PATTERN4 || memcmp8 aboot rel PATTERN5 then .matched
    else flash_loop aboot ramdisk_addr rest

def BOOT_PATH : String := "/dev/block/platform/msm_sdcc.1/by-name/boot"
def RECOVERY_PATH : String := "/dev/block/platform/msm_sdcc.1/by-name/recovery"

/-- The function `loki_flash`.  `partition` is its argument, `abootFile` the content of the
aboot device, `lokiImg` the content of the file `Loki_Image`, `dest` the content of the
block device named by `partition`. -/
def loki_flash (partition : String) (abootFile lokiImg dest : List Nat) : FlashResult :=
  if partition ≠ BOOT_PATH ∧ partition ≠ RECOVERY_PATH then ⟨.usage, dest⟩ else
  let recovery : Nat := if partition = BOOT_PATH then 0 else 1
  let orig := mmap 25174016 lokiImg
  if orig.length < 0x404 then ⟨.fault, dest⟩ else
  -- Verify this is a Loki image
  if slice orig 0x400 4 ≠ LOKI_MAGIC then ⟨.notLoki, dest⟩ else
  -- Verify this is the right type of image
  if rd32 orig 0x404 ≠ recovery then ⟨.wrongKind, dest⟩ else
  let aboot := mmap 0x40000 abootFile
  match flash_loop aboot (rd32 orig RAMDISK_ADDR) [0, 4, 8, 12] with
  | .invalid => ⟨.invalidLok, dest⟩
  | .fault => ⟨.fault, dest⟩
  | .noMatch => ⟨.noMatch, dest⟩
  | .matched =>
    -- write(ofd, orig, st.st_size): as much as is mapped and as the device holds
    let data := (orig.take lokiImg.length).take dest.length
    ⟨if data.length = lokiImg.length then .ok else .writeFailed, data ++ dest.drop data.length⟩

/-! ## loki_check_partition -/

/-- Exit of `loki_check_partition`: `needsLokifying` is the `return 1` after the message
"needs lokifying", `blank` the `return 0` after "is blank, so skipping", `isLoki` the silent
`return 0` for an image with the Loki magic, `fault` the death of the process on a bad
access. -/
inductive CheckStatus
  | needsLokifying
  | blank
  | isLoki
  | fault
deriving DecidableEq, Repr

/-- The value `loki_check_partition` returns at each exit (none when the process dies). -/
def CheckStatus.ret : CheckStatus → Option Nat
  | .needsLokifying => some 1
  | .blank => some 0
  | .isLoki => some 0
  | .fault => none

/-- The function `loki_check_partition`; `img` is the content of the partition. -/
def loki_check_partition (img : List Nat) : CheckStatus :=
  let orig := mmap 25174016 img
  if orig.length < 0x404 then .fault else
  -- Verify this is a Loki image
  if slice orig 0x400 4 ≠ LOKI_MAGIC then
    if slice orig 0 8 = BOOT_MAGIC then .needsLokifying else .blank
  else .isLoki

/-! ## Intermediate values of loki_patch, for the statements below -/

/-- The mapped image after "Set the Loki header": magic, kind flag and build string stored. -/
def stamped (orig : List Nat) (recovery : Nat) (tgt : target) : List Nat :=
  poke (wr32 (poke orig 0x400 LOKI_MAGIC) 0x404 recovery) 0x408 (strncpy tgt.build 127)

/-- The mapped image after all stores of `loki_patch`, from the stamped image `m` and the
values the code read from the untouched header. -/
def rewritten (m : List Nat) (tgt : target) (page_size page_mask : Nat) : List Nat :=
  wr32 (wr32 (wr32 (wr32 (wr32 (wr32 m
    0x488 (rd32 m KERNEL_SIZE))
    0x48c (rd32 m RAMDISK_SIZE))
    0x490 (u32 (rd32 m KERNEL_ADDR + align_up (rd32 m KERNEL_SIZE) page_mask)))
    KERNEL_SIZE (u32 (align_up (rd32 m KERNEL_SIZE) page_mask + rd32 m RAMDISK_SIZE)))
    RAMDISK_ADDR (u32 (tgt.check_sigs - (tgt.check_sigs &&& 0xf))))
    RAMDISK_SIZE (if tgt.lg ≠ 0 then page_size else 0)

/-- The `page_mask` the code derives from the header of the mapped image. -/
def mask_of (orig : List Nat) : Nat := u32 (rd32 orig PAGE_SIZE + 0xffffffff)

/-- The mapped image after all stores of `loki_patch`. -/
def edited (orig : List Nat) (recovery : Nat) (tgt : target) : List Nat :=
  rewritten (stamped orig recovery tgt) tgt (rd32 orig PAGE_SIZE) (mask_of orig)

/-- The output offset where the filler block starts: header page, padded kernel, padded
ramdisk, with the sizes the code computes. -/
def seg_end (orig : List Nat) : Nat :=
  rd32 orig PAGE_SIZE + align_up (rd32 orig KERNEL_SIZE) (mask_of orig)
    + align_up (rd32 orig RAMDISK_SIZE) (mask_of orig)

/-- The value of `fake_size`. -/
def fake_of (orig : List Nat) (tgt : target) : Nat :=
  if tgt.lg ≠ 0 then rd32 orig PAGE_SIZE else 0x200

/-- The exits of `loki_patch` taken after the target is resolved: all but `noPattern`,
`unsupported` and `usage`. -/
def late_exit (st : Status) : Prop := st ≠ .noPattern ∧ st ≠ .unsupported ∧ st ≠ .usage

/-! ## Notions of the specification -/

/-- A field of the boot image header of the file `img`, read at offset `off` through
the mapping of 25174016 bytes that `loki_patch` and `loki_flash` make of an image. -/
def hdr_field (img : List Nat) (off : Nat) : Nat := rd32 (mmap 25174016 img) off

/-- The image carries the Loki magic: `"LOKI"` at offset 0x400 of the mapped file. -/
def is_loki (img : List Nat) : Prop := slice (mmap 25174016 img) 0x400 4 = LOKI_MAGIC

/-- Rounding `x` up to a multiple of the page size `P`, as the specification words it
(for `P > 0` the smallest multiple of `P` that is at least `x`). -/
def page_align (x P : Nat) : Nat := (x + P - 1) / P * P

/-- The device-tree segment of a boot image file as the image format lays it out:
`dt_size` bytes that follow the header page and the page-aligned kernel, ramdisk and
second-stage segments. -/
def dt_segment (img : List Nat) : List Nat :=
  slice img
    (rd32 img PAGE_SIZE + page_align (rd32 img KERNEL_SIZE) (rd32 img PAGE_SIZE)
      + page_align (rd32 img RAMDISK_SIZE) (rd32 img PAGE_SIZE)
      + page_align (rd32 img SECOND_SIZE) (rd32 img PAGE_SIZE))
    (rd32 img DT_SIZE)

/-- The signatures the code compares against, `PATTERN1` to `PATTERN5`. -/
def known_signatures : List (List Nat) := [PATTERN1, PATTERN2, PATTERN3, PATTERN4, PATTERN5]

/-- The load base of the family a signature belongs to: Samsung for `PATTERN1`-`PATTERN3`,
LG for `PATTERN4`, LG G2 for `PATTERN5`; `none` for bytes that are no known signature. -/
def family_base (sig : List Nat) : Option Nat :=
  if sig = PATTERN1 ∨ sig = PATTERN2 ∨ sig = PATTERN3 then some 0x88dfffd8
  else if sig = PATTERN4 then some 0x88efffd8
  else if sig = PATTERN5 then some 0xf7fffd8
  else none

/-- The offset `patch - aboot` that `loki_flash` computes for a header `ramdisk_addr` and
a value of `offs`, on 32-bit pointers. -/
def flash_rel (ramdisk_addr offs : Nat) : Nat :=
  u32 (u32 (ramdisk_addr + 4294967296 - flash_base ramdisk_addr) + offs)

/-- The kind of image `loki_flash` asks for: 0 for the boot path, 1 for the recovery path. -/
def requested_kind (partition : String) : Nat := if partition = BOOT_PATH then 0 else 1

/-! ## Concrete inputs -/

/-- The catalog entry of the Verizon Galaxy Stellar, build IMM76D.I200VRALH2. -/
def demo_target : target :=
  ⟨"Verizon", "Samsung Galaxy Stellar", "IMM76D.I200VRALH2", 0x88e0f5c0, 0x88ed32e0, 0⟩

/-- An aboot dump with `PATTERN1` at offset 62952 = 0x88e0f5c0 - 0x88dfffd8 and zeros before. -/
def demo_aboot : List Nat := List.replicate 62952 0 ++ PATTERN1

/-- The first 44 bytes of a `struct boot_img_hdr`: magic, `kernel_size`, `kernel_addr`,
`ramdisk_size`, `ramdisk_addr`, `second_size`, `second_addr`, `tags_addr`, `page_size`,
`dt_size`. -/
def boot_hdr (k ka r ra s sa ta P dt : Nat) : List Nat :=
  BOOT_MAGIC ++ le32 k ++ le32 ka ++ le32 r ++ le32 ra ++ le32 s ++ le32 sa ++ le32 ta
    ++ le32 P ++ le32 dt

/-- A boot image header with the given page size, kernel size, ramdisk size and
device-tree size, ramdisk address 0x82008000 and no second stage. -/
def demo_hdr (P k r dt : Nat) : List Nat :=
  boot_hdr k 0x80208000 r 0x82008000 0 0x80f00000 0x80200100 P dt

/-- The memory at `patch[]` after `loki_patch_shellcode(0x88ed32e0, 0x82008000)` on the
pristine template followed by the bytes `tail`. -/
def demo_patch (tail : List Nat) : List Nat :=
  patch.take 56 ++ le32 0x88ed32e0 ++ le32 0x82008000 ++ patch.drop 64 ++ tail

/-- An aboot dump of 1 MiB whose only signature, `PATTERN1`, starts at offset
1044480 = 1 MiB - 4 KiB. -/
def late_aboot : List Nat := List.replicate 1044480 0 ++ PATTERN1 ++ List.replicate 4088 0

/-- A Loki image of 24 MiB + 4 KiB = 25169920 bytes: `"LOKI"` at offset 0x400, zeros
elsewhere. -/
def big_loki_img : List Nat :=
  List.replicate 0x400 0 ++ LOKI_MAGIC ++ List.replicate 25168892 0

/-- A small Loki image for `loki_flash`: `ramdisk_addr` 0xf7fffd8 at offset 20, `"LOKI"`
at 0x400, then the given kind flag. -/
def flash_img (kind : Nat) : List Nat :=
  List.replicate 20 0 ++ le32 0xf7fffd8 ++ List.replicate 1000 0 ++ LOKI_MAGIC ++ le32 kind

/-- A boot image: the header `demo_hdr` followed by `n` zero bytes. -/
def demo_img (P k r dt n : Nat) : List Nat := demo_hdr P k r dt ++ List.replicate n 0

/-- A boot image: a header with the given kernel size and address, ramdisk size and address,
second-stage size, page size and device-tree size, followed by the bytes `body`. -/
def gen_img (k ka r ra s P dt : Nat) (body : List Nat) : List Nat :=
  boot_hdr k ka r ra s 0x80f00000 0x80200100 P dt ++ body


/-- A small Loki image for `loki_flash`: `ramdisk_addr` `ra` at offset 20, `"LOKI"` at
0x400, then the given kind flag. -/
def lok_img (ra kind : Nat) : List Nat :=
  List.replicate 20 0 ++ le32 ra ++ List.replicate 1000 0 ++ LOKI_MAGIC ++ le32 kind

/-- A boot image with page size 2048 and one page each of kernel (at 2048), ramdisk (at
4096) and second stage (at 6144, starting with aa bb cc dd), then a device tree of 4 bytes
(at 8192: d0 0d fe ed), zero-padded to 12288 bytes. -/
def second_img : List Nat :=
  gen_img 2048 0x80208000 2048 0x82008000 2048 2048 4
    (List.replicate 6100 0 ++ [0xaa, 0xbb, 0xcc, 0xdd] ++ List.replicate 2044 0
      ++ [0xd0, 0x0d, 0xfe, 0xed] ++ List.replicate 4092 0)

/-! # Theorems -/

/-! ## Memory lemmas -/

theorem le32_length (v : Nat) : (le32 v).length = 4 := rfl

theorem poke_length (m : List Nat) (a : Nat) (d : List Nat) (h : a + d.length ≤ m.length) :
    (poke m a d).length = m.length := by
  simp only [poke, List.length_append, List.length_take, List.length_drop]
  omega

theorem wr32_length (m : List Nat) (a v : Nat) (h : a + 4 ≤ m.length) :
    (wr32 m a v).length = m.length :=
  poke_length m a (le32 v) h

theorem byteAt_poke (m : List Nat) (a : Nat) (d : List Nat) (j : Nat) (h : a ≤ m.length) :
    byteAt (poke m a d) j
      = if a ≤ j ∧ j < a + d.length then d.getD (j - a) 0 % 256 else byteAt m j := by
  have hl : (m.take a).length = a := by simp [List.length_take]; omega
  simp only [byteAt, poke, List.getD_eq_getElem?_getD, List.append_assoc]
  by_cases h1 : j < a
  · rw [List.getElem?_append_left (by omega)]
    rw [List.getElem?_take_of_lt h1]
    rw [if_neg (by omega)]
  · rw [List.getElem?_append_right (by omega), hl]
    by_cases h2 : j < a + d.length
    · rw [List.getElem?_append_left (by omega), if_pos (by omega)]
    · rw [List.getElem?_append_right (by omega), if_neg (by omega), List.getElem?_drop]
      have e : a + d.length + (j - a - d.length) = j := by omega
      rw [e]

theorem byteAt_poke_of_lt (m : List Nat) (a : Nat) (d : List Nat) (j : Nat) (h : a ≤ m.length)
    (hj : j < a) : byteAt (poke m a d) j = byteAt m j := by
  rw [byteAt_poke m a d j h, if_neg (by omega)]

theorem byteAt_poke_of_ge (m : List Nat) (a : Nat) (d : List Nat) (j : Nat) (h : a ≤ m.length)
    (hj : a + d.length ≤ j) : byteAt (poke m a d) j = byteAt m j := by
  rw [byteAt_poke m a d j h, if_neg (by omega)]

theorem rd32_poke_of_lt (m : List Nat) (a : Nat) (d : List Nat) (j : Nat) (h : a ≤ m.length)
    (hj : j + 4 ≤ a) : rd32 (poke m a d) j = rd32 m j := by
  simp only [rd32]
  rw [byteAt_poke_of_lt m a d j h (by omega), byteAt_poke_of_lt m a d (j + 1) h (by omega),
    byteAt_poke_of_lt m a d (j + 2) h (by omega), byteAt_poke_of_lt m a d (j + 3) h (by omega)]

theorem rd32_poke_of_ge (m : List Nat) (a : Nat) (d : List Nat) (j : Nat) (h : a ≤ m.length)
    (hj : a + d.length ≤ j) : rd32 (poke m a d) j = rd32 m j := by
  simp only [rd32]
  rw [byteAt_poke_of_ge m a d j h (by omega), byteAt_poke_of_ge m a d (j + 1) h (by omega),
    byteAt_poke_of_ge m a d (j + 2) h (by omega), byteAt_poke_of_ge m a d (j + 3) h (by omega)]

theorem rd32_wr32_same (m : List Nat) (a v : Nat) (h : a ≤ m.length) :
    rd32 (wr32 m a v) a = u32 v := by
  simp only [rd32, wr32]
  rw [byteAt_poke m a _ a h, byteAt_poke m a _ (a + 1) h, byteAt_poke m a _ (a + 2) h,
    byteAt_poke m a _ (a + 3) h]
  simp only [le32_length]
  rw [if_pos (by omega), if_pos (by omega), if_pos (by omega), if_pos (by omega)]
  have e1 : a + 1 - a = 1 := by omega
  have e2 : a + 2 - a = 2 := by omega
  have e3 : a + 3 - a = 3 := by omega
  simp only [Nat.sub_self, e1, e2, e3, le32, List.getD_cons_zero, List.getD_cons_succ, u32]
  omega

theorem rd32_wr32_of_lt (m : List Nat) (a v j : Nat) (h : a ≤ m.length) (hj : j + 4 ≤ a) :
    rd32 (wr32 m a v) j = rd32 m j :=
  rd32_poke_of_lt m a _ j h hj

theorem rd32_wr32_of_ge (m : List Nat) (a v j : Nat) (h : a ≤ m.length) (hj : a + 4 ≤ j) :
    rd32 (wr32 m a v) j = rd32 m j :=
  rd32_poke_of_ge m a _ j h (by simpa [le32_length] using hj)

/-! ## Mapping lemmas -/

theorem mmap_length (len : Nat) (f : List Nat) :
    (mmap len f).length = min len (f.length + (4096 - f.length % 4096) % 4096) := by
  simp [mmap, List.length_take]

theorem mmap_length_le (len : Nat) (f : List Nat) : (mmap len f).length ≤ len := by
  rw [mmap_length]; omega

theorem mmap_length_ge (len : Nat) (f : List Nat) (hlen : 4096 ≤ len) (h : 0 < (mmap len f).length) :
    4096 ≤ (mmap len f).length := by
  rw [mmap_length] at h ⊢
  omega

theorem mmap_length_of_le (len : Nat) (f : List Nat) (h : len ≤ f.length) :
    (mmap len f).length = len := by
  rw [mmap_length]; omega

theorem mmap_take_of_le (len n : Nat) (f : List Nat) (hn : n ≤ len) (h : n ≤ f.length) :
    (mmap len f).take n = f.take n := by
  simp only [mmap, List.take_take, Nat.min_eq_left hn]
  rw [List.take_append_of_le_length h]

/-! ## The shellcode loop -/

theorem byteAt_append_left (a b : List Nat) (i : Nat) (h : i < a.length) :
    byteAt (a ++ b) i = byteAt a i := by
  simp only [byteAt, List.getD_eq_getElem?_getD, List.getElem?_append_left h]

theorem rd32_append_left (a b : List Nat) (i : Nat) (h : i + 4 ≤ a.length) :
    rd32 (a ++ b) i = rd32 a i := by
  simp only [rd32]
  rw [byteAt_append_left a b i (by omega), byteAt_append_left a b (i + 1) (by omega),
    byteAt_append_left a b (i + 2) (by omega), byteAt_append_left a b (i + 3) (by omega)]

/-- An iteration that sees neither marker leaves the memory alone and clears no flag. -/
theorem sc_step_noop (header ramdisk : Nat) (s : ScState) (i : Nat)
    (h1 : rd32 s.mem i ≠ 0xffffffff) (h2 : rd32 s.mem i ≠ 0xeeeeeeee) :
    (sc_step header ramdisk s i).mem = s.mem
      ∧ (s.found_header ≠ 0 → (sc_step header ramdisk s i).found_header ≠ 0)
      ∧ (s.found_ramdisk ≠ 0 → (sc_step header ramdisk s i).found_ramdisk ≠ 0) := by
  unfold sc_step
  simp only [if_neg h1]
  by_cases c1 : rd32 s.mem i = header
  · simp only [if_pos c1, if_neg h2]
    by_cases c2 : rd32 s.mem i = ramdisk
    · simp only [if_pos c2]
      simp
    · simp only [if_neg c2]
      simp
  · simp only [if_neg c1, if_neg h2]
    by_cases c2 : rd32 s.mem i = ramdisk
    · simp only [if_pos c2]
      simp
    · simp only [if_neg c2]
      simp

theorem sc_fold_noop (header ramdisk : Nat) (m : List Nat) (l : List Nat)
    (hl : ∀ i ∈ l, rd32 m i ≠ 0xffffffff ∧ rd32 m i ≠ 0xeeeeeeee) :
    ∀ s : ScState, s.mem = m →
      (l.foldl (sc_step header ramdisk) s).mem = m
      ∧ (s.found_header ≠ 0 → (l.foldl (sc_step header ramdisk) s).found_header ≠ 0)
      ∧ (s.found_ramdisk ≠ 0 → (l.foldl (sc_step header ramdisk) s).found_ramdisk ≠ 0) := by
  induction l with
  | nil => intro s hs; exact ⟨hs, id, id⟩
  | cons i l ih =>
    intro s hs
    have hi := hl i (List.mem_cons_self i l)
    rw [← hs] at hi
    obtain ⟨e1, e2, e3⟩ := sc_step_noop header ramdisk s i hi.1 hi.2
    obtain ⟨f1, f2, f3⟩ := ih (fun j hj => hl j (List.mem_cons_of_mem i hj))
      (sc_step header ramdisk s i) (e1.trans hs)
    exact ⟨f1, fun h => f2 (e2 h), fun h => f3 (e3 h)⟩

theorem patch_words_before_markers :
    ∀ i ∈ List.range' 0 56, rd32 patch i ≠ 0xffffffff ∧ rd32 patch i ≠ 0xeeeeeeee := by
  decide

/-- The loop on the pristine template, for a header address whose top byte is not `0xee`. -/
theorem sc_pristine (header ramdisk : Nat) (tail : List Nat) (hh : header < 4294967296)
    (hr : ramdisk < 4294967296) (htop : header / 16777216 ≠ 0xee) :
    loki_patch_shellcode (patch ++ tail) header ramdisk
      = (0, patch.take 56 ++ le32 header ++ le32 ramdisk ++ patch.drop 64 ++ tail) := by
  have hrange : List.range sizeof_patch
      = List.range' 0 56 ++ 56 :: (List.range' 57 3 ++ 60 :: List.range' 61 4) := by decide
  have hlen : 65 ≤ (patch ++ tail).length := by
    simp only [List.length_append]; have : patch.length = 65 := rfl; omega
  -- memory after the store of the header, and after the store of the ramdisk address
  let M1 := wr32 (patch ++ tail) 56 header
  let M2 := wr32 M1 60 ramdisk
  have hlen1 : M1.length = (patch ++ tail).length := wr32_length _ _ _ (by omega)
  have b64 : byteAt M2 64 = 0 := by
    show byteAt (poke M1 60 (le32 ramdisk)) 64 = 0
    rw [byteAt_poke_of_ge _ _ _ _ (by omega) (by simp [le32_length])]
    show byteAt (poke (patch ++ tail) 56 (le32 header)) 64 = 0
    rw [byteAt_poke_of_ge _ _ _ _ (by omega) (by simp [le32_length]),
      byteAt_append_left _ _ _ (by decide)]
    rfl
  have bh : ∀ j, j < 4 → byteAt M1 (56 + j) = (le32 header).getD j 0 % 256 := by
    intro j hj
    show byteAt (poke (patch ++ tail) 56 (le32 header)) (56 + j) = _
    rw [byteAt_poke _ _ _ _ (by omega), if_pos (by simp [le32_length]; omega)]
    congr 2; omega
  have be : ∀ j, 60 ≤ j → j < 64 → byteAt M1 j = 0xee := by
    intro j h1 h2
    show byteAt (poke (patch ++ tail) 56 (le32 header)) j = _
    rw [byteAt_poke_of_ge _ _ _ _ (by omega) (by simp [le32_length]; omega),
      byteAt_append_left _ _ _ (by show j < 65; omega)]
    have : j = 60 ∨ j = 61 ∨ j = 62 ∨ j = 63 := by omega
    rcases this with rfl | rfl | rfl | rfl <;> rfl
  have br : ∀ j, j < 4 → byteAt M2 (60 + j) = (le32 ramdisk).getD j 0 % 256 := by
    intro j hj
    show byteAt (poke M1 60 (le32 ramdisk)) (60 + j) = _
    rw [byteAt_poke _ _ _ _ (by omega), if_pos (by simp [le32_length]; omega)]
    congr 2; omega
  -- phase 1: indices 0..55
  have p1 := sc_fold_noop (u32 header) (u32 ramdisk) (patch ++ tail) (List.range' 0 56)
    (by
      intro i hi
      have hi56 : i < 56 := by simpa using hi
      rw [rd32_append_left _ _ _ (by show i + 4 ≤ 65; omega)]
      exact patch_words_before_markers i hi)
    ⟨patch ++ tail, 0, 0⟩ rfl
  have w56 : rd32 (patch ++ tail) 56 = 0xffffffff := by
    rw [rd32_append_left _ _ _ (by decide)]; rfl
  have w60 : rd32 M1 60 = 0xeeeeeeee := by
    show rd32 (wr32 (patch ++ tail) 56 header) 60 = _
    rw [rd32_wr32_of_ge _ _ _ _ (by omega) (by omega), rd32_append_left _ _ _ (by decide)]; rfl
  have wh : rd32 M1 56 = header := by
    show rd32 (wr32 (patch ++ tail) 56 header) 56 = _
    rw [rd32_wr32_same _ _ _ (by omega)]; exact Nat.mod_eq_of_lt hh
  have hne : header ≠ 0xeeeeeeee := by omega
  -- index 56: the header marker is replaced
  have s56 : ∀ s : ScState, s.mem = patch ++ tail →
      (sc_step header ramdisk s 56).mem = M1 ∧ (sc_step header ramdisk s 56).found_header ≠ 0 := by
    intro s hs
    unfold sc_step
    simp only [hs, if_pos w56]
    show (if rd32 M1 56 = 0xeeeeeeee then _ else _ : ScState).mem = M1 ∧ _
    rw [wh, if_neg hne]
    by_cases c : header = ramdisk
    · rw [if_pos c]; exact ⟨rfl, Nat.one_ne_zero⟩
    · rw [if_neg c]; exact ⟨rfl, Nat.one_ne_zero⟩
  -- indices 57..59: words straddling the stored header and the second marker
  have p2 := sc_fold_noop header ramdisk M1 (List.range' 57 3)
    (by
      intro i hi
      have hi' : i = 57 ∨ i = 58 ∨ i = 59 := by
        simp only [List.mem_range'_1] at hi; omega
      have h0 := bh 1 (by omega)
      have h1 := bh 2 (by omega)
      have h2 := bh 3 (by omega)
      have e0 := be 60 (by omega) (by omega)
      have e1 := be 61 (by omega) (by omega)
      have e2 := be 62 (by omega) (by omega)
      simp only [le32, List.getD_cons_zero, List.getD_cons_succ] at h0 h1 h2
      norm_num at h0 h1 h2 e0 e1 e2
      rcases hi' with rfl | rfl | rfl <;> simp only [rd32] <;> norm_num <;>
        simp only [h0, h1, h2, e0, e1, e2] <;> omega)
  -- index 60: the ramdisk marker is replaced
  have s60 : ∀ s : ScState, s.mem = M1 →
      (sc_step header ramdisk s 60).mem = M2
        ∧ (s.found_header ≠ 0 → (sc_step header ramdisk s 60).found_header ≠ 0)
        ∧ (sc_step header ramdisk s 60).found_ramdisk ≠ 0 := by
    intro s hs
    have c1 : ¬ (rd32 s.mem 60 = 0xffffffff) := by rw [hs, w60]; decide
    have c2 : ¬ (rd32 s.mem 60 = header) := by rw [hs, w60]; exact fun h => hne h.symm
    have c3 : rd32 s.mem 60 = 0xeeeeeeee := by rw [hs, w60]
    unfold sc_step
    rw [if_neg c1, if_neg c2, if_pos c3, hs]
    exact ⟨rfl, id, Nat.one_ne_zero⟩
  -- indices 61..64: words containing the terminating NUL
  have p3 := sc_fold_noop header ramdisk M2 (List.range' 61 4)
    (by
      intro i hi
      have hi' : i = 61 ∨ i = 62 ∨ i = 63 ∨ i = 64 := by
        simp only [List.mem_range'_1] at hi; omega
      have r1 := br 1 (by omega)
      have r2 := br 2 (by omega)
      have r3 := br 3 (by omega)
      simp only [le32, List.getD_cons_zero, List.getD_cons_succ] at r1 r2 r3
      norm_num at r1 r2 r3
      rcases hi' with rfl | rfl | rfl | rfl <;> simp only [rd32] <;> norm_num <;>
        simp only [r1, r2, r3, b64] <;> omega)
  have hu : u32 header = header := Nat.mod_eq_of_lt hh
  have hur : u32 ramdisk = ramdisk := Nat.mod_eq_of_lt hr
  unfold loki_patch_shellcode
  rw [hu, hur, hrange, List.foldl_append, List.foldl_cons, List.foldl_append, List.foldl_cons]
  rw [hu, hur] at p1
  obtain ⟨a1, -, -⟩ := p1
  obtain ⟨a2, a3⟩ := s56 _ a1
  obtain ⟨a4, a5, -⟩ := p2 _ a2
  obtain ⟨a6, a7, a8⟩ := s60 _ a4
  obtain ⟨a9, a10, a11⟩ := p3 _ a6
  simp only [a9, if_pos (And.intro (a10 (a7 (a5 a3))) (a11 a8))]
  rfl

/-! ## Page alignment -/

theorem and_not_mask (y e : Nat) (hy : y < 2 ^ 32) (he : e ≤ 32) :
    y &&& (0xffffffff - (2 ^ e - 1)) = y / 2 ^ e * 2 ^ e := by
  have hm : (0xffffffff : Nat) - (2 ^ e - 1) = 2 ^ 32 - ((2 ^ e - 1) + 1) := by
    have : 0 < 2 ^ e := Nat.two_pow_pos e
    norm_num; omega
  have hlt : 2 ^ e - 1 < 2 ^ 32 := by
    have : 2 ^ e ≤ 2 ^ 32 := Nat.pow_le_pow_right (by decide) he
    omega
  apply Nat.eq_of_testBit_eq
  intro i
  rw [Nat.testBit_and, hm, Nat.testBit_two_pow_sub_succ hlt, Nat.testBit_two_pow_sub_one,
    Nat.mul_comm, Nat.testBit_mul_pow_two, ← Nat.shiftRight_eq_div_pow, Nat.testBit_shiftRight]
  by_cases h1 : i < e
  · simp [h1]
  · have h2 : e ≤ i := by omega
    by_cases h3 : i < 32
    · simp [h1, h2, h3]
    · simp [h1, h2, h3]
      exact Nat.testBit_lt_two_pow
        (lt_of_lt_of_le hy (Nat.pow_le_pow_right (by decide) (by omega)))

theorem page_mask_eq (e : Nat) (he : e < 32) : u32 (2 ^ e + 0xffffffff) = 2 ^ e - 1 := by
  have h1 : 0 < 2 ^ e := Nat.two_pow_pos e
  have h2 : 2 ^ e < 2 ^ 32 := Nat.pow_lt_pow_right (by decide) he
  simp only [u32]
  norm_num at h2 ⊢
  omega

/-- `align_up` rounds up to the next multiple of the page size, modulo 2^32. -/
theorem align_up_eq (x e : Nat) (hx : x < 4294967296) (he : e < 32) :
    align_up x (u32 (2 ^ e + 0xffffffff)) = page_align x (2 ^ e) % 4294967296 := by
  have h1 : 0 < 2 ^ e := Nat.two_pow_pos e
  have h2 : 2 ^ e < 2 ^ 32 := Nat.pow_lt_pow_right (by decide) he
  have hd : 2 ^ e ∣ 2 ^ 32 := Nat.pow_dvd_pow 2 (by omega)
  obtain ⟨q, hq⟩ := hd
  rw [page_mask_eq e he]
  unfold align_up
  have hu : u32 (x + (2 ^ e - 1)) < 2 ^ 32 := Nat.mod_lt _ (by norm_num)
  rw [and_not_mask _ e hu (by omega)]
  unfold page_align u32
  have e1 : x + 2 ^ e - 1 = x + (2 ^ e - 1) := by omega
  rw [e1]
  by_cases hc : x + (2 ^ e - 1) < 4294967296
  · rw [Nat.mod_eq_of_lt hc]
    have : (x + (2 ^ e - 1)) / 2 ^ e * 2 ^ e ≤ x + (2 ^ e - 1) := Nat.div_mul_le_self _ _
    rw [Nat.mod_eq_of_lt (by omega)]
  · have hge : 4294967296 ≤ x + (2 ^ e - 1) := by omega
    have e2 : (x + (2 ^ e - 1)) % 4294967296 = x + (2 ^ e - 1) - 4294967296 := by omega
    rw [e2]
    have e3 : (x + (2 ^ e - 1) - 4294967296) / 2 ^ e = 0 :=
      Nat.div_eq_of_lt (by norm_num at h2 ⊢; omega)
    rw [e3]
    have e4 : x + (2 ^ e - 1) = (x + (2 ^ e - 1) - 4294967296) + q * 2 ^ e := by
      have : (2:Nat) ^ 32 = 4294967296 := by norm_num
      rw [Nat.mul_comm q, ← hq]; omega
    have e5 : (x + (2 ^ e - 1)) / 2 ^ e = q := by
      rw [e4, Nat.add_mul_div_right _ _ h1, e3, Nat.zero_add]
    rw [e5, Nat.mul_comm q, ← hq]
    norm_num

theorem page_align_isLeast (x P : Nat) (hP : 0 < P) :
    IsLeast {m | P ∣ m ∧ x ≤ m} (page_align x P) := by
  unfold page_align
  constructor
  · refine ⟨Dvd.intro_left _ rfl, ?_⟩
    have := Nat.div_add_mod (x + P - 1) P
    have := Nat.mod_lt (x + P - 1) hP
    have e : (x + P - 1) / P * P = P * ((x + P - 1) / P) := Nat.mul_comm _ _
    omega
  · rintro m ⟨⟨c, rfl⟩, hm⟩
    rw [Nat.mul_comm P c]
    apply Nat.mul_le_mul_right
    have h : (x + P - 1) / P < c + 1 := by
      rw [Nat.div_lt_iff_lt_mul hP, Nat.add_mul, Nat.mul_comm c P]
      omega
    omega

/-! ## C2 -/

theorem targets_hdr_ok : ∀ t ∈ targets, t.hdr < 4294967296 ∧ t.hdr / 16777216 ≠ 0xee := by
  decide

/-- C2: on the pristine template (marker 0xffffffff at offset 56, marker 0xeeeeeeee at
offset 60), for every catalog target and every 32-bit ramdisk address,
`loki_patch_shellcode` returns 0 and leaves the template with bytes 56..59 replaced by
`target.hdr` and bytes 60..63 by the ramdisk address, little-endian; every other byte of
the array and the memory after it are unchanged. -/
theorem C2_shellcode_substitutes_markers (t : target) (ht : t ∈ targets) (ramdisk_addr : Nat)
    (hr : ramdisk_addr < 4294967296) (tail : List Nat) :
    rd32 patch 56 = 0xffffffff ∧ rd32 patch 60 = 0xeeeeeeee ∧
    loki_patch_shellcode (patch ++ tail) t.hdr ramdisk_addr
      = (0, patch.take 56 ++ le32 t.hdr ++ le32 ramdisk_addr ++ patch.drop 64 ++ tail) :=
  ⟨by decide, by decide,
    sc_pristine t.hdr ramdisk_addr tail (targets_hdr_ok t ht).1 hr (targets_hdr_ok t ht).2⟩

/-- C2 at the first catalog entry, ramdisk address 0x82008000, three zero bytes after the array. -/
theorem C2_shellcode_substitutes_markers_witness :
    (⟨"AT&T", "Samsung Galaxy S4", "JDQ39.I337UCUAMDB or JDQ39.I337UCUAMDL", 0x88e0ff98,
        0x88f3bafc, 0⟩ : target) ∈ targets ∧
    loki_patch_shellcode (patch ++ [0, 0, 0]) 0x88f3bafc 0x82008000
      = (0, patch.take 56 ++ le32 0x88f3bafc ++ le32 0x82008000 ++ patch.drop 64 ++ [0, 0, 0]) :=
  ⟨List.mem_cons_self _ _,
    (C2_shellcode_substitutes_markers _ (List.mem_cons_self _ _) 0x82008000 (by decide)
      [0, 0, 0]).2.2⟩

/-! ## The scan -/

theorem family_base_eq_none (s : List Nat) : family_base s = none ↔ s ∉ known_signatures := by
  unfold family_base known_signatures
  simp only [List.mem_cons, List.mem_singleton, List.not_mem_nil, or_false, not_or]
  split_ifs with h1 h2 h3
  · simp only [reduceCtorEq, false_iff]; tauto
  · simp only [reduceCtorEq, false_iff]; tauto
  · simp only [reduceCtorEq, false_iff]; tauto
  · simp only [true_iff]; tauto

theorem family_base_pos (s : List Nat) (b : Nat) (h : family_base s = some b) : 0 < b := by
  unfold family_base at h
  split_ifs at h <;> simp at h <;> omega

theorem scan_loop_succ (aboot : List Nat) (n o : Nat) :
    scan_loop aboot (n + 1) o =
      if aboot.length < o + 8 then .fault
      else match family_base (slice aboot o 8) with
        | some b => .found (o + b) b
        | none => scan_loop aboot n (o + 1) := by
  rw [scan_loop]
  simp only [memcmp8, family_base, Bool.or_eq_true, beq_iff_eq, ABOOT_BASE_SAMSUNG, ABOOT_BASE_LG,
    ABOOT_BASE_G2, or_assoc]
  split_ifs <;> rfl

theorem scan_loop_exhausted_iff (aboot : List Nat) (n : Nat) : ∀ o,
    scan_loop aboot n o = .exhausted ↔
      ∀ j < n, o + j + 8 ≤ aboot.length ∧ family_base (slice aboot (o + j) 8) = none := by
  induction n with
  | zero => intro o; simp [scan_loop]
  | succ n ih =>
    intro o
    rw [scan_loop_succ]
    constructor
    · intro h
      split_ifs at h with hf
      cases hb : family_base (slice aboot o 8) with
      | some b => rw [hb] at h; simp at h
      | none =>
        rw [hb] at h
        have := (ih (o + 1)).1 h
        intro j hj
        rcases Nat.eq_zero_or_pos j with rfl | hpos
        · exact ⟨by omega, hb⟩
        · have := this (j - 1) (by omega)
          have e : o + 1 + (j - 1) = o + j := by omega
          rwa [e] at this
    · intro h
      have h0 := h 0 (by omega)
      simp only [Nat.add_zero] at h0
      rw [if_neg (by omega), h0.2]
      apply (ih (o + 1)).2
      intro j hj
      have := h (j + 1) (by omega)
      have e : o + (j + 1) = o + 1 + j := by omega
      rwa [e] at this

theorem scan_loop_found_iff (aboot : List Nat) (t b : Nat) (n : Nat) : ∀ o,
    scan_loop aboot n o = .found t b ↔
      ∃ j < n, (∀ i < j, o + i + 8 ≤ aboot.length ∧ family_base (slice aboot (o + i) 8) = none)
        ∧ o + j + 8 ≤ aboot.length ∧ family_base (slice aboot (o + j) 8) = some b
        ∧ t = o + j + b := by
  induction n with
  | zero => intro o; simp [scan_loop]
  | succ n ih =>
    intro o
    rw [scan_loop_succ]
    constructor
    · intro h
      split_ifs at h with hf
      cases hb : family_base (slice aboot o 8) with
      | some b' =>
        rw [hb] at h
        simp only [ScanResult.found.injEq] at h
        obtain ⟨h1, h2⟩ := h
        subst h2
        exact ⟨0, by omega, by intro i hi; omega, by omega, hb, by omega⟩
      | none =>
        rw [hb] at h
        obtain ⟨j, hj, h1, h2, h3, h4⟩ := (ih (o + 1)).1 h
        refine ⟨j + 1, by omega, ?_, by omega, ?_, by omega⟩
        · intro i hi
          rcases Nat.eq_zero_or_pos i with rfl | hpos
          · exact ⟨by omega, hb⟩
          · have := h1 (i - 1) (by omega)
            have e : o + 1 + (i - 1) = o + i := by omega
            rwa [e] at this
        · have e : o + (j + 1) = o + 1 + j := by omega
          rwa [e]
    · rintro ⟨j, hj, h1, h2, h3, h4⟩
      rcases Nat.eq_zero_or_pos j with rfl | hpos
      · simp only [Nat.add_zero] at h2 h3 h4
        rw [if_neg (by omega), h3]
        simp only [ScanResult.found.injEq, and_true]
        omega
      · have h0 := h1 0 hpos
        simp only [Nat.add_zero] at h0
        rw [if_neg (by omega), h0.2]
        apply (ih (o + 1)).2
        refine ⟨j - 1, by omega, ?_, by omega, ?_, by omega⟩
        · intro i hi
          have := h1 (i + 1) (by omega)
          have e : o + (i + 1) = o + 1 + i := by omega
          rwa [e] at this
        · have e : o + 1 + (j - 1) = o + j := by omega
          rwa [e]

theorem scan_found_iff (aboot : List Nat) (t b : Nat) :
    scan aboot = .found t b ↔
      ∃ o < SCAN_LIMIT, (∀ i < o, i + 8 ≤ aboot.length ∧ family_base (slice aboot i 8) = none)
        ∧ o + 8 ≤ aboot.length ∧ family_base (slice aboot o 8) = some b ∧ t = o + b := by
  unfold scan
  rw [scan_loop_found_iff]
  simp only [Nat.zero_add]

theorem scan_exhausted_iff (aboot : List Nat) :
    scan aboot = .exhausted ↔
      ∀ o < SCAN_LIMIT, o + 8 ≤ aboot.length ∧ family_base (slice aboot o 8) = none := by
  unfold scan
  rw [scan_loop_exhausted_iff]
  simp only [Nat.zero_add]

theorem scan_found_ne_zero (aboot : List Nat) (t b : Nat) (h : scan aboot = .found t b) :
    t ≠ 0 := by
  obtain ⟨o, -, -, -, hb, ht⟩ := (scan_found_iff aboot t b).1 h
  have := family_base_pos _ _ hb
  omega


/-! ## The stages of loki_patch -/

theorem rd32_lt (m : List Nat) (i : Nat) : rd32 m i < 4294967296 := by
  simp only [rd32, byteAt]
  omega

theorem strncpy_length (s : String) (n : Nat) : (strncpy s n).length = n := by
  simp only [strncpy, List.length_append, List.length_replicate, List.length_take]
  omega

theorem stamped_length (orig : List Nat) (recovery : Nat) (tgt : target)
    (h : 4096 ≤ orig.length) : (stamped orig recovery tgt).length = orig.length := by
  have l1 : (poke orig 0x400 LOKI_MAGIC).length = orig.length :=
    poke_length _ _ _ (by simp [LOKI_MAGIC]; omega)
  have l2 : (wr32 (poke orig 0x400 LOKI_MAGIC) 0x404 recovery).length = orig.length := by
    rw [wr32_length _ _ _ (by omega), l1]
  unfold stamped
  rw [poke_length _ _ _ (by rw [strncpy_length]; omega), l2]

theorem rd32_stamped (orig : List Nat) (recovery : Nat) (tgt : target)
    (h : 4096 ≤ orig.length) (j : Nat) (hj : j + 4 ≤ 0x400) :
    rd32 (stamped orig recovery tgt) j = rd32 orig j := by
  have l1 : (poke orig 0x400 LOKI_MAGIC).length = orig.length :=
    poke_length _ _ _ (by simp [LOKI_MAGIC]; omega)
  have l2 : (wr32 (poke orig 0x400 LOKI_MAGIC) 0x404 recovery).length = orig.length := by
    rw [wr32_length _ _ _ (by omega), l1]
  unfold stamped
  rw [rd32_poke_of_lt _ _ _ _ (by omega) (by omega), rd32_wr32_of_lt _ _ _ _ (by omega) (by omega),
    rd32_poke_of_lt _ _ _ _ (by omega) (by omega)]

theorem body_eq (recovery : Nat) (abootFile : List Nat) (aboot_base : Nat) (tgt : target)
    (img pm : List Nat) (junk : Nat → Nat) (h : 4096 ≤ (mmap 25174016 img).length)
    (hnl : slice (mmap 25174016 img) 0x400 4 ≠ LOKI_MAGIC) :
    loki_patch_body recovery abootFile aboot_base tgt img pm junk
      = loki_patch_rewrite abootFile aboot_base tgt (stamped (mmap 25174016 img) recovery tgt)
          (rd32 (mmap 25174016 img) PAGE_SIZE) (u32 (rd32 (mmap 25174016 img) PAGE_SIZE + 0xffffffff))
          (rd32 (mmap 25174016 img) KERNEL_SIZE) (rd32 (mmap 25174016 img) RAMDISK_SIZE) pm junk := by
  unfold loki_patch_body
  simp only [if_neg hnl, if_neg (show ¬ (mmap 25174016 img).length < 0x404 by omega)]
  have e := rd32_stamped (mmap 25174016 img) recovery tgt h
  unfold stamped at e
  rw [e PAGE_SIZE (by decide), e KERNEL_SIZE (by decide), e RAMDISK_SIZE (by decide)]
  rfl

theorem rewrite_eq (abootFile : List Nat) (aboot_base : Nat) (tgt : target) (m : List Nat)
    (page_size page_mask : Nat) (pm : List Nat) (junk : Nat → Nat) (h : 4096 ≤ m.length) :
    loki_patch_rewrite abootFile aboot_base tgt m page_size page_mask (rd32 m KERNEL_SIZE)
        (rd32 m RAMDISK_SIZE) pm junk
      = if (loki_patch_shellcode pm tgt.hdr (rd32 m RAMDISK_ADDR)).1 < 0 then
          ⟨.shellcode, [], (loki_patch_shellcode pm tgt.hdr (rd32 m RAMDISK_ADDR)).2⟩
        else loki_patch_emit abootFile aboot_base tgt (rewritten m tgt page_size page_mask)
          page_size page_mask (rd32 m KERNEL_SIZE) (rd32 m RAMDISK_SIZE)
          (tgt.check_sigs &&& 0xf) (if tgt.lg ≠ 0 then page_size else 0x200)
          (loki_patch_shellcode pm tgt.hdr (rd32 m RAMDISK_ADDR)).2 junk := by
  have l1 : (wr32 m 0x488 (rd32 m KERNEL_SIZE)).length = m.length := wr32_length _ _ _ (by omega)
  have l2 : (wr32 (wr32 m 0x488 (rd32 m KERNEL_SIZE)) 0x48c (rd32 m RAMDISK_SIZE)).length
      = m.length := by rw [wr32_length _ _ _ (by omega), l1]
  have r2 : ∀ j, j + 4 ≤ 0x488 →
      rd32 (wr32 (wr32 m 0x488 (rd32 m KERNEL_SIZE)) 0x48c (rd32 m RAMDISK_SIZE)) j = rd32 m j := by
    intro j hj
    rw [rd32_wr32_of_lt _ _ _ _ (by omega) (by omega), rd32_wr32_of_lt _ _ _ _ (by omega) (by omega)]
  have r3 : ∀ v j, j + 4 ≤ 0x488 →
      rd32 (wr32 (wr32 (wr32 m 0x488 (rd32 m KERNEL_SIZE)) 0x48c (rd32 m RAMDISK_SIZE)) 0x490 v) j
        = rd32 m j := by
    intro v j hj
    rw [rd32_wr32_of_lt _ _ _ _ (by omega) (by omega), r2 j hj]
  unfold loki_patch_rewrite rewritten
  simp only [r2 KERNEL_ADDR (by decide), r2 KERNEL_SIZE (by decide), r3 _ KERNEL_SIZE (by decide),
    r3 _ RAMDISK_SIZE (by decide), r3 _ RAMDISK_ADDR (by decide)]


theorem filler_length (abootFile : List Nat) (pos n : Nat) (junk : Nat → Nat) :
    (filler abootFile pos n junk).length = n := by
  simp [filler]

theorem take_append_slice (m : List Nat) (a n : Nat) : m.take a ++ slice m a n = m.take (a + n) := by
  rw [slice, List.take_add]

theorem emit_ok (abootFile : List Nat) (aboot_base : Nat) (tgt : target) (orig : List Nat)
    (page_size page_mask k r offset fake_size : Nat) (pm : List Nat) (junk : Nat → Nat)
    (hok : (loki_patch_emit abootFile aboot_base tgt orig page_size page_mask k r offset
      fake_size pm junk).status = .ok) :
    page_size + align_up k page_mask + align_up r page_mask ≤ orig.length
    ∧ (rd32 orig DT_SIZE ≠ 0 →
        page_size + align_up k page_mask + align_up r page_mask + rd32 orig DT_SIZE ≤ orig.length)
    ∧ loki_patch_emit abootFile aboot_base tgt orig page_size page_mask k r offset fake_size pm junk
      = ⟨.ok, pwrite
          (orig.take (page_size + align_up k page_mask + align_up r page_mask)
            ++ filler abootFile (tgt.check_sigs - aboot_base - offset) fake_size junk
            ++ slice orig (page_size + align_up k page_mask + align_up r page_mask) (rd32 orig DT_SIZE))
          (page_size + align_up k page_mask + align_up r page_mask + offset)
          (pm.take sizeof_patch), pm⟩ := by
  unfold loki_patch_emit at hok ⊢
  simp only [take_append_slice] at hok ⊢
  by_cases h1 : orig.length < page_size
  · rw [if_pos h1] at hok; simp at hok
  by_cases h2 : orig.length < page_size + align_up k page_mask
  · rw [if_neg h1, if_pos h2] at hok; simp at hok
  by_cases h3 : orig.length < page_size + align_up k page_mask + align_up r page_mask
  · rw [if_neg h1, if_neg h2, if_pos h3] at hok; simp at hok
  by_cases h4 : rd32 orig DT_SIZE ≠ 0
      ∧ orig.length < page_size + align_up k page_mask + align_up r page_mask + rd32 orig DT_SIZE
  · rw [if_neg h1, if_neg h2, if_neg h3, if_pos h4] at hok; simp at hok
  rw [if_neg h1, if_neg h2, if_neg h3, if_neg h4]
  refine ⟨by omega, fun hd => ?_, ?_⟩
  · by_contra hc
    exact h4 ⟨hd, by omega⟩
  · have hl : (List.take (page_size + align_up k page_mask + align_up r page_mask) orig).length
        = page_size + align_up k page_mask + align_up r page_mask := by
      rw [List.length_take]; omega
    have hp : ((((List.take (page_size + align_up k page_mask + align_up r page_mask) orig
        ++ filler abootFile (tgt.check_sigs - aboot_base - offset) fake_size junk).length : Nat) : Int)
          - ((fake_size : Int) - (offset : Int))).toNat
        = page_size + align_up k page_mask + align_up r page_mask + offset := by
      rw [List.length_append, hl, filler_length]
      omega
    rw [hp]
    by_cases hd : rd32 orig DT_SIZE = 0
    · simp [hd, slice]
    · simp [hd]


theorem getElem?_poke (m : List Nat) (a : Nat) (d : List Nat) (j : Nat) (h : a ≤ m.length) :
    (poke m a d)[j]? = if a ≤ j ∧ j < a + d.length then d[j - a]? else m[j]? := by
  have hl : (m.take a).length = a := by simp [List.length_take]; omega
  simp only [poke, List.append_assoc]
  by_cases h1 : j < a
  · rw [List.getElem?_append_left (by omega), List.getElem?_take_of_lt h1, if_neg (by omega)]
  · rw [List.getElem?_append_right (by omega), hl]
    by_cases h2 : j < a + d.length
    · rw [List.getElem?_append_left (by omega), if_pos (by omega)]
    · rw [List.getElem?_append_right (by omega), if_neg (by omega), List.getElem?_drop]
      have e : a + d.length + (j - a - d.length) = j := by omega
      rw [e]

theorem getElem?_wr32_out (m : List Nat) (a v j : Nat) (h : a ≤ m.length)
    (hj : j < a ∨ a + 4 ≤ j) : (wr32 m a v)[j]? = m[j]? := by
  unfold wr32
  rw [getElem?_poke _ _ _ _ h, if_neg (by rw [le32_length]; omega)]

theorem drop_poke (m : List Nat) (a : Nat) (d : List Nat) (n : Nat) (h : a ≤ m.length)
    (hn : a + d.length ≤ n) : (poke m a d).drop n = m.drop n := by
  apply List.ext_getElem?
  intro j
  rw [List.getElem?_drop, List.getElem?_drop, getElem?_poke _ _ _ _ h, if_neg (by omega)]

theorem drop_wr32 (m : List Nat) (a v n : Nat) (h : a ≤ m.length) (hn : a + 4 ≤ n) :
    (wr32 m a v).drop n = m.drop n :=
  drop_poke m a _ n h (by rw [le32_length]; exact hn)

/-- Facts about the image after the stores into the boot header and the Loki header. -/
theorem rewritten_facts (m : List Nat) (tgt : target) (page_size page_mask : Nat)
    (h : 4096 ≤ m.length) :
    (rewritten m tgt page_size page_mask).length = m.length
    ∧ rd32 (rewritten m tgt page_size page_mask) KERNEL_SIZE
        = u32 (align_up (rd32 m KERNEL_SIZE) page_mask + rd32 m RAMDISK_SIZE)
    ∧ rd32 (rewritten m tgt page_size page_mask) RAMDISK_ADDR
        = u32 (tgt.check_sigs - (tgt.check_sigs &&& 0xf))
    ∧ rd32 (rewritten m tgt page_size page_mask) RAMDISK_SIZE
        = u32 (if tgt.lg ≠ 0 then page_size else 0)
    ∧ (∀ n, 0x494 ≤ n → (rewritten m tgt page_size page_mask).drop n = m.drop n)
    ∧ (∀ j, ((j < 8 ∨ (12 ≤ j ∧ j < 16) ∨ (24 ≤ j ∧ j < 0x488) ∨ 0x494 ≤ j) →
        (rewritten m tgt page_size page_mask)[j]? = m[j]?)) := by
  unfold rewritten
  generalize rd32 m KERNEL_SIZE = v1
  generalize rd32 m RAMDISK_SIZE = v2
  generalize (rd32 m KERNEL_ADDR + align_up v1 page_mask) = w3
  generalize (align_up v1 page_mask + v2) = w4
  generalize (tgt.check_sigs - (tgt.check_sigs &&& 0xf)) = w5
  generalize (if tgt.lg ≠ 0 then page_size else 0) = v6
  have l1 : (wr32 m 0x488 v1).length = m.length := wr32_length _ _ _ (by omega)
  have l2 : (wr32 (wr32 m 0x488 v1) 0x48c v2).length = m.length := by
    rw [wr32_length _ _ _ (by omega), l1]
  have l3 : (wr32 (wr32 (wr32 m 0x488 v1) 0x48c v2) 0x490 (u32 w3)).length = m.length := by
    rw [wr32_length _ _ _ (by omega), l2]
  have l4 : (wr32 (wr32 (wr32 (wr32 m 0x488 v1) 0x48c v2) 0x490 (u32 w3)) KERNEL_SIZE (u32 w4)).length
      = m.length := by
    rw [wr32_length _ _ _ (by simp only [KERNEL_SIZE]; omega), l3]
  have l5 : (wr32 (wr32 (wr32 (wr32 (wr32 m 0x488 v1) 0x48c v2) 0x490 (u32 w3)) KERNEL_SIZE (u32 w4))
      RAMDISK_ADDR (u32 w5)).length = m.length := by
    rw [wr32_length _ _ _ (by simp only [RAMDISK_ADDR]; omega), l4]
  refine ⟨?_, ?_, ?_, ?_, ?_, ?_⟩
  · rw [wr32_length _ _ _ (by simp only [RAMDISK_SIZE]; omega), l5]
  · rw [rd32_wr32_of_lt _ _ _ _ (by simp only [RAMDISK_SIZE]; omega) (by decide),
      rd32_wr32_of_lt _ _ _ _ (by simp only [RAMDISK_ADDR]; omega) (by decide),
      rd32_wr32_same _ _ _ (by simp only [KERNEL_SIZE]; omega)]
    simp only [u32, Nat.mod_mod]
  · rw [rd32_wr32_of_ge _ _ _ _ (by simp only [RAMDISK_SIZE]; omega) (by decide),
      rd32_wr32_same _ _ _ (by simp only [RAMDISK_ADDR]; omega)]
    simp only [u32, Nat.mod_mod]
  · rw [rd32_wr32_same _ _ _ (by simp only [RAMDISK_SIZE]; omega)]
  · intro n hn
    rw [drop_wr32 _ _ _ _ (by simp only [RAMDISK_SIZE]; omega) (by simp only [RAMDISK_SIZE]; omega),
      drop_wr32 _ _ _ _ (by simp only [RAMDISK_ADDR]; omega) (by simp only [RAMDISK_ADDR]; omega),
      drop_wr32 _ _ _ _ (by simp only [KERNEL_SIZE]; omega) (by simp only [KERNEL_SIZE]; omega),
      drop_wr32 _ _ _ _ (by omega) (by omega), drop_wr32 _ _ _ _ (by omega) (by omega),
      drop_wr32 _ _ _ _ (by omega) (by omega)]
  · intro j hj
    rw [getElem?_wr32_out _ _ _ _ (by simp only [RAMDISK_SIZE]; omega) (by simp only [RAMDISK_SIZE]; omega),
      getElem?_wr32_out _ _ _ _ (by simp only [RAMDISK_ADDR]; omega) (by simp only [RAMDISK_ADDR]; omega),
      getElem?_wr32_out _ _ _ _ (by simp only [KERNEL_SIZE]; omega) (by simp only [KERNEL_SIZE]; omega),
      getElem?_wr32_out _ _ _ _ (by omega) (by omega), getElem?_wr32_out _ _ _ _ (by omega) (by omega),
      getElem?_wr32_out _ _ _ _ (by omega) (by omega)]


theorem byteAt_congr (m m' : List Nat) (j j' : Nat) (h : m[j]? = m'[j']?) :
    byteAt m j = byteAt m' j' := by
  simp only [byteAt, List.getD_eq_getElem?_getD, h]

theorem rd32_congr (m m' : List Nat) (j : Nat) (h : ∀ i, i < 4 → m[j + i]? = m'[j + i]?) :
    rd32 m j = rd32 m' j := by
  simp only [rd32]
  rw [byteAt_congr m m' j j (h 0 (by omega)), byteAt_congr m m' _ _ (h 1 (by omega)),
    byteAt_congr m m' _ _ (h 2 (by omega)), byteAt_congr m m' _ _ (h 3 (by omega))]

theorem slice_congr (m m' : List Nat) (o n : Nat) (h : ∀ i, i < n → m[o + i]? = m'[o + i]?) :
    slice m o n = slice m' o n := by
  apply List.ext_getElem?
  intro i
  simp only [slice, List.getElem?_take, List.getElem?_drop]
  by_cases hi : i < n
  · rw [if_pos hi, if_pos hi]; exact h i hi
  · rw [if_neg hi, if_neg hi]

/-- Facts about the image after "Set the Loki header". -/
theorem stamped_facts (orig : List Nat) (recovery : Nat) (tgt : target) (h : 4096 ≤ orig.length) :
    slice (stamped orig recovery tgt) 0x400 4 = LOKI_MAGIC
    ∧ rd32 (stamped orig recovery tgt) 0x404 = u32 recovery
    ∧ slice (stamped orig recovery tgt) 0x408 127 = strncpy tgt.build 127
    ∧ (∀ n, 0x487 ≤ n → (stamped orig recovery tgt).drop n = orig.drop n)
    ∧ (∀ j, (j < 0x400 ∨ 0x487 ≤ j) → (stamped orig recovery tgt)[j]? = orig[j]?) := by
  have l1 : (poke orig 0x400 LOKI_MAGIC).length = orig.length :=
    poke_length _ _ _ (by simp [LOKI_MAGIC]; omega)
  have l2 : (wr32 (poke orig 0x400 LOKI_MAGIC) 0x404 recovery).length = orig.length := by
    rw [wr32_length _ _ _ (by omega), l1]
  have hm : LOKI_MAGIC.length = 4 := rfl
  have hs := strncpy_length tgt.build 127
  have key : ∀ j, (stamped orig recovery tgt)[j]? =
      if 0x408 ≤ j ∧ j < 0x408 + 127 then (strncpy tgt.build 127)[j - 0x408]?
      else if 0x404 ≤ j ∧ j < 0x404 + 4 then (le32 recovery)[j - 0x404]?
      else if 0x400 ≤ j ∧ j < 0x400 + 4 then LOKI_MAGIC[j - 0x400]?
      else orig[j]? := by
    intro j
    unfold stamped wr32
    rw [getElem?_poke _ _ _ _ (by rw [← wr32, l2]; omega), getElem?_poke _ _ _ _ (by omega),
      getElem?_poke _ _ _ _ (by omega), hs, hm, le32_length]
  refine ⟨?_, ?_, ?_, ?_, ?_⟩
  · apply List.ext_getElem?
    intro i
    simp only [slice, List.getElem?_take, List.getElem?_drop]
    by_cases hi : i < 4
    · rw [if_pos hi, key, if_neg (by omega), if_neg (by omega), if_pos (by omega)]
      have e : 0x400 + i - 0x400 = i := by omega
      rw [e]
    · rw [if_neg hi]
      exact (List.getElem?_eq_none (by rw [hm]; omega)).symm
  · have e : ∀ i, i < 4 → byteAt (stamped orig recovery tgt) (0x404 + i)
        = (le32 recovery).getD i 0 % 256 := by
      intro i hi
      simp only [byteAt, List.getD_eq_getElem?_getD]
      rw [key, if_neg (by omega), if_pos (by omega)]
      have e : 0x404 + i - 0x404 = i := by omega
      rw [e]
    simp only [rd32]
    have e0 := e 0 (by omega)
    rw [e0, e 1 (by omega), e 2 (by omega), e 3 (by omega)]
    simp only [le32, List.getD_cons_zero, List.getD_cons_succ, u32]
    omega
  · apply List.ext_getElem?
    intro i
    simp only [slice, List.getElem?_take, List.getElem?_drop]
    by_cases hi : i < 127
    · rw [if_pos hi, key, if_pos (by omega)]
      have e : 0x408 + i - 0x408 = i := by omega
      rw [e]
    · rw [if_neg hi]
      exact (List.getElem?_eq_none (by rw [hs]; omega)).symm
  · intro n hn
    apply List.ext_getElem?
    intro i
    rw [List.getElem?_drop, List.getElem?_drop, key, if_neg (by omega), if_neg (by omega),
      if_neg (by omega)]
  · intro j hj
    rw [key, if_neg (by omega), if_neg (by omega), if_neg (by omega)]


/-- Facts about the image after all stores of `loki_patch`. -/
theorem edited_facts (orig : List Nat) (recovery : Nat) (tgt : target) (h : 4096 ≤ orig.length) :
    (edited orig recovery tgt).length = orig.length
    ∧ rd32 (edited orig recovery tgt) KERNEL_SIZE
        = u32 (align_up (rd32 orig KERNEL_SIZE) (mask_of orig) + rd32 orig RAMDISK_SIZE)
    ∧ rd32 (edited orig recovery tgt) RAMDISK_ADDR
        = u32 (tgt.check_sigs - (tgt.check_sigs &&& 0xf))
    ∧ rd32 (edited orig recovery tgt) RAMDISK_SIZE
        = u32 (if tgt.lg ≠ 0 then rd32 orig PAGE_SIZE else 0)
    ∧ (∀ n, 0x494 ≤ n → (edited orig recovery tgt).drop n = orig.drop n)
    ∧ (∀ j, ((j < 8 ∨ (12 ≤ j ∧ j < 16) ∨ (24 ≤ j ∧ j < 0x400) ∨ 0x494 ≤ j) →
        (edited orig recovery tgt)[j]? = orig[j]?))
    ∧ slice (edited orig recovery tgt) 0x400 4 = LOKI_MAGIC
    ∧ rd32 (edited orig recovery tgt) 0x404 = u32 recovery
    ∧ slice (edited orig recovery tgt) 0x408 127 = strncpy tgt.build 127 := by
  have hs := stamped_length orig recovery tgt h
  obtain ⟨s1, s2, s3, s4, s5⟩ := stamped_facts orig recovery tgt h
  obtain ⟨r1, r2, r3, r4, r5, r6⟩ :=
    rewritten_facts (stamped orig recovery tgt) tgt (rd32 orig PAGE_SIZE) (mask_of orig)
      (by rw [hs]; exact h)
  have rs := rd32_stamped orig recovery tgt h
  rw [rs KERNEL_SIZE (by decide), rs RAMDISK_SIZE (by decide)] at r2
  unfold edited
  refine ⟨by rw [r1, hs], r2, r3, r4, ?_, ?_, ?_, ?_, ?_⟩
  · intro n hn
    rw [r5 n hn, s4 n (by omega)]
  · intro j hj
    rw [r6 j (by omega), s5 j (by omega)]
  · rw [← s1]
    exact slice_congr _ _ _ _ (fun i hi => r6 _ (by omega))
  · rw [← s2]
    exact rd32_congr _ _ _ (fun i hi => r6 _ (by omega))
  · rw [← s3]
    exact slice_congr _ _ _ _ (fun i hi => r6 _ (by omega))

/-- The successful run of `loki_patch_body` on an image without the Loki magic. -/
theorem body_ok (recovery : Nat) (abootFile : List Nat) (aboot_base : Nat) (tgt : target)
    (img pm : List Nat) (junk : Nat → Nat)
    (hnl : slice (mmap 25174016 img) 0x400 4 ≠ LOKI_MAGIC)
    (hok : (loki_patch_body recovery abootFile aboot_base tgt img pm junk).status = .ok) :
    4096 ≤ (mmap 25174016 img).length
    ∧ ¬ (loki_patch_shellcode pm tgt.hdr (rd32 (mmap 25174016 img) RAMDISK_ADDR)).1 < 0
    ∧ seg_end (mmap 25174016 img) ≤ (mmap 25174016 img).length
    ∧ (rd32 (mmap 25174016 img) DT_SIZE ≠ 0 →
        seg_end (mmap 25174016 img) + rd32 (mmap 25174016 img) DT_SIZE ≤ (mmap 25174016 img).length)
    ∧ loki_patch_body recovery abootFile aboot_base tgt img pm junk
      = ⟨.ok, pwrite
          ((edited (mmap 25174016 img) recovery tgt).take (seg_end (mmap 25174016 img))
            ++ filler abootFile (tgt.check_sigs - aboot_base - (tgt.check_sigs &&& 0xf))
                (fake_of (mmap 25174016 img) tgt) junk
            ++ slice (edited (mmap 25174016 img) recovery tgt) (seg_end (mmap 25174016 img))
                (rd32 (mmap 25174016 img) DT_SIZE))
          (seg_end (mmap 25174016 img) + (tgt.check_sigs &&& 0xf))
          ((loki_patch_shellcode pm tgt.hdr (rd32 (mmap 25174016 img) RAMDISK_ADDR)).2.take
            sizeof_patch),
          (loki_patch_shellcode pm tgt.hdr (rd32 (mmap 25174016 img) RAMDISK_ADDR)).2⟩ := by
  have h4 : 4096 ≤ (mmap 25174016 img).length := by
    apply mmap_length_ge _ _ (by decide)
    by_contra hc
    unfold loki_patch_body at hok
    simp only [if_pos (show (mmap 25174016 img).length < 0x404 by omega)] at hok
    exact absurd hok (by simp)
  have hs := stamped_length (mmap 25174016 img) recovery tgt h4
  have rs := rd32_stamped (mmap 25174016 img) recovery tgt h4
  obtain ⟨e1, -, -, -, -, e6, -⟩ := edited_facts (mmap 25174016 img) recovery tgt h4
  have edt : rd32 (edited (mmap 25174016 img) recovery tgt) DT_SIZE
      = rd32 (mmap 25174016 img) DT_SIZE :=
    rd32_congr _ _ _ (fun i hi => e6 _ (by simp only [DT_SIZE]; omega))
  have hb := body_eq recovery abootFile aboot_base tgt img pm junk h4 hnl
  rw [← rs KERNEL_SIZE (by decide), ← rs RAMDISK_SIZE (by decide),
    rewrite_eq _ _ _ _ _ _ _ _ (by rw [hs]; exact h4), rs KERNEL_SIZE (by decide),
    rs RAMDISK_SIZE (by decide), rs RAMDISK_ADDR (by decide)] at hb
  rw [hb] at hok ⊢
  by_cases hsc : (loki_patch_shellcode pm tgt.hdr (rd32 (mmap 25174016 img) RAMDISK_ADDR)).1 < 0
  · rw [if_pos hsc] at hok
    exact absurd hok (by simp)
  rw [if_neg hsc] at hok ⊢
  obtain ⟨o1, o2, o3⟩ := emit_ok _ _ _ _ _ _ _ _ _ _ _ _ hok
  have hE : rewritten (stamped (mmap 25174016 img) recovery tgt) tgt
      (rd32 (mmap 25174016 img) PAGE_SIZE) (u32 (rd32 (mmap 25174016 img) PAGE_SIZE + 4294967295))
      = edited (mmap 25174016 img) recovery tgt := rfl
  rw [hE] at o1 o2 o3
  rw [edt] at o2 o3
  rw [e1] at o1 o2
  exact ⟨h4, hsc, o1, o2, o3⟩


/-! ## loki_patch as a whole -/

theorem loki_patch_resolved (partition : String) (abootFile img out0 pm : List Nat)
    (junk : Nat → Nat) (t b : Nat) (tgt : target)
    (hp : partition = "boot" ∨ partition = "recovery")
    (hs : scan (mmap 1048576 abootFile) = .found t b) (hl : lookup t = some tgt) :
    loki_patch partition abootFile img out0 pm junk
      = loki_patch_body (if partition = "boot" then 0 else 1) abootFile b tgt img pm junk := by
  unfold loki_patch
  rw [if_neg (by rcases hp with h | h <;> simp [h])]
  simp only [hs, if_neg (scan_found_ne_zero _ _ _ hs), hl]

theorem late_exit_ite (c : Prop) [Decidable c] (a b : PatchResult) (ha : late_exit a.status)
    (hb : late_exit b.status) : late_exit (if c then a else b).status := by
  split_ifs <;> assumption

theorem emit_status (abootFile : List Nat) (aboot_base : Nat) (tgt : target) (orig : List Nat)
    (page_size page_mask k r offset fake_size : Nat) (pm : List Nat) (junk : Nat → Nat) :
    late_exit (loki_patch_emit abootFile aboot_base tgt orig page_size page_mask k r offset
      fake_size pm junk).status := by
  unfold loki_patch_emit late_exit
  dsimp only
  split_ifs <;> simp

theorem rewrite_status (abootFile : List Nat) (aboot_base : Nat) (tgt : target) (orig : List Nat)
    (page_size page_mask k r : Nat) (pm : List Nat) (junk : Nat → Nat) :
    late_exit (loki_patch_rewrite abootFile aboot_base tgt orig page_size page_mask k r
      pm junk).status := by
  unfold loki_patch_rewrite
  dsimp only
  exact late_exit_ite _ _ _ (by simp [late_exit]) (emit_status _ _ _ _ _ _ _ _ _ _ _ _)

theorem body_status (recovery : Nat) (abootFile : List Nat) (aboot_base : Nat) (tgt : target)
    (img pm : List Nat) (junk : Nat → Nat) :
    late_exit (loki_patch_body recovery abootFile aboot_base tgt img pm junk).status := by
  unfold loki_patch_body
  dsimp only
  exact late_exit_ite _ _ _ (by simp [late_exit])
    (late_exit_ite _ _ _ (late_exit_ite _ _ _ (by simp [late_exit]) (by simp [late_exit]))
      (rewrite_status _ _ _ _ _ _ _ _ _ _))

theorem loki_patch_ok_inv (partition : String) (abootFile img out0 pm : List Nat)
    (junk : Nat → Nat) (hok : (loki_patch partition abootFile img out0 pm junk).status = .ok) :
    ∃ t b tgt, (partition = "boot" ∨ partition = "recovery")
      ∧ scan (mmap 1048576 abootFile) = .found t b ∧ lookup t = some tgt := by
  unfold loki_patch at hok
  by_cases hp : partition ≠ "boot" ∧ partition ≠ "recovery"
  · rw [if_pos hp] at hok; simp at hok
  rw [if_neg hp] at hok
  have hp' : partition = "boot" ∨ partition = "recovery" := by
    by_contra hc; exact hp ⟨fun h => hc (Or.inl h), fun h => hc (Or.inr h)⟩
  cases hs : scan (mmap 1048576 abootFile) with
  | fault => simp [hs] at hok
  | exhausted => simp [hs] at hok
  | found t b =>
    simp only [hs, if_neg (scan_found_ne_zero _ _ _ hs)] at hok
    cases hl : lookup t with
    | none => simp [hl] at hok
    | some tgt => exact ⟨t, b, tgt, hp', rfl, hl⟩


/-- The successful run of `loki_patch` on an image without the Loki magic. -/
theorem patch_ok (partition : String) (abootFile img out0 pm : List Nat) (junk : Nat → Nat)
    (hnl : ¬ is_loki img)
    (hok : (loki_patch partition abootFile img out0 pm junk).status = .ok) :
    ∃ t b tgt recovery,
      ((partition = "boot" ∧ recovery = 0) ∨ (partition = "recovery" ∧ recovery = 1))
      ∧ scan (mmap 1048576 abootFile) = .found t b ∧ lookup t = some tgt
      ∧ 4096 ≤ (mmap 25174016 img).length
      ∧ ¬ (loki_patch_shellcode pm tgt.hdr (hdr_field img RAMDISK_ADDR)).1 < 0
      ∧ seg_end (mmap 25174016 img) ≤ (mmap 25174016 img).length
      ∧ (hdr_field img DT_SIZE ≠ 0 →
          seg_end (mmap 25174016 img) + hdr_field img DT_SIZE ≤ (mmap 25174016 img).length)
      ∧ loki_patch partition abootFile img out0 pm junk
        = ⟨.ok, pwrite
            ((edited (mmap 25174016 img) recovery tgt).take (seg_end (mmap 25174016 img))
              ++ filler abootFile (tgt.check_sigs - b - (tgt.check_sigs &&& 0xf))
                  (fake_of (mmap 25174016 img) tgt) junk
              ++ slice (edited (mmap 25174016 img) recovery tgt) (seg_end (mmap 25174016 img))
                  (hdr_field img DT_SIZE))
            (seg_end (mmap 25174016 img) + (tgt.check_sigs &&& 0xf))
            ((loki_patch_shellcode pm tgt.hdr (hdr_field img RAMDISK_ADDR)).2.take sizeof_patch),
            (loki_patch_shellcode pm tgt.hdr (hdr_field img RAMDISK_ADDR)).2⟩ := by
  obtain ⟨t, b, tgt, hp, hs, hl⟩ := loki_patch_ok_inv _ _ _ _ _ _ hok
  have he := loki_patch_resolved partition abootFile img out0 pm junk t b tgt hp hs hl
  rw [he] at hok ⊢
  obtain ⟨b1, b2, b3, b4, b5⟩ := body_ok _ _ _ _ _ _ _ hnl hok
  refine ⟨t, b, tgt, if partition = "boot" then 0 else 1, ?_, hs, hl, b1, b2, b3, b4, b5⟩
  rcases hp with h | h
  · left; simp [h]
  · right; simp [h]

theorem getElem?_pwrite_low (file data : List Nat) (p j : Nat) (hj : j < p)
    (hl : j < file.length) : (pwrite file p data)[j]? = file[j]? := by
  unfold pwrite
  simp only [List.append_assoc]
  rw [List.getElem?_append_left (by rw [List.length_take]; omega), List.getElem?_take_of_lt hj]

/-- Below the start of the filler block the output is the edited image. -/
theorem out_low (E fill dtb data : List Nat) (F off j : Nat) (hF : F ≤ E.length) (hj : j < F) :
    (pwrite (E.take F ++ fill ++ dtb) (F + off) data)[j]? = E[j]? := by
  have hl : (E.take F).length = F := by rw [List.length_take]; omega
  rw [getElem?_pwrite_low _ _ _ _ (by omega)
    (by simp only [List.length_append, hl]; omega)]
  rw [List.append_assoc, List.getElem?_append_left (by omega), List.getElem?_take_of_lt hj]

theorem mask_of_pow (orig : List Nat) (e : Nat) (hP : rd32 orig PAGE_SIZE = 2 ^ e) :
    e < 32 ∧ mask_of orig = u32 (2 ^ e + 0xffffffff) := by
  have hlt := rd32_lt orig PAGE_SIZE
  rw [hP] at hlt
  refine ⟨?_, by rw [mask_of, hP]⟩
  by_contra hc
  have : (2:Nat) ^ 32 ≤ 2 ^ e := Nat.pow_le_pow_right (by decide) (by omega)
  norm_num at this
  omega

/-- C1 (amended): for a source image without the Loki magic whose header declares a
power-of-two page size `P ≥ 16` (so that the emitted header page holds the field), a
successful `loki_patch` leaves in the `kernel_size` field of the output
`page_align(kernel_size, P) + ramdisk_size` of the source header, where `page_align(x, P)`
is the least multiple of `P` that is at least `x`, provided the sum fits in 32 bits. -/
theorem C1_kernel_size (partition : String) (abootFile img out0 pm : List Nat)
    (junk : Nat → Nat) (e : Nat)
    (hnl : ¬ is_loki img) (hP : hdr_field img PAGE_SIZE = 2 ^ e) (h16 : 16 ≤ 2 ^ e)
    (hfit : page_align (hdr_field img KERNEL_SIZE) (2 ^ e) + hdr_field img RAMDISK_SIZE
      < 4294967296)
    (hok : (loki_patch partition abootFile img out0 pm junk).status = .ok) :
    rd32 (loki_patch partition abootFile img out0 pm junk).out KERNEL_SIZE
      = page_align (hdr_field img KERNEL_SIZE) (2 ^ e) + hdr_field img RAMDISK_SIZE
    ∧ IsLeast {m | 2 ^ e ∣ m ∧ hdr_field img KERNEL_SIZE ≤ m}
        (page_align (hdr_field img KERNEL_SIZE) (2 ^ e)) := by
  refine ⟨?_, page_align_isLeast _ _ (Nat.two_pow_pos e)⟩
  obtain ⟨t, b, tgt, recovery, -, -, -, h4, -, hF, -, hout⟩ := patch_ok _ _ _ _ _ _ hnl hok
  obtain ⟨-, e2, -⟩ := edited_facts (mmap 25174016 img) recovery tgt h4
  obtain ⟨he, hm⟩ := mask_of_pow _ e hP
  have hle : (edited (mmap 25174016 img) recovery tgt).length = (mmap 25174016 img).length :=
    (edited_facts (mmap 25174016 img) recovery tgt h4).1
  have hF16 : 16 ≤ seg_end (mmap 25174016 img) := by
    unfold seg_end
    have : rd32 (mmap 25174016 img) PAGE_SIZE = 2 ^ e := hP
    omega
  rw [hout]
  show rd32 (pwrite _ _ _) KERNEL_SIZE = _
  rw [rd32_congr _ (edited (mmap 25174016 img) recovery tgt) KERNEL_SIZE
    (fun i hi => out_low _ _ _ _ _ _ _ (by rw [hle]; exact hF) (by simp only [KERNEL_SIZE]; omega))]
  rw [e2, hm, align_up_eq _ e (rd32_lt _ _) he]
  simp only [hdr_field] at hfit ⊢
  unfold u32
  rw [Nat.mod_eq_of_lt (a := page_align _ _) (by omega), Nat.mod_eq_of_lt hfit]


/-! ## Concrete runs -/

theorem mmap_getElem? (len : Nat) (f : List Nat) (i : Nat) (hi : i < f.length) (hl : i < len) :
    (mmap len f)[i]? = f[i]? := by
  unfold mmap
  rw [List.getElem?_take_of_lt hl, List.getElem?_append_left hi]

theorem family_base_none_of_zero (m : List Nat) (i : Nat) (h : m[i]? = some 0) :
    family_base (slice m i 8) = none := by
  have hi : i < m.length := by
    by_contra hc
    rw [List.getElem?_eq_none (by omega)] at h
    exact absurd h (by simp)
  have hx : m[i] = 0 := by
    rw [List.getElem?_eq_getElem hi] at h
    exact Option.some.inj h
  have hs : slice m i 8 = 0 :: (m.drop (i + 1)).take 7 := by
    unfold slice
    rw [List.drop_eq_getElem_cons hi, hx]
    rfl
  rw [hs, family_base_eq_none]
  simp [known_signatures, PATTERN1, PATTERN2, PATTERN3, PATTERN4, PATTERN5]

theorem demo_scan : scan (mmap 1048576 demo_aboot) = .found 0x88e0f5c0 ABOOT_BASE_SAMSUNG := by
  have hp : PATTERN1.length = 8 := rfl
  have hlen : demo_aboot.length = 62960 := by
    unfold demo_aboot
    rw [List.length_append, List.length_replicate, hp]
  have hml : (mmap 1048576 demo_aboot).length = 65536 := by
    rw [mmap_length, hlen]
    rfl
  rw [scan_found_iff]
  refine ⟨62952, by decide, ?_, by rw [hml]; omega, ?_, by decide⟩
  · intro i hi
    refine ⟨by rw [hml]; omega, family_base_none_of_zero _ _ ?_⟩
    rw [mmap_getElem? _ _ _ (by rw [hlen]; omega) (by omega)]
    unfold demo_aboot
    rw [List.getElem?_append_left (by rw [List.length_replicate]; exact hi),
      List.getElem?_replicate, if_pos hi]
  · have hs : slice (mmap 1048576 demo_aboot) 62952 8 = PATTERN1 := by
      apply List.ext_getElem?
      intro j
      simp only [slice, List.getElem?_take, List.getElem?_drop]
      by_cases hj : j < 8
      · rw [if_pos hj, mmap_getElem? _ _ _ (by rw [hlen]; omega) (by omega)]
        unfold demo_aboot
        rw [List.getElem?_append_right (by rw [List.length_replicate]; omega),
          List.length_replicate]
        have e : 62952 + j - 62952 = j := by omega
        rw [e]
      · rw [if_neg hj]
        exact (List.getElem?_eq_none (by rw [hp]; omega)).symm
    rw [hs]
    rfl

theorem demo_lookup : lookup 0x88e0f5c0 = some demo_target := by
  rfl


theorem hdr_field_append (h rest : List Nat) (off : Nat) (hoff : off + 4 ≤ h.length)
    (hl : h.length ≤ 25174016) : hdr_field (h ++ rest) off = rd32 h off := by
  unfold hdr_field
  apply rd32_congr
  intro i hi
  rw [mmap_getElem? _ _ _ (by rw [List.length_append]; omega) (by omega),
    List.getElem?_append_left (by omega)]

theorem demo_hdr_length (P k r dt : Nat) : (demo_hdr P k r dt).length = 44 := rfl

theorem boot_hdr_fields (k ka r ra s sa ta P dt : Nat) (hk : k < 4294967296)
    (hr : r < 4294967296) (hra : ra < 4294967296) (hP : P < 4294967296)
    (hdt : dt < 4294967296) :
    rd32 (boot_hdr k ka r ra s sa ta P dt) KERNEL_SIZE = k
    ∧ rd32 (boot_hdr k ka r ra s sa ta P dt) RAMDISK_SIZE = r
    ∧ rd32 (boot_hdr k ka r ra s sa ta P dt) RAMDISK_ADDR = ra
    ∧ rd32 (boot_hdr k ka r ra s sa ta P dt) PAGE_SIZE = P
    ∧ rd32 (boot_hdr k ka r ra s sa ta P dt) DT_SIZE = dt := by
  refine ⟨?_, ?_, ?_, ?_, ?_⟩ <;>
  · simp only [boot_hdr, BOOT_MAGIC, le32, rd32, byteAt, KERNEL_SIZE, RAMDISK_SIZE, RAMDISK_ADDR,
      PAGE_SIZE, DT_SIZE, List.cons_append, List.nil_append, List.getD_cons_zero,
      List.getD_cons_succ]
    omega

theorem demo_fields (P k r dt n : Nat) (hP : P < 4294967296) (hk : k < 4294967296)
    (hr : r < 4294967296) (hdt : dt < 4294967296) :
    hdr_field (demo_img P k r dt n) KERNEL_SIZE = k
    ∧ hdr_field (demo_img P k r dt n) RAMDISK_SIZE = r
    ∧ hdr_field (demo_img P k r dt n) RAMDISK_ADDR = 0x82008000
    ∧ hdr_field (demo_img P k r dt n) PAGE_SIZE = P
    ∧ hdr_field (demo_img P k r dt n) DT_SIZE = dt := by
  obtain ⟨f1, f2, f3, f4, f5⟩ := boot_hdr_fields k 0x80208000 r 0x82008000 0 0x80f00000
    0x80200100 P dt hk hr (by decide) hP hdt
  have hl : (demo_hdr P k r dt).length = 44 := rfl
  have ha : ∀ off, off + 4 ≤ 44 → hdr_field (demo_img P k r dt n) off
      = rd32 (boot_hdr k 0x80208000 r 0x82008000 0 0x80f00000 0x80200100 P dt) off := by
    intro off ho
    unfold demo_img
    rw [hdr_field_append _ _ _ (by rw [hl]; exact ho) (by rw [hl]; decide)]
    rfl
  rw [ha _ (by decide), ha _ (by decide), ha _ (by decide), ha _ (by decide), ha _ (by decide)]
  exact ⟨f1, f2, f3, f4, f5⟩

theorem demo_mapped_length (P k r dt n : Nat) (hn : (44 + n) % 4096 = 0)
    (hL : 44 + n ≤ 25174016) : (mmap 25174016 (demo_img P k r dt n)).length = 44 + n := by
  rw [mmap_length]
  unfold demo_img
  rw [List.length_append, demo_hdr_length, List.length_replicate, hn]
  omega

theorem not_is_loki_of_zero (img : List Nat)
    (h : (mmap 25174016 img)[0x400]? ≠ some 0x4c) : ¬ is_loki img := by
  intro hc
  unfold is_loki at hc
  apply h
  have : (slice (mmap 25174016 img) 0x400 4)[0]? = LOKI_MAGIC[0]? := by rw [hc]
  simp only [slice, List.getElem?_take, List.getElem?_drop] at this
  simpa [LOKI_MAGIC] using this

theorem demo_not_loki (P k r dt n : Nat) : ¬ is_loki (demo_img P k r dt n) := by
  apply not_is_loki_of_zero
  unfold mmap demo_img
  rw [List.getElem?_take_of_lt (by decide), List.append_assoc,
    List.getElem?_append_right (by rw [demo_hdr_length]; decide), ← List.replicate_add,
    List.getElem?_replicate]
  split_ifs <;> simp

theorem emit_run (abootFile : List Nat) (aboot_base : Nat) (tgt : target) (orig : List Nat)
    (page_size page_mask k r offset fake_size : Nat) (pm : List Nat) (junk : Nat → Nat)
    (hF : page_size + align_up k page_mask + align_up r page_mask ≤ orig.length)
    (hdt : rd32 orig DT_SIZE ≠ 0 →
        page_size + align_up k page_mask + align_up r page_mask + rd32 orig DT_SIZE ≤ orig.length) :
    (loki_patch_emit abootFile aboot_base tgt orig page_size page_mask k r offset
      fake_size pm junk).status = .ok := by
  unfold loki_patch_emit
  dsimp only
  rw [if_neg (by omega), if_neg (by omega), if_neg (by omega),
    if_neg (by intro hc; have := hdt hc.1; omega)]

/-- The run of `loki_patch_body` succeeds when the shellcode call does and the segments
the header declares lie inside the mapped image. -/
theorem body_run (recovery : Nat) (abootFile : List Nat) (aboot_base : Nat) (tgt : target)
    (img pm : List Nat) (junk : Nat → Nat) (h4 : 4096 ≤ (mmap 25174016 img).length)
    (hnl : ¬ is_loki img)
    (hsc : ¬ (loki_patch_shellcode pm tgt.hdr (hdr_field img RAMDISK_ADDR)).1 < 0)
    (hF : seg_end (mmap 25174016 img) ≤ (mmap 25174016 img).length)
    (hdt : hdr_field img DT_SIZE ≠ 0 →
        seg_end (mmap 25174016 img) + hdr_field img DT_SIZE ≤ (mmap 25174016 img).length) :
    (loki_patch_body recovery abootFile aboot_base tgt img pm junk).status = .ok := by
  have hs := stamped_length (mmap 25174016 img) recovery tgt h4
  have rs := rd32_stamped (mmap 25174016 img) recovery tgt h4
  obtain ⟨e1, -, -, -, -, e6, -⟩ := edited_facts (mmap 25174016 img) recovery tgt h4
  have edt : rd32 (edited (mmap 25174016 img) recovery tgt) DT_SIZE
      = rd32 (mmap 25174016 img) DT_SIZE :=
    rd32_congr _ _ _ (fun i hi => e6 _ (by simp only [DT_SIZE]; omega))
  have hb := body_eq recovery abootFile aboot_base tgt img pm junk h4 hnl
  rw [← rs KERNEL_SIZE (by decide), ← rs RAMDISK_SIZE (by decide),
    rewrite_eq _ _ _ _ _ _ _ _ (by rw [hs]; exact h4), rs KERNEL_SIZE (by decide),
    rs RAMDISK_SIZE (by decide), rs RAMDISK_ADDR (by decide)] at hb
  have hsc' : ¬ (loki_patch_shellcode pm tgt.hdr (rd32 (mmap 25174016 img) RAMDISK_ADDR)).1 < 0 :=
    hsc
  rw [hb, if_neg hsc']
  have hE : rewritten (stamped (mmap 25174016 img) recovery tgt) tgt
      (rd32 (mmap 25174016 img) PAGE_SIZE) (u32 (rd32 (mmap 25174016 img) PAGE_SIZE + 4294967295))
      = edited (mmap 25174016 img) recovery tgt := rfl
  rw [hE]
  apply emit_run
  · rw [e1]; exact hF
  · rw [e1, edt]; exact hdt



/-- The run of `loki_patch` on the demo inputs: it succeeds, and this is its output. -/
theorem demo_run (P k r dt n : Nat) (out0 tail : List Nat) (junk : Nat → Nat)
    (hP : P < 4294967296) (hk : k < 4294967296) (hr : r < 4294967296) (hdt : dt < 4294967296)
    (hn : (44 + n) % 4096 = 0) (hL : 44 + n ≤ 25174016)
    (hfit : P + align_up k (u32 (P + 0xffffffff)) + align_up r (u32 (P + 0xffffffff)) + dt
      ≤ 44 + n) :
    loki_patch "boot" demo_aboot (demo_img P k r dt n) out0 (patch ++ tail) junk
      = ⟨.ok, pwrite
          ((edited (mmap 25174016 (demo_img P k r dt n)) 0 demo_target).take
              (P + align_up k (u32 (P + 0xffffffff)) + align_up r (u32 (P + 0xffffffff)))
            ++ filler demo_aboot 62952 512 junk
            ++ slice (edited (mmap 25174016 (demo_img P k r dt n)) 0 demo_target)
                (P + align_up k (u32 (P + 0xffffffff)) + align_up r (u32 (P + 0xffffffff))) dt)
          (P + align_up k (u32 (P + 0xffffffff)) + align_up r (u32 (P + 0xffffffff)))
          ((demo_patch tail).take sizeof_patch), demo_patch tail⟩ := by
  obtain ⟨f1, f2, f3, f4, f5⟩ := demo_fields P k r dt n hP hk hr hdt
  have hml := demo_mapped_length P k r dt n hn hL
  have h4 : 4096 ≤ (mmap 25174016 (demo_img P k r dt n)).length := by rw [hml]; omega
  have hnl := demo_not_loki P k r dt n
  have hsc : loki_patch_shellcode (patch ++ tail) demo_target.hdr
      (hdr_field (demo_img P k r dt n) RAMDISK_ADDR) = (0, demo_patch tail) := by
    rw [f3]
    exact sc_pristine 0x88ed32e0 0x82008000 tail (by decide) (by decide) (by decide)
  have hse : seg_end (mmap 25174016 (demo_img P k r dt n))
      = P + align_up k (u32 (P + 0xffffffff)) + align_up r (u32 (P + 0xffffffff)) := by
    simp only [hdr_field] at f1 f2 f4
    simp only [seg_end, mask_of, f1, f2, f4]
  have hres := loki_patch_resolved "boot" demo_aboot (demo_img P k r dt n) out0 (patch ++ tail)
    junk _ _ _ (Or.inl rfl) demo_scan demo_lookup
  rw [if_pos rfl] at hres
  have hok : (loki_patch_body 0 demo_aboot ABOOT_BASE_SAMSUNG demo_target (demo_img P k r dt n)
      (patch ++ tail) junk).status = .ok := by
    apply body_run _ _ _ _ _ _ _ h4 hnl
    · rw [hsc]; exact Int.lt_irrefl 0
    · rw [hse, hml]; omega
    · intro _; rw [hse, hml, f5]; omega
  obtain ⟨-, -, -, -, b5⟩ := body_ok _ _ _ _ _ _ _ hnl hok
  rw [hres, b5]
  have hsc' : loki_patch_shellcode (patch ++ tail) demo_target.hdr
      (rd32 (mmap 25174016 (demo_img P k r dt n)) RAMDISK_ADDR) = (0, demo_patch tail) := hsc
  have hdt' : rd32 (mmap 25174016 (demo_img P k r dt n)) DT_SIZE = dt := f5
  have hfk : fake_of (mmap 25174016 (demo_img P k r dt n)) demo_target = 512 := rfl
  have hoff : demo_target.check_sigs &&& 0xf = 0 := by decide
  have hpos : demo_target.check_sigs - ABOOT_BASE_SAMSUNG - 0 = 62952 := by decide
  have hsc2 : (loki_patch_shellcode (patch ++ tail) demo_target.hdr
      (rd32 (mmap 25174016 (demo_img P k r dt n)) RAMDISK_ADDR)).2 = demo_patch tail := by
    rw [hsc']
  rw [hsc2, hdt', hse, hfk, hoff, hpos,
    Nat.add_zero (P + align_up k (u32 (P + 0xffffffff)) + align_up r (u32 (P + 0xffffffff)))]

theorem getElem?_pwrite_mid (file data : List Nat) (p i : Nat) (hp : p ≤ file.length)
    (hi : i < data.length) : (pwrite file p data)[p + i]? = data[i]? := by
  have hl : (file.take p).length = p := by rw [List.length_take]; omega
  unfold pwrite
  rw [Nat.sub_eq_zero_of_le hp, List.replicate_zero, List.append_nil, List.append_assoc,
    List.getElem?_append_right (by omega), hl, List.getElem?_append_left (by omega)]
  have e : p + i - p = i := by omega
  rw [e]

theorem rd32_congr2 (m m' : List Nat) (j j' : Nat) (h : ∀ i, i < 4 → m[j + i]? = m'[j' + i]?) :
    rd32 m j = rd32 m' j' := by
  simp only [rd32]
  rw [byteAt_congr m m' j j' (h 0 (by omega)), byteAt_congr m m' _ _ (h 1 (by omega)),
    byteAt_congr m m' _ _ (h 2 (by omega)), byteAt_congr m m' _ _ (h 3 (by omega))]

/-- C1 as stated fails for page sizes below 16: a header with `page_size = 8`,
`kernel_size = 0`, `ramdisk_size = 0` is patched successfully, the emitted header page is 8
bytes long, and the bytes 8..11 of the output, where `kernel_size` is read back, hold the
first bytes of the shellcode (0x4d0db5fe), not `page_align(0, 8) + 0 = 0`. -/
theorem C1_counterexample :
    ¬ is_loki (demo_img 8 0 0 0 4052)
    ∧ hdr_field (demo_img 8 0 0 0 4052) PAGE_SIZE = 2 ^ 3
    ∧ page_align (hdr_field (demo_img 8 0 0 0 4052) KERNEL_SIZE) (2 ^ 3)
        + hdr_field (demo_img 8 0 0 0 4052) RAMDISK_SIZE = 0
    ∧ (loki_patch "boot" demo_aboot (demo_img 8 0 0 0 4052) [] (patch ++ [0, 0, 0])
        (fun _ => 0)).status = .ok
    ∧ rd32 (loki_patch "boot" demo_aboot (demo_img 8 0 0 0 4052) [] (patch ++ [0, 0, 0])
        (fun _ => 0)).out KERNEL_SIZE = 0x4d0db5fe := by
  obtain ⟨f1, f2, -, f4, -⟩ := demo_fields 8 0 0 0 4052 (by decide) (by decide) (by decide)
    (by decide)
  have hrun := demo_run 8 0 0 0 4052 [] [0, 0, 0] (fun _ => 0) (by decide) (by decide)
    (by decide) (by decide) (by decide) (by decide) (by decide)
  have hF : 8 + align_up 0 (u32 (8 + 0xffffffff)) + align_up 0 (u32 (8 + 0xffffffff)) = 8 := by
    decide
  rw [hF] at hrun
  refine ⟨demo_not_loki _ _ _ _ _, by rw [f4]; rfl, by rw [f1, f2]; rfl, by rw [hrun], ?_⟩
  rw [hrun]
  show rd32 (pwrite _ 8 _) 8 = _
  have h4 : 4096 ≤ (mmap 25174016 (demo_img 8 0 0 0 4052)).length := by
    rw [demo_mapped_length 8 0 0 0 4052 (by decide) (by decide)]
  have hE := (edited_facts (mmap 25174016 (demo_img 8 0 0 0 4052)) 0 demo_target h4).1
  rw [rd32_congr2 _ ((demo_patch [0, 0, 0]).take sizeof_patch) 8 0
    (fun i hi => by
      rw [Nat.zero_add]
      exact getElem?_pwrite_mid _ _ _ _
        (by simp only [List.length_append, List.length_take, filler_length]; omega)
        (by show i < 65; omega))]
  decide


/-- C1 (amended) on a header with page size 2048, kernel size 5000 and ramdisk size 3000:
the run succeeds and the output header has `kernel_size = 6144 + 3000`. -/
theorem C1_kernel_size_witness :
    (loki_patch "boot" demo_aboot (demo_img 2048 5000 3000 100 16340) [] (patch ++ [0, 0, 0])
        (fun _ => 0)).status = .ok
    ∧ hdr_field (demo_img 2048 5000 3000 100 16340) PAGE_SIZE = 2 ^ 11
    ∧ rd32 (loki_patch "boot" demo_aboot (demo_img 2048 5000 3000 100 16340) []
        (patch ++ [0, 0, 0]) (fun _ => 0)).out KERNEL_SIZE = 9144 := by
  obtain ⟨f1, f2, -, f4, -⟩ := demo_fields 2048 5000 3000 100 16340 (by decide) (by decide)
    (by decide) (by decide)
  have hrun := demo_run 2048 5000 3000 100 16340 [] [0, 0, 0] (fun _ => 0) (by decide)
    (by decide) (by decide) (by decide) (by decide) (by decide) (by decide)
  have hok : (loki_patch "boot" demo_aboot (demo_img 2048 5000 3000 100 16340) []
      (patch ++ [0, 0, 0]) (fun _ => 0)).status = .ok := by rw [hrun]
  have hP : hdr_field (demo_img 2048 5000 3000 100 16340) PAGE_SIZE = 2 ^ 11 := by rw [f4]; rfl
  have h := (C1_kernel_size "boot" demo_aboot (demo_img 2048 5000 3000 100 16340) []
    (patch ++ [0, 0, 0]) (fun _ => 0) 11 (demo_not_loki _ _ _ _ _) hP (by decide)
    (by rw [f1, f2]; decide) hok).1
  rw [f1, f2] at h
  exact ⟨hok, hP, h⟩


/-! ## loki_flash -/

theorem sig_match_iff (m : List Nat) (o : Nat) :
    (memcmp8 m o PATTERN1 || memcmp8 m o PATTERN2 || memcmp8 m o PATTERN3
      || memcmp8 m o PATTERN4 || memcmp8 m o PATTERN5) = true
      ↔ slice m o 8 ∈ known_signatures := by
  simp only [memcmp8, Bool.or_eq_true, beq_iff_eq, known_signatures, List.mem_cons,
    List.mem_singleton, List.not_mem_nil, or_false, or_assoc]

theorem flash_loop_cons (aboot : List Nat) (ra offs : Nat) (rest : List Nat) :
    flash_loop aboot ra (offs :: rest) =
      if 0x40000 - 8 < flash_rel ra offs then .invalid
      else if aboot.length < flash_rel ra offs + 8 then .fault
      else if slice aboot (flash_rel ra offs) 8 ∈ known_signatures then .matched
      else flash_loop aboot ra rest := by
  rw [flash_loop]
  simp only [sig_match_iff]
  rfl

theorem flash_loop_head (aboot : List Nat) (ra offs : Nat) (rest : List Nat)
    (h : flash_loop aboot ra (offs :: rest) = .matched) : flash_rel ra offs ≤ 0x40000 - 8 := by
  rw [flash_loop_cons] at h
  by_contra hc
  rw [if_pos (by omega)] at h
  exact absurd h (by decide)

theorem flash_loop_matched (aboot : List Nat) (ra : Nat) (l : List Nat)
    (h : flash_loop aboot ra l = .matched) :
    ∃ offs ∈ l, flash_rel ra offs ≤ 0x40000 - 8 ∧ flash_rel ra offs + 8 ≤ aboot.length
      ∧ slice aboot (flash_rel ra offs) 8 ∈ known_signatures := by
  induction l with
  | nil => exact absurd h (by simp [flash_loop])
  | cons offs rest ih =>
    rw [flash_loop_cons] at h
    by_cases h1 : 0x40000 - 8 < flash_rel ra offs
    · rw [if_pos h1] at h; exact absurd h (by decide)
    rw [if_neg h1] at h
    by_cases h2 : aboot.length < flash_rel ra offs + 8
    · rw [if_pos h2] at h; exact absurd h (by decide)
    rw [if_neg h2] at h
    by_cases h3 : slice aboot (flash_rel ra offs) 8 ∈ known_signatures
    · exact ⟨offs, List.mem_cons_self _ _, by omega, by omega, h3⟩
    · rw [if_neg h3] at h
      obtain ⟨o, ho, r⟩ := ih h
      exact ⟨o, List.mem_cons_of_mem _ ho, r⟩

theorem flash_base_le (ra : Nat) (hra : ra < 4294967296)
    (h : flash_rel ra 0 ≤ 0x40000 - 8) :
    flash_base ra ≤ ra ∧ ∀ offs, offs ≤ 12 → flash_rel ra offs = ra - flash_base ra + offs := by
  unfold flash_rel at h ⊢
  unfold flash_base at h ⊢
  unfold u32 at h ⊢
  simp only [ABOOT_BASE_SAMSUNG, ABOOT_BASE_LG, ABOOT_BASE_G2] at h ⊢
  split_ifs at h ⊢ <;> refine ⟨by omega, fun offs ho => by omega⟩

/-- What the exits of `loki_flash` past the validation imply. -/
theorem flash_reached (partition : String) (abootFile lokiImg dest : List Nat)
    (h : (loki_flash partition abootFile lokiImg dest).status = .ok
      ∨ (loki_flash partition abootFile lokiImg dest).status = .writeFailed
      ∨ (loki_flash partition abootFile lokiImg dest).dest ≠ dest) :
    (partition = BOOT_PATH ∨ partition = RECOVERY_PATH)
    ∧ is_loki lokiImg
    ∧ rd32 (mmap 25174016 lokiImg) 0x404 = requested_kind partition
    ∧ flash_loop (mmap 0x40000 abootFile) (hdr_field lokiImg RAMDISK_ADDR) [0, 4, 8, 12]
        = .matched := by
  unfold loki_flash at h
  by_cases hp : partition ≠ BOOT_PATH ∧ partition ≠ RECOVERY_PATH
  · rw [if_pos hp] at h; simp at h
  rw [if_neg hp] at h
  have hp' : partition = BOOT_PATH ∨ partition = RECOVERY_PATH := by
    by_contra hc; exact hp ⟨fun h => hc (Or.inl h), fun h => hc (Or.inr h)⟩
  dsimp only at h
  by_cases h1 : (mmap 25174016 lokiImg).length < 0x404
  · rw [if_pos h1] at h; simp at h
  rw [if_neg h1] at h
  by_cases h2 : slice (mmap 25174016 lokiImg) 0x400 4 ≠ LOKI_MAGIC
  · rw [if_pos h2] at h; simp at h
  rw [if_neg h2] at h
  by_cases h3 : rd32 (mmap 25174016 lokiImg) 0x404 ≠ if partition = BOOT_PATH then 0 else 1
  · rw [if_pos h3] at h; simp at h
  rw [if_neg h3] at h
  refine ⟨hp', not_not.1 h2, not_not.1 h3, ?_⟩
  cases hm : flash_loop (mmap 0x40000 abootFile) (rd32 (mmap 25174016 lokiImg) RAMDISK_ADDR)
    [0, 4, 8, 12] with
  | matched => exact hm
  | noMatch => rw [hm] at h; simp at h
  | invalid => rw [hm] at h; simp at h
  | fault => rw [hm] at h; simp at h


theorem mmap_length_of_ne_nil (f : List Nat) (h : f ≠ []) :
    4096 ≤ (mmap 25174016 f).length := by
  apply mmap_length_ge _ _ (by decide)
  rw [mmap_length]
  have : 0 < f.length := List.length_pos.2 h
  omega

theorem boot_path_ne : BOOT_PATH ≠ RECOVERY_PATH := by decide

/-- C4: `loki_flash` on the boot partition rejects an image whose Loki kind flag is 1
(recovery), and on the recovery partition an image whose flag is 0 (boot): it leaves by one
of its `return 1` exits before the destination is opened, and the destination is unchanged. -/
theorem C4_flash_rejects_wrong_kind (abootFile lokiImg dest : List Nat) (hne : lokiImg ≠ []) :
    (rd32 (mmap 25174016 lokiImg) 0x404 = 1 →
      ((loki_flash BOOT_PATH abootFile lokiImg dest).status = .notLoki
        ∨ (loki_flash BOOT_PATH abootFile lokiImg dest).status = .wrongKind)
      ∧ (loki_flash BOOT_PATH abootFile lokiImg dest).dest = dest)
    ∧ (rd32 (mmap 25174016 lokiImg) 0x404 = 0 →
      ((loki_flash RECOVERY_PATH abootFile lokiImg dest).status = .notLoki
        ∨ (loki_flash RECOVERY_PATH abootFile lokiImg dest).status = .wrongKind)
      ∧ (loki_flash RECOVERY_PATH abootFile lokiImg dest).dest = dest) := by
  have h4 := mmap_length_of_ne_nil lokiImg hne
  constructor
  · intro hk
    unfold loki_flash
    rw [if_neg (by simp)]
    dsimp only
    have hr : (if BOOT_PATH = BOOT_PATH then 0 else 1 : Nat) = 0 := if_pos rfl
    rw [if_neg (by omega), hr]
    by_cases h2 : slice (mmap 25174016 lokiImg) 0x400 4 ≠ LOKI_MAGIC
    · rw [if_pos h2]; exact ⟨Or.inl rfl, rfl⟩
    · rw [if_neg h2, if_pos (by rw [hk]; decide)]; exact ⟨Or.inr rfl, rfl⟩
  · intro hk
    unfold loki_flash
    rw [if_neg (by simp)]
    dsimp only
    have hr : (if RECOVERY_PATH = BOOT_PATH then 0 else 1 : Nat) = 1 :=
      if_neg (fun h => boot_path_ne h.symm)
    rw [if_neg (by omega), hr]
    by_cases h2 : slice (mmap 25174016 lokiImg) 0x400 4 ≠ LOKI_MAGIC
    · rw [if_pos h2]; exact ⟨Or.inl rfl, rfl⟩
    · rw [if_neg h2, if_pos (by rw [hk]; decide)]; exact ⟨Or.inr rfl, rfl⟩

/-- C5: `loki_flash` gets to its write to the destination (exit `ok` or `writeFailed`, or a
changed destination) only if the image has "LOKI" at 0x400, its kind flag is the requested
kind, and for `d = ramdisk_addr - base` of the family the code selects there is an `offs`
in {0, 4, 8, 12} with the window `d + offs .. d + offs + 8` inside the 0x40000 mapped bytes
of the bootloader and equal to one of `PATTERN1`..`PATTERN5`.  So an image whose address
lands on no signature at the four offsets is not flashed. -/
theorem C5_flash_sound (partition : String) (abootFile lokiImg dest : List Nat) :
    (((loki_flash partition abootFile lokiImg dest).status = .ok
        ∨ (loki_flash partition abootFile lokiImg dest).status = .writeFailed
        ∨ (loki_flash partition abootFile lokiImg dest).dest ≠ dest) →
      is_loki lokiImg
      ∧ rd32 (mmap 25174016 lokiImg) 0x404 = requested_kind partition
      ∧ flash_base (hdr_field lokiImg RAMDISK_ADDR) ≤ hdr_field lokiImg RAMDISK_ADDR
      ∧ ∃ offs ∈ [0, 4, 8, 12],
          hdr_field lokiImg RAMDISK_ADDR - flash_base (hdr_field lokiImg RAMDISK_ADDR) + offs + 8
            ≤ 0x40000
          ∧ slice (mmap 0x40000 abootFile)
              (hdr_field lokiImg RAMDISK_ADDR - flash_base (hdr_field lokiImg RAMDISK_ADDR) + offs) 8
            ∈ known_signatures)
    ∧ ((∀ offs ∈ [0, 4, 8, 12], slice (mmap 0x40000 abootFile)
          (hdr_field lokiImg RAMDISK_ADDR - flash_base (hdr_field lokiImg RAMDISK_ADDR) + offs) 8
            ∉ known_signatures) →
      (loki_flash partition abootFile lokiImg dest).status ≠ .ok
      ∧ (loki_flash partition abootFile lokiImg dest).dest = dest) := by
  have key : ((loki_flash partition abootFile lokiImg dest).status = .ok
        ∨ (loki_flash partition abootFile lokiImg dest).status = .writeFailed
        ∨ (loki_flash partition abootFile lokiImg dest).dest ≠ dest) →
      is_loki lokiImg
      ∧ rd32 (mmap 25174016 lokiImg) 0x404 = requested_kind partition
      ∧ flash_base (hdr_field lokiImg RAMDISK_ADDR) ≤ hdr_field lokiImg RAMDISK_ADDR
      ∧ ∃ offs ∈ [0, 4, 8, 12],
          hdr_field lokiImg RAMDISK_ADDR - flash_base (hdr_field lokiImg RAMDISK_ADDR) + offs + 8
            ≤ 0x40000
          ∧ slice (mmap 0x40000 abootFile)
              (hdr_field lokiImg RAMDISK_ADDR - flash_base (hdr_field lokiImg RAMDISK_ADDR) + offs) 8
            ∈ known_signatures := by
    intro h
    obtain ⟨-, h1, h2, h3⟩ := flash_reached _ _ _ _ h
    obtain ⟨hb, hrel⟩ := flash_base_le (hdr_field lokiImg RAMDISK_ADDR) (rd32_lt _ _)
      (flash_loop_head _ _ _ _ h3)
    obtain ⟨offs, ho, r1, -, r3⟩ := flash_loop_matched _ _ _ h3
    have ho12 : offs ≤ 12 := by
      simp only [List.mem_cons, List.mem_singleton, List.not_mem_nil, or_false] at ho
      omega
    rw [hrel offs ho12] at r1 r3
    exact ⟨h1, h2, hb, offs, ho, by omega, r3⟩
  refine ⟨key, fun hno => ?_⟩
  constructor
  · intro hc
    obtain ⟨-, -, -, offs, ho, -, hs⟩ := key (Or.inl hc)
    exact hno offs ho hs
  · by_contra hc
    obtain ⟨-, -, -, offs, ho, -, hs⟩ := key (Or.inr (Or.inr hc))
    exact hno offs ho hs


theorem byteAt_append_right (a b : List Nat) (j : Nat) :
    byteAt (a ++ b) (a.length + j) = byteAt b j := by
  simp only [byteAt, List.getD_eq_getElem?_getD]
  rw [List.getElem?_append_right (by omega)]
  have e : a.length + j - a.length = j := by omega
  rw [e]

theorem rd32_append_right (a b : List Nat) (j : Nat) :
    rd32 (a ++ b) (a.length + j) = rd32 b j := by
  simp only [rd32, Nat.add_assoc, byteAt_append_right]

theorem rd32_mmap (img : List Nat) (off : Nat) (h : off + 4 ≤ img.length)
    (hl : img.length ≤ 25174016) : rd32 (mmap 25174016 img) off = rd32 img off :=
  rd32_congr _ _ _ (fun i hi => mmap_getElem? _ _ _ (by omega) (by omega))

theorem slice_mmap (len : Nat) (f : List Nat) (o n : Nat) (h : o + n ≤ f.length)
    (hl : o + n ≤ len) : slice (mmap len f) o n = slice f o n :=
  slice_congr _ _ _ _ (fun i hi => mmap_getElem? _ _ _ (by omega) (by omega))

theorem slice_append_right (a b : List Nat) (n : Nat) :
    slice (a ++ b) a.length n = b.take n := by
  unfold slice
  rw [List.drop_left]

theorem flash_img_length (kind : Nat) : (flash_img kind).length = 1032 := by
  simp only [flash_img, List.length_append, List.length_replicate, le32_length, LOKI_MAGIC,
    List.length_cons, List.length_nil]

theorem flash_img_facts (kind : Nat) (hk : kind < 4294967296) :
    flash_img kind ≠ []
    ∧ is_loki (flash_img kind)
    ∧ rd32 (mmap 25174016 (flash_img kind)) 0x404 = kind
    ∧ hdr_field (flash_img kind) RAMDISK_ADDR = 0xf7fffd8 := by
  have hlen := flash_img_length kind
  have hA : (List.replicate 20 0 ++ le32 0xf7fffd8 ++ List.replicate 1000 0).length = 1024 := by
    simp only [List.length_append, List.length_replicate, le32_length]
  have hB : (List.replicate 20 0 ++ le32 0xf7fffd8 ++ List.replicate 1000 0 ++ LOKI_MAGIC).length
      = 1028 := by
    rw [List.length_append, hA]; rfl
  refine ⟨?_, ?_, ?_, ?_⟩
  · intro hc
    rw [hc] at hlen
    exact absurd hlen (by decide)
  · unfold is_loki
    rw [slice_mmap _ _ _ _ (by rw [hlen]; decide) (by decide)]
    unfold flash_img
    rw [List.append_assoc _ LOKI_MAGIC, show (0x400 : Nat) = (List.replicate 20 0 ++ le32 0xf7fffd8
      ++ List.replicate 1000 0).length from hA.symm, slice_append_right]
    rfl
  · rw [rd32_mmap _ _ (by rw [hlen]) (by rw [hlen]; decide)]
    unfold flash_img
    rw [show (0x404 : Nat) = (List.replicate 20 0 ++ le32 0xf7fffd8 ++ List.replicate 1000 0
      ++ LOKI_MAGIC).length + 0 from by rw [hB], rd32_append_right]
    simp only [rd32, byteAt, le32, List.getD_cons_zero, List.getD_cons_succ]
    omega
  · unfold hdr_field
    rw [rd32_mmap _ _ (by rw [hlen]; decide) (by rw [hlen]; decide)]
    unfold flash_img
    rw [List.append_assoc, List.append_assoc, List.append_assoc]
    rw [show RAMDISK_ADDR = (List.replicate 20 0).length + 0 from rfl, rd32_append_right,
      rd32_append_left _ _ _ (by rw [le32_length])]
    decide


/-- The run of `loki_flash` when all checks pass and the destination holds the image. -/
theorem flash_run (partition : String) (abootFile lokiImg dest : List Nat)
    (hp : partition = BOOT_PATH ∨ partition = RECOVERY_PATH) (hne : lokiImg ≠ [])
    (hl : is_loki lokiImg)
    (hk : rd32 (mmap 25174016 lokiImg) 0x404 = requested_kind partition)
    (hm : flash_loop (mmap 0x40000 abootFile) (hdr_field lokiImg RAMDISK_ADDR) [0, 4, 8, 12]
      = .matched)
    (hsz : lokiImg.length ≤ dest.length) (hmap : lokiImg.length ≤ 25174016) :
    loki_flash partition abootFile lokiImg dest
      = ⟨.ok, lokiImg ++ dest.drop lokiImg.length⟩ := by
  have h4 := mmap_length_of_ne_nil lokiImg hne
  have hm' : flash_loop (mmap 0x40000 abootFile) (rd32 (mmap 25174016 lokiImg) RAMDISK_ADDR)
      [0, 4, 8, 12] = .matched := hm
  have hk' : rd32 (mmap 25174016 lokiImg) 0x404 = if partition = BOOT_PATH then 0 else 1 := hk
  have hd : (mmap 25174016 lokiImg).take lokiImg.length = lokiImg := by
    rw [mmap_take_of_le _ _ _ hmap (le_refl _), List.take_length]
  unfold loki_flash
  rw [if_neg (by rcases hp with h | h <;> simp [h])]
  dsimp only
  have hl' : ¬ (slice (mmap 25174016 lokiImg) 0x400 4 ≠ LOKI_MAGIC) := not_not.2 hl
  rw [if_neg (by omega), if_neg hl', if_neg (not_not.2 hk'), hm']
  dsimp only
  rw [hd, List.take_of_length_le hsz, if_pos rfl]

theorem flash_demo_loop :
    flash_loop (mmap 0x40000 PATTERN5) 0xf7fffd8 [0, 4, 8, 12] = .matched := by
  have hl : PATTERN5.length = 8 := rfl
  have hml : (mmap 0x40000 PATTERN5).length = 4096 := by rw [mmap_length, hl]; rfl
  have hr : flash_rel 0xf7fffd8 0 = 0 := by decide
  have hs : slice (mmap 0x40000 PATTERN5) 0 8 = PATTERN5 := by
    rw [slice_mmap _ _ _ _ (by rw [hl]) (by decide)]
    rfl
  rw [flash_loop_cons, hr, if_neg (by decide), if_neg (by rw [hml]; decide), hs,
    if_pos (by decide)]

/-- C4 on the small Loki image: with flag 1 the boot partition is refused, with flag 0 the
recovery partition, and the destination `[1, 2, 3]` stays as it is. -/
theorem C4_flash_rejects_wrong_kind_witness :
    flash_img 1 ≠ [] ∧ rd32 (mmap 25174016 (flash_img 1)) 0x404 = 1
    ∧ ((loki_flash BOOT_PATH PATTERN5 (flash_img 1) [1, 2, 3]).status = .notLoki
        ∨ (loki_flash BOOT_PATH PATTERN5 (flash_img 1) [1, 2, 3]).status = .wrongKind)
    ∧ (loki_flash BOOT_PATH PATTERN5 (flash_img 1) [1, 2, 3]).dest = [1, 2, 3] :=
  ⟨(flash_img_facts 1 (by decide)).1, (flash_img_facts 1 (by decide)).2.2.1,
    (C4_flash_rejects_wrong_kind PATTERN5 (flash_img 1) [1, 2, 3]
      (flash_img_facts 1 (by decide)).1).1 (flash_img_facts 1 (by decide)).2.2.1⟩

/-- C5 on the small Loki image with flag 0, flashed to a boot partition of 2000 bytes against
a bootloader that starts with `PATTERN5`: the run reaches exit `ok`, and the checks hold. -/
theorem C5_flash_sound_witness :
    (loki_flash BOOT_PATH PATTERN5 (flash_img 0) (List.replicate 2000 0)).status = .ok
    ∧ is_loki (flash_img 0)
    ∧ rd32 (mmap 25174016 (flash_img 0)) 0x404 = requested_kind BOOT_PATH
    ∧ ∃ offs ∈ [0, 4, 8, 12],
        slice (mmap 0x40000 PATTERN5)
          (hdr_field (flash_img 0) RAMDISK_ADDR
            - flash_base (hdr_field (flash_img 0) RAMDISK_ADDR) + offs) 8 ∈ known_signatures := by
  obtain ⟨g1, g2, g3, g4⟩ := flash_img_facts 0 (by decide)
  have hrun := flash_run BOOT_PATH PATTERN5 (flash_img 0) (List.replicate 2000 0) (Or.inl rfl)
    g1 g2 (by rw [g3]; rfl) (by rw [g4]; exact flash_demo_loop)
    (by rw [flash_img_length, List.length_replicate]; decide)
    (by rw [flash_img_length]; decide)
  have hok : (loki_flash BOOT_PATH PATTERN5 (flash_img 0) (List.replicate 2000 0)).status = .ok := by
    rw [hrun]
  obtain ⟨c1, c2, -, offs, ho, -, c5⟩ :=
    (C5_flash_sound BOOT_PATH PATTERN5 (flash_img 0) (List.replicate 2000 0)).1 (Or.inl hok)
  exact ⟨hok, c1, c2, offs, ho, c5⟩


/-! ## C6, C7, C8 -/

theorem slice_take (m : List Nat) (n o k : Nat) (h : o + k ≤ n) :
    slice (m.take n) o k = slice m o k :=
  slice_congr _ _ _ _ (fun i hi => List.getElem?_take_of_lt (by omega))

/-- C6: when the scan of `loki_patch` finds a match, the address it yields is `o + base`
for the least offset `o` at which one of `PATTERN1`..`PATTERN5` occurs, `o` lies below the
loop bound, and `base` is the load base of the family of the signature at `o`; a dump that
agrees with this one up to the end of that window gives the same result, whatever follows. -/
theorem C6_scan_first_match (aboot : List Nat) (t b : Nat) (h : scan aboot = .found t b) :
    ∃ o, o < SCAN_LIMIT
      ∧ family_base (slice aboot o 8) = some b
      ∧ (∀ i, i < o → slice aboot i 8 ∉ known_signatures)
      ∧ t = o + b
      ∧ (∀ aboot' : List Nat, aboot'.take (o + 8) = aboot.take (o + 8) →
          scan aboot' = .found t b) := by
  obtain ⟨o, ho, h1, h2, h3, h4⟩ := (scan_found_iff aboot t b).1 h
  refine ⟨o, ho, h3, fun i hi => (family_base_eq_none _).1 (h1 i hi).2, h4, ?_⟩
  intro aboot' hpre
  have hlen : o + 8 ≤ aboot'.length := by
    have := congrArg List.length hpre
    simp only [List.length_take] at this
    omega
  have hs : ∀ i, i ≤ o → slice aboot' i 8 = slice aboot i 8 := by
    intro i hi
    rw [← slice_take aboot' (o + 8) i 8 (by omega), hpre, slice_take _ _ _ _ (by omega)]
  rw [scan_found_iff]
  refine ⟨o, ho, fun i hi => ⟨by omega, ?_⟩, hlen, ?_, h4⟩
  · rw [hs i (by omega)]; exact (h1 i hi).2
  · rw [hs o (le_refl _)]; exact h3

/-- C6 on the demo dump: `PATTERN1` at offset 62952 gives 62952 + 0x88dfffd8. -/
theorem C6_scan_first_match_witness :
    scan (mmap 1048576 demo_aboot) = .found 0x88e0f5c0 ABOOT_BASE_SAMSUNG
    ∧ ∃ o, o < SCAN_LIMIT
      ∧ family_base (slice (mmap 1048576 demo_aboot) o 8) = some ABOOT_BASE_SAMSUNG
      ∧ (∀ i, i < o → slice (mmap 1048576 demo_aboot) i 8 ∉ known_signatures)
      ∧ 0x88e0f5c0 = o + ABOOT_BASE_SAMSUNG :=
  ⟨demo_scan, by
    obtain ⟨o, h1, h2, h3, h4, -⟩ := C6_scan_first_match _ _ _ demo_scan
    exact ⟨o, h1, h2, h3, h4⟩⟩

/-- When `loki_patch` leaves by "Failed to find function to patch". -/
theorem no_pattern_iff (partition : String) (abootFile img out0 pm : List Nat)
    (junk : Nat → Nat) :
    (loki_patch partition abootFile img out0 pm junk).status = .noPattern
      ↔ (partition = "boot" ∨ partition = "recovery")
        ∧ ∀ o, o < SCAN_LIMIT → o + 8 ≤ (mmap 1048576 abootFile).length
            ∧ slice (mmap 1048576 abootFile) o 8 ∉ known_signatures := by
  have hx : (∀ o, o < SCAN_LIMIT → o + 8 ≤ (mmap 1048576 abootFile).length
      ∧ slice (mmap 1048576 abootFile) o 8 ∉ known_signatures)
      ↔ scan (mmap 1048576 abootFile) = .exhausted := by
    rw [scan_exhausted_iff]
    simp only [family_base_eq_none]
  rw [hx]
  unfold loki_patch
  by_cases hp : partition ≠ "boot" ∧ partition ≠ "recovery"
  · rw [if_pos hp]
    constructor
    · intro h; exact absurd h (by simp)
    · rintro ⟨h | h, -⟩
      · exact absurd h hp.1
      · exact absurd h hp.2
  rw [if_neg hp]
  have hp' : partition = "boot" ∨ partition = "recovery" := by
    by_contra hc; exact hp ⟨fun h => hc (Or.inl h), fun h => hc (Or.inr h)⟩
  cases hs : scan (mmap 1048576 abootFile) with
  | fault => simp [hs]
  | exhausted => simp [hs, hp']
  | found t b =>
    simp only [hs, if_neg (scan_found_ne_zero _ _ _ hs)]
    cases hl : lookup t with
    | none => simp [hl]
    | some tgt =>
      simp only [hl, reduceCtorEq, and_false, iff_false]
      exact (body_status _ _ _ _ _ _ _).1

theorem slice_append_at (a b : List Nat) (o n : Nat) (h : a.length = o) :
    slice (a ++ b) o n = b.take n := by
  rw [← h, slice_append_right]

theorem late_aboot_length : late_aboot.length = 1048576 := by
  have hp : PATTERN1.length = 8 := rfl
  unfold late_aboot
  rw [List.length_append, List.length_append, List.length_replicate, List.length_replicate, hp]

theorem targets_keys_nodup : (targets.map target.check_sigs).Nodup := by decide

theorem lookup_some (a : Nat) (t : target) (h : lookup a = some t) :
    t ∈ targets ∧ t.check_sigs = a := by
  unfold lookup at h
  exact ⟨List.mem_of_find?_eq_some h, by simpa using List.find?_some h⟩

theorem lookup_isSome (a : Nat) : (lookup a).isSome ↔ ∃ t ∈ targets, t.check_sigs = a := by
  unfold lookup
  simp only [List.find?_isSome, beq_iff_eq]

/-- C8: the lookup over `targets[]` yields an entry exactly when some catalog entry has
`check_sigs` equal to the scanned address; the entry yielded has that address and is the
only catalog entry with it (the keys are pairwise distinct); and when the scan matched but
no entry has the address, `loki_patch` leaves as unsupported with its output file empty
and the shellcode template untouched. -/
theorem C8_lookup_exact :
    (∀ a, (lookup a).isSome ↔ ∃ t ∈ targets, t.check_sigs = a)
    ∧ (∀ a t, lookup a = some t →
        t ∈ targets ∧ t.check_sigs = a ∧ ∀ t' ∈ targets, t'.check_sigs = a → t' = t)
    ∧ (targets.map target.check_sigs).Nodup
    ∧ (∀ (partition : String) (abootFile img out0 pm : List Nat) (junk : Nat → Nat) (a b : Nat),
        (partition = "boot" ∨ partition = "recovery") →
        scan (mmap 1048576 abootFile) = .found a b →
        (∀ t ∈ targets, t.check_sigs ≠ a) →
        loki_patch partition abootFile img out0 pm junk = ⟨.unsupported, [], pm⟩) := by
  refine ⟨lookup_isSome, ?_, targets_keys_nodup, ?_⟩
  · intro a t h
    obtain ⟨h1, h2⟩ := lookup_some a t h
    refine ⟨h1, h2, fun t' ht' he => ?_⟩
    exact List.inj_on_of_nodup_map targets_keys_nodup ht' h1 (by rw [he, h2])
  · intro partition abootFile img out0 pm junk a b hp hs hno
    have hl : lookup a = none := by
      cases h : lookup a with
      | none => rfl
      | some t => exact absurd (lookup_some a t h).2 (hno t (lookup_some a t h).1)
    unfold loki_patch
    rw [if_neg (by rcases hp with h | h <;> simp [h])]
    simp only [hs, if_neg (scan_found_ne_zero _ _ _ hs), hl]

theorem scan_at_zero (rest : List Nat) :
    scan (mmap 1048576 (PATTERN4 ++ rest)) = .found ABOOT_BASE_LG ABOOT_BASE_LG := by
  have hp : PATTERN4.length = 8 := rfl
  have hs : slice (mmap 1048576 (PATTERN4 ++ rest)) 0 8 = PATTERN4 := by
    rw [slice_mmap _ _ _ _ (by rw [List.length_append, hp]; omega) (by decide)]
    unfold slice
    rw [List.drop_zero, List.take_append_of_le_length (by rw [hp])]
    rfl
  rw [scan_found_iff]
  refine ⟨0, by decide, fun i hi => absurd hi (by omega), ?_, by rw [hs]; rfl, by decide⟩
  rw [mmap_length, List.length_append, hp]
  omega

/-- C8 on a dump that starts with `PATTERN4`: the address 0x88efffd8 is in no catalog
entry, and `loki_patch` leaves as unsupported, output empty, template as it was. -/
theorem C8_lookup_exact_witness :
    scan (mmap 1048576 (PATTERN4 ++ [0])) = .found ABOOT_BASE_LG ABOOT_BASE_LG
    ∧ (∀ t ∈ targets, t.check_sigs ≠ ABOOT_BASE_LG)
    ∧ loki_patch "boot" (PATTERN4 ++ [0]) [] [7] patch (fun _ => 0) = ⟨.unsupported, [], patch⟩ :=
  ⟨scan_at_zero [0], by decide,
    C8_lookup_exact.2.2.2 "boot" (PATTERN4 ++ [0]) [] [7] patch (fun _ => 0) ABOOT_BASE_LG
      ABOOT_BASE_LG (Or.inl rfl) (scan_at_zero [0]) (by decide)⟩


/-! ## C10 -/

theorem targets_check_sigs_lt : ∀ t ∈ targets, t.check_sigs < 4294967296 := by decide

/-- The `ramdisk_addr` field of the output of a successful run. -/
theorem ramdisk_addr_out (partition : String) (abootFile img out0 pm : List Nat)
    (junk : Nat → Nat) (a b : Nat) (tgt : target)
    (hnl : ¬ is_loki img) (hP : 24 ≤ hdr_field img PAGE_SIZE)
    (hs : scan (mmap 1048576 abootFile) = .found a b) (hl : lookup a = some tgt)
    (hok : (loki_patch partition abootFile img out0 pm junk).status = .ok) :
    rd32 (loki_patch partition abootFile img out0 pm junk).out RAMDISK_ADDR
      = tgt.check_sigs / 16 * 16 := by
  obtain ⟨t, b', tgt', recovery, -, hs', hl', h4, -, hF, -, hout⟩ := patch_ok _ _ _ _ _ _ hnl hok
  rw [hs] at hs'
  simp only [ScanResult.found.injEq] at hs'
  obtain ⟨rfl, rfl⟩ := hs'
  rw [hl] at hl'
  obtain rfl := Option.some.inj hl'
  obtain ⟨hle, -, e3, -⟩ := edited_facts (mmap 25174016 img) recovery tgt h4
  have hF24 : 24 ≤ seg_end (mmap 25174016 img) := by
    unfold seg_end
    have : 24 ≤ rd32 (mmap 25174016 img) PAGE_SIZE := hP
    omega
  rw [hout]
  show rd32 (pwrite _ _ _) RAMDISK_ADDR = _
  rw [rd32_congr _ (edited (mmap 25174016 img) recovery tgt) RAMDISK_ADDR
    (fun i hi => out_low _ _ _ _ _ _ _ (by rw [hle]; exact hF)
      (by simp only [RAMDISK_ADDR]; omega))]
  rw [e3]
  have hlt := targets_check_sigs_lt tgt (lookup_some _ _ hl).1
  have hand : tgt.check_sigs &&& 0xf = tgt.check_sigs % 16 :=
    Nat.and_pow_two_sub_one_eq_mod tgt.check_sigs 4
  rw [hand]
  unfold u32
  omega

/-- C10 (amended): for a source image without the Loki magic and a page size of at least
24 (so that the emitted header page holds the field), the `ramdisk_addr` a successful
`loki_patch` writes into the output header is the `check_sigs` address of the resolved
target rounded down to a multiple of 16 (not its `hdr` field). -/
theorem C10_ramdisk_addr (partition : String) (abootFile img out0 pm : List Nat)
    (junk : Nat → Nat) (a b : Nat) (tgt : target)
    (hnl : ¬ is_loki img) (hP : 24 ≤ hdr_field img PAGE_SIZE)
    (hs : scan (mmap 1048576 abootFile) = .found a b) (hl : lookup a = some tgt)
    (hok : (loki_patch partition abootFile img out0 pm junk).status = .ok) :
    rd32 (loki_patch partition abootFile img out0 pm junk).out RAMDISK_ADDR
      = tgt.check_sigs / 16 * 16 :=
  ramdisk_addr_out partition abootFile img out0 pm junk a b tgt hnl hP hs hl hok

/-- The demo run used for C10: page size 2048, kernel 5000, ramdisk 3000, device tree 100. -/
theorem demo_run_2048 :
    (loki_patch "boot" demo_aboot (demo_img 2048 5000 3000 100 16340) [] (patch ++ [0, 0, 0])
      (fun _ => 0)).status = .ok := by
  rw [demo_run 2048 5000 3000 100 16340 [] [0, 0, 0] (fun _ => 0) (by decide)
    (by decide) (by decide) (by decide) (by decide) (by decide) (by decide)]

/-- C10 as stated fails: on the demo run the resolved target has `hdr = 0x88ed32e0`, which
is its own rounding down to 16, and the output header has `ramdisk_addr = 0x88e0f5c0`. -/
theorem C10_counterexample :
    scan (mmap 1048576 demo_aboot) = .found 0x88e0f5c0 ABOOT_BASE_SAMSUNG
    ∧ lookup 0x88e0f5c0 = some demo_target
    ∧ ¬ is_loki (demo_img 2048 5000 3000 100 16340)
    ∧ (loki_patch "boot" demo_aboot (demo_img 2048 5000 3000 100 16340) [] (patch ++ [0, 0, 0])
        (fun _ => 0)).status = .ok
    ∧ rd32 (loki_patch "boot" demo_aboot (demo_img 2048 5000 3000 100 16340) []
        (patch ++ [0, 0, 0]) (fun _ => 0)).out RAMDISK_ADDR = 0x88e0f5c0
    ∧ demo_target.hdr / 16 * 16 = 0x88ed32e0 := by
  obtain ⟨-, -, -, f4, -⟩ := demo_fields 2048 5000 3000 100 16340 (by decide) (by decide)
    (by decide) (by decide)
  refine ⟨demo_scan, demo_lookup, demo_not_loki _ _ _ _ _, demo_run_2048, ?_, by decide⟩
  rw [ramdisk_addr_out _ _ _ _ _ _ _ _ _ (demo_not_loki _ _ _ _ _) (by rw [f4]; decide)
    demo_scan demo_lookup demo_run_2048]
  decide

/-- C10 (amended) on the demo run: `ramdisk_addr` becomes 0x88e0f5c0. -/
theorem C10_ramdisk_addr_witness :
    rd32 (loki_patch "boot" demo_aboot (demo_img 2048 5000 3000 100 16340) []
        (patch ++ [0, 0, 0]) (fun _ => 0)).out RAMDISK_ADDR = demo_target.check_sigs / 16 * 16 :=
  C10_ramdisk_addr "boot" demo_aboot (demo_img 2048 5000 3000 100 16340) [] (patch ++ [0, 0, 0])
    (fun _ => 0) 0x88e0f5c0 ABOOT_BASE_SAMSUNG demo_target (demo_not_loki _ _ _ _ _)
    (by rw [(demo_fields 2048 5000 3000 100 16340 (by decide) (by decide) (by decide)
      (by decide)).2.2.2.1]; decide)
    demo_scan demo_lookup demo_run_2048


/-! ## C9 -/

theorem pwrite_length (file data : List Nat) (p : Nat) (h : p + data.length ≤ file.length) :
    (pwrite file p data).length = file.length := by
  unfold pwrite
  simp only [List.length_append, List.length_take, List.length_drop, List.length_replicate]
  omega

theorem getElem?_pwrite_high (file data : List Nat) (p j : Nat) (hp : p ≤ file.length)
    (hj : p + data.length ≤ j) : (pwrite file p data)[j]? = file[j]? := by
  have hl : (file.take p).length = p := by rw [List.length_take]; omega
  unfold pwrite
  rw [Nat.sub_eq_zero_of_le hp, List.replicate_zero, List.append_nil, List.append_assoc,
    List.getElem?_append_right (by omega), hl, List.getElem?_append_right (by omega),
    List.getElem?_drop]
  have e : p + data.length + (j - p - data.length) = j := by omega
  rw [e]

theorem getElem?_filler (abootFile : List Nat) (pos n i : Nat) (junk : Nat → Nat) (hi : i < n) :
    (filler abootFile pos n junk)[i]? = some ((abootFile.get? (pos + i)).getD (junk i)) := by
  unfold filler
  rw [List.getElem?_map, List.getElem?_range hi]
  rfl

theorem getElem?_slice (m : List Nat) (o n i : Nat) :
    (slice m o n)[i]? = if i < n then m[o + i]? else none := by
  simp only [slice, List.getElem?_take, List.getElem?_drop]

theorem slice_length (m : List Nat) (o n : Nat) (h : o + n ≤ m.length) :
    (slice m o n).length = n := by
  simp only [slice, List.length_take, List.length_drop]
  omega

/-- The layout of the output of a successful run for page sizes of at least 2048. -/
theorem layout_out (partition : String) (abootFile img out0 pm : List Nat)
    (junk : Nat → Nat) (e a b : Nat) (tgt : target) (P ak ar fake off dt : Nat)
    (hnl : ¬ is_loki img) (hP : hdr_field img PAGE_SIZE = P) (hPe : P = 2 ^ e)
    (h2048 : 2048 ≤ P)
    (hak : ak = page_align (hdr_field img KERNEL_SIZE) P % 4294967296)
    (har : ar = page_align (hdr_field img RAMDISK_SIZE) P % 4294967296)
    (hfake : fake = if tgt.lg ≠ 0 then P else 512)
    (hoff : off = tgt.check_sigs % 16) (hdt : dt = hdr_field img DT_SIZE)
    (hs : scan (mmap 1048576 abootFile) = .found a b) (hl : lookup a = some tgt)
    (hok : (loki_patch partition abootFile img out0 pm junk).status = .ok) :
    (loki_patch partition abootFile img out0 pm junk).out.length = P + ak + ar + fake + dt
    ∧ (∀ j, j < P → (j < 8 ∨ (12 ≤ j ∧ j < 16) ∨ (24 ≤ j ∧ j < 0x400) ∨ 0x494 ≤ j) →
        (loki_patch partition abootFile img out0 pm junk).out[j]? = (mmap 25174016 img)[j]?)
    ∧ slice (loki_patch partition abootFile img out0 pm junk).out P ak
        = slice (mmap 25174016 img) P ak
    ∧ slice (loki_patch partition abootFile img out0 pm junk).out (P + ak) ar
        = slice (mmap 25174016 img) (P + ak) ar
    ∧ (∀ i, i < fake → (i < off ∨ off + 65 ≤ i) →
        (loki_patch partition abootFile img out0 pm junk).out[P + ak + ar + i]?
          = some ((abootFile.get? (a - b - off + i)).getD (junk i)))
    ∧ slice (loki_patch partition abootFile img out0 pm junk).out (P + ak + ar + fake) dt
        = slice (mmap 25174016 img) (P + ak + ar) dt := by
  obtain ⟨t, b', tgt', recovery, -, hs', hl', h4, -, hF, hFdt, hout⟩ :=
    patch_ok _ _ _ _ _ _ hnl hok
  rw [hs] at hs'
  simp only [ScanResult.found.injEq] at hs'
  obtain ⟨rfl, rfl⟩ := hs'
  rw [hl] at hl'
  obtain rfl := Option.some.inj hl'
  obtain ⟨hle, -, -, -, e5, e6, -⟩ := edited_facts (mmap 25174016 img) recovery tgt h4
  obtain ⟨he, hm⟩ := mask_of_pow (mmap 25174016 img) e (by rw [← hPe]; exact hP)
  have hand : tgt.check_sigs &&& 0xf = off := by
    rw [hoff]; exact Nat.and_pow_two_sub_one_eq_mod tgt.check_sigs 4
  have hka : align_up (rd32 (mmap 25174016 img) KERNEL_SIZE) (mask_of (mmap 25174016 img)) = ak := by
    rw [hm, align_up_eq _ e (rd32_lt _ _) he, hak, hPe]; rfl
  have hra : align_up (rd32 (mmap 25174016 img) RAMDISK_SIZE) (mask_of (mmap 25174016 img)) = ar := by
    rw [hm, align_up_eq _ e (rd32_lt _ _) he, har, hPe]; rfl
  have hse : seg_end (mmap 25174016 img) = P + ak + ar := by
    unfold seg_end
    rw [hka, hra]
    have : rd32 (mmap 25174016 img) PAGE_SIZE = P := hP
    rw [this]
  have hfk : fake_of (mmap 25174016 img) tgt = fake := by
    unfold fake_of
    have : rd32 (mmap 25174016 img) PAGE_SIZE = P := hP
    rw [this, hfake]
  rw [hse, hfk, hand, ← hdt] at hout
  rw [hse] at hF
  rw [hse, ← hdt] at hFdt
  have hfake512 : 512 ≤ fake := by rw [hfake]; split_ifs <;> omega
  have hoff16 : off < 16 := by rw [hoff]; exact Nat.mod_lt _ (by decide)
  generalize hdata : (loki_patch_shellcode pm tgt.hdr (hdr_field img RAMDISK_ADDR)).2.take
    sizeof_patch = data at hout
  have hdl : data.length ≤ 65 := by
    rw [← hdata, List.length_take]; exact Nat.min_le_left _ _
  generalize hE : edited (mmap 25174016 img) recovery tgt = E at hout hle e5 e6
  have hEl : P + ak + ar ≤ E.length := by rw [hle]; exact hF
  have htk : (E.take (P + ak + ar)).length = P + ak + ar := by
    rw [List.length_take]; omega
  have hsl : (slice E (P + ak + ar) dt).length = dt := by
    by_cases hd : dt = 0
    · rw [hd]; simp [slice]
    · exact slice_length _ _ _ (by rw [hle]; exact hFdt hd)
  have hfl : (E.take (P + ak + ar) ++ filler abootFile (tgt.check_sigs - b - off) fake junk
      ++ slice E (P + ak + ar) dt).length = P + ak + ar + fake + dt := by
    rw [List.length_append, List.length_append, htk, filler_length, hsl]
  have ha : tgt.check_sigs = a := (lookup_some _ _ hl).2
  rw [hout]
  dsimp only
  refine ⟨?_, ?_, ?_, ?_, ?_, ?_⟩
  · rw [pwrite_length _ _ _ (by rw [hfl]; omega), hfl]
  · intro j hj hr
    rw [out_low _ _ _ _ _ _ _ hEl (by omega), e6 j hr]
  · apply slice_congr
    intro i hi
    rw [out_low _ _ _ _ _ _ _ hEl (by omega), e6 _ (by omega)]
  · apply slice_congr
    intro i hi
    rw [out_low _ _ _ _ _ _ _ hEl (by omega), e6 _ (by omega)]
  · intro i hi hout'
    have hfile : (E.take (P + ak + ar) ++ filler abootFile (tgt.check_sigs - b - off) fake junk
        ++ slice E (P + ak + ar) dt)[P + ak + ar + i]?
        = some ((abootFile.get? (tgt.check_sigs - b - off + i)).getD (junk i)) := by
      rw [List.append_assoc, List.getElem?_append_right (by omega), htk,
        List.getElem?_append_left (by rw [filler_length]; omega)]
      have e : P + ak + ar + i - (P + ak + ar) = i := by omega
      rw [e, getElem?_filler _ _ _ _ _ hi]
    rcases hout' with h | h
    · rw [getElem?_pwrite_low _ _ _ _ (by omega) (by rw [hfl]; omega), hfile, ha]
    · rw [getElem?_pwrite_high _ _ _ _ (by rw [hfl]; omega) (by omega), hfile, ha]
  · apply List.ext_getElem?
    intro i
    rw [getElem?_slice, getElem?_slice]
    by_cases hi : i < dt
    · rw [if_pos hi, if_pos hi,
        getElem?_pwrite_high _ _ _ _ (by rw [hfl]; omega) (by omega),
        List.getElem?_append_right (by rw [List.length_append, htk, filler_length]; omega),
        List.length_append, htk, filler_length]
      have e : P + ak + ar + fake + i - (P + ak + ar + fake) = i := by omega
      rw [e, getElem?_slice, if_pos hi, e6 _ (by omega)]
    · rw [if_neg hi, if_neg hi]


/-- C9 (amended): for a source image without the Loki magic and a power-of-two page size
`P ≥ 2048`, a successful `loki_patch` emits exactly `P + ak + ar + fake + dt` bytes, where
`ak`, `ar` are `page_align` of the kernel and ramdisk sizes in the code's 32-bit arithmetic
and `fake` is `P` for targets with the `lg` flag and 512 otherwise: first the header page,
equal to the source outside the rewritten fields (bytes 8..11, 16..23) and the Loki header
(0x400..0x493); then `ak` bytes equal to the source bytes after the header page; then `ar`
bytes equal to the source bytes that follow; then the filler block, whose bytes outside the
65-byte shellcode window at `check_sigs % 16` are those of the aboot device from position
`match offset - check_sigs % 16` (or the old buffer content where the device ends); then
`dt` bytes, which for an image without a second stage (`second_size = 0`) are the source
bytes after the padded ramdisk, its device tree.  With `P = 2048`, `k = 5000000`,
`r = 200000` the padded sizes are 5001216 and 200704. -/
theorem C9_output_layout (partition : String) (abootFile img out0 pm : List Nat)
    (junk : Nat → Nat) (e a b : Nat) (tgt : target) (P ak ar fake off dt : Nat)
    (hnl : ¬ is_loki img) (hP : hdr_field img PAGE_SIZE = P) (hPe : P = 2 ^ e)
    (h2048 : 2048 ≤ P)
    (hak : ak = page_align (hdr_field img KERNEL_SIZE) P % 4294967296)
    (har : ar = page_align (hdr_field img RAMDISK_SIZE) P % 4294967296)
    (hfake : fake = if tgt.lg ≠ 0 then P else 512)
    (hoff : off = tgt.check_sigs % 16) (hdt : dt = hdr_field img DT_SIZE)
    (hs : scan (mmap 1048576 abootFile) = .found a b) (hl : lookup a = some tgt)
    (hok : (loki_patch partition abootFile img out0 pm junk).status = .ok) :
    ((loki_patch partition abootFile img out0 pm junk).out.length = P + ak + ar + fake + dt
    ∧ (∀ j, j < P → (j < 8 ∨ (12 ≤ j ∧ j < 16) ∨ (24 ≤ j ∧ j < 0x400) ∨ 0x494 ≤ j) →
        (loki_patch partition abootFile img out0 pm junk).out[j]? = (mmap 25174016 img)[j]?)
    ∧ slice (loki_patch partition abootFile img out0 pm junk).out P ak
        = slice (mmap 25174016 img) P ak
    ∧ slice (loki_patch partition abootFile img out0 pm junk).out (P + ak) ar
        = slice (mmap 25174016 img) (P + ak) ar
    ∧ (∀ i, i < fake → (i < off ∨ off + 65 ≤ i) →
        (loki_patch partition abootFile img out0 pm junk).out[P + ak + ar + i]?
          = some ((abootFile.get? (a - b - off + i)).getD (junk i)))
    ∧ (hdr_field img SECOND_SIZE = 0 →
        slice (loki_patch partition abootFile img out0 pm junk).out (P + ak + ar + fake) dt
          = slice (mmap 25174016 img) (P + ak + ar) dt))
    ∧ page_align 5000000 2048 = 5001216 ∧ page_align 200000 2048 = 200704 := by
  obtain ⟨l1, l2, l3, l4, l5, l6⟩ := layout_out partition abootFile img out0 pm junk e a b tgt
    P ak ar fake off dt hnl hP hPe h2048 hak har hfake hoff hdt hs hl hok
  exact ⟨⟨l1, l2, l3, l4, l5, fun _ => l6⟩, by decide, by decide⟩

theorem out_low0 (E fill dtb data : List Nat) (F j : Nat) (hF : F ≤ E.length) (hj : j < F) :
    (pwrite (E.take F ++ fill ++ dtb) F data)[j]? = E[j]? := by
  have h := out_low E fill dtb data F 0 j hF hj
  rwa [Nat.add_zero] at h

theorem getElem?_pwrite_at (file data : List Nat) (p : Nat) (hp : p ≤ file.length)
    (hi : 0 < data.length) : (pwrite file p data)[p]? = data[0]? := by
  have h := getElem?_pwrite_mid file data p 0 hp hi
  rwa [Nat.add_zero] at h

theorem demo_img_zero (P k r dt n i : Nat) (h1 : 44 ≤ i) (h2 : i < 44 + n) :
    (demo_img P k r dt n)[i]? = some 0 := by
  unfold demo_img
  rw [List.getElem?_append_right (by rw [demo_hdr_length]; exact h1), demo_hdr_length,
    List.getElem?_replicate, if_pos (by omega)]

/-- C9 (amended) on the demo run (page size 2048, kernel 5000, ramdisk 3000, device tree
100, target without the `lg` flag): 2048 + 6144 + 4096 + 512 + 100 bytes are emitted. -/
theorem C9_output_layout_witness :
    (loki_patch "boot" demo_aboot (demo_img 2048 5000 3000 100 16340) [] (patch ++ [0, 0, 0])
      (fun _ => 0)).out.length = 12900 := by
  obtain ⟨f1, f2, -, f4, f5⟩ := demo_fields 2048 5000 3000 100 16340 (by decide) (by decide)
    (by decide) (by decide)
  have h := (C9_output_layout "boot" demo_aboot (demo_img 2048 5000 3000 100 16340) []
    (patch ++ [0, 0, 0]) (fun _ => 0) 11 0x88e0f5c0 ABOOT_BASE_SAMSUNG demo_target 2048
    (page_align (hdr_field (demo_img 2048 5000 3000 100 16340) KERNEL_SIZE) 2048 % 4294967296)
    (page_align (hdr_field (demo_img 2048 5000 3000 100 16340) RAMDISK_SIZE) 2048 % 4294967296)
    512 0 (hdr_field (demo_img 2048 5000 3000 100 16340) DT_SIZE)
    (demo_not_loki _ _ _ _ _) f4 (by decide) (by decide) rfl rfl (by decide) (by decide) rfl
    demo_scan demo_lookup demo_run_2048).1.1
  rw [f1, f2, f5] at h
  exact h


/-! ## C3 -/

/-- The copy-through path of `loki_patch_body`: exactly 25165824 bytes of the mapping are
written, and the run succeeds when that many are mapped. -/
theorem body_copy (recovery : Nat) (abootFile : List Nat) (aboot_base : Nat) (tgt : target)
    (img pm : List Nat) (junk : Nat → Nat) (hl : is_loki img)
    (hlen : 25165824 ≤ (mmap 25174016 img).length) :
    loki_patch_body recovery abootFile aboot_base tgt img pm junk
      = ⟨.ok, (mmap 25174016 img).take 25165824, pm⟩ := by
  have hl' : slice (mmap 25174016 img) 0x400 4 = LOKI_MAGIC := hl
  unfold loki_patch_body
  dsimp only
  rw [if_neg (by omega), if_pos hl', if_pos hlen]

theorem big_loki_img_length : big_loki_img.length = 25169920 := by
  have hm : LOKI_MAGIC.length = 4 := rfl
  unfold big_loki_img
  rw [List.length_append, List.length_append, List.length_replicate, List.length_replicate, hm]

/-- C3 fails on the code: an image of 25169920 bytes that carries the Loki magic is copied
through successfully, but the output has 25165824 bytes, the first 24 MiB of the input. -/
theorem C3_copy_truncates :
    is_loki big_loki_img
    ∧ big_loki_img.length = 25169920
    ∧ (loki_patch "boot" demo_aboot big_loki_img [] patch (fun _ => 0)).status = .ok
    ∧ (loki_patch "boot" demo_aboot big_loki_img [] patch (fun _ => 0)).out
        = big_loki_img.take 25165824
    ∧ (loki_patch "boot" demo_aboot big_loki_img [] patch (fun _ => 0)).out.length = 25165824
    ∧ (loki_patch "boot" demo_aboot big_loki_img [] patch (fun _ => 0)).out ≠ big_loki_img := by
  have hlen := big_loki_img_length
  have hm : LOKI_MAGIC.length = 4 := rfl
  have hl : is_loki big_loki_img := by
    unfold is_loki
    rw [slice_mmap _ _ _ _ (by rw [hlen]; decide) (by decide)]
    unfold big_loki_img
    rw [List.append_assoc, slice_append_at _ _ _ _ (List.length_replicate _ _),
      List.take_append_of_le_length (by rw [hm])]
    rfl
  have hml : (mmap 25174016 big_loki_img).length = 25169920 := by
    rw [mmap_length, hlen]
    rfl
  have hrun : loki_patch "boot" demo_aboot big_loki_img [] patch (fun _ => 0)
      = ⟨.ok, big_loki_img.take 25165824, patch⟩ := by
    rw [loki_patch_resolved "boot" demo_aboot big_loki_img [] patch (fun _ => 0) _ _ _
      (Or.inl rfl) demo_scan demo_lookup,
      body_copy _ _ _ _ _ _ _ hl (by rw [hml]; decide),
      mmap_take_of_le _ _ _ (by decide) (by rw [hlen]; decide)]
  have hol : (big_loki_img.take 25165824).length = 25165824 := by
    rw [List.length_take, hlen]
    rfl
  refine ⟨hl, hlen, by rw [hrun], by rw [hrun], by rw [hrun]; exact hol, ?_⟩
  rw [hrun]
  intro hc
  have := congrArg List.length hc
  rw [hol, hlen] at this
  exact absurd this (by decide)

/-! ## C11 -/

/-- The successful run of `loki_patch` for the target the scan resolved. -/
theorem patch_ok_at (partition : String) (abootFile img out0 pm : List Nat) (junk : Nat → Nat)
    (a b : Nat) (tgt : target) (hnl : ¬ is_loki img)
    (hs : scan (mmap 1048576 abootFile) = .found a b) (hl : lookup a = some tgt)
    (hok : (loki_patch partition abootFile img out0 pm junk).status = .ok) :
    ∃ recovery,
      ((partition = "boot" ∧ recovery = 0) ∨ (partition = "recovery" ∧ recovery = 1))
      ∧ 4096 ≤ (mmap 25174016 img).length
      ∧ seg_end (mmap 25174016 img) ≤ (mmap 25174016 img).length
      ∧ (hdr_field img DT_SIZE ≠ 0 →
          seg_end (mmap 25174016 img) + hdr_field img DT_SIZE ≤ (mmap 25174016 img).length)
      ∧ loki_patch partition abootFile img out0 pm junk
        = ⟨.ok, pwrite
            ((edited (mmap 25174016 img) recovery tgt).take (seg_end (mmap 25174016 img))
              ++ filler abootFile (tgt.check_sigs - b - (tgt.check_sigs &&& 0xf))
                  (fake_of (mmap 25174016 img) tgt) junk
              ++ slice (edited (mmap 25174016 img) recovery tgt) (seg_end (mmap 25174016 img))
                  (hdr_field img DT_SIZE))
            (seg_end (mmap 25174016 img) + (tgt.check_sigs &&& 0xf))
            ((loki_patch_shellcode pm tgt.hdr (hdr_field img RAMDISK_ADDR)).2.take sizeof_patch),
            (loki_patch_shellcode pm tgt.hdr (hdr_field img RAMDISK_ADDR)).2⟩ := by
  obtain ⟨t, b', tgt', recovery, hk, hs', hl', h4, -, hF, hFdt, hout⟩ :=
    patch_ok _ _ _ _ _ _ hnl hok
  rw [hs] at hs'
  simp only [ScanResult.found.injEq] at hs'
  obtain ⟨rfl, rfl⟩ := hs'
  rw [hl] at hl'
  obtain rfl := Option.some.inj hl'
  exact ⟨recovery, hk, h4, hF, hFdt, hout⟩

/-- Below the start of the filler block a word of the output is the word of the edited image. -/
theorem rd32_out_low (E fill dtb data : List Nat) (F off j : Nat) (hF : F ≤ E.length)
    (hj : j + 4 ≤ F) : rd32 (pwrite (E.take F ++ fill ++ dtb) (F + off) data) j = rd32 E j :=
  rd32_congr _ _ _ (fun i hi => out_low _ _ _ _ _ _ _ hF (by omega))

/-- The `ramdisk_size` field of the output of a successful run. -/
theorem ramdisk_size_out (partition : String) (abootFile img out0 pm : List Nat)
    (junk : Nat → Nat) (a b : Nat) (tgt : target)
    (hnl : ¬ is_loki img) (hP : 20 ≤ hdr_field img PAGE_SIZE)
    (hs : scan (mmap 1048576 abootFile) = .found a b) (hl : lookup a = some tgt)
    (hok : (loki_patch partition abootFile img out0 pm junk).status = .ok) :
    rd32 (loki_patch partition abootFile img out0 pm junk).out RAMDISK_SIZE
      = if tgt.lg ≠ 0 then hdr_field img PAGE_SIZE else 0 := by
  obtain ⟨recovery, -, h4, hF, -, hout⟩ := patch_ok_at _ _ _ _ _ _ _ _ _ hnl hs hl hok
  obtain ⟨hle, -, -, e4, -⟩ := edited_facts (mmap 25174016 img) recovery tgt h4
  have hF20 : 20 ≤ seg_end (mmap 25174016 img) := by
    unfold seg_end
    have : 20 ≤ rd32 (mmap 25174016 img) PAGE_SIZE := hP
    omega
  rw [hout]
  show rd32 (pwrite _ _ _) RAMDISK_SIZE = _
  rw [rd32_out_low _ _ _ _ _ _ _ (by rw [hle]; exact hF) (by simp only [RAMDISK_SIZE]; omega), e4]
  have hlt := rd32_lt (mmap 25174016 img) PAGE_SIZE
  unfold u32 hdr_field
  split_ifs
  · exact Nat.mod_eq_of_lt hlt
  · rfl

/-- C11 (amended): for a source image without the Loki magic and a page size `P` of at least
20 (so that the emitted header page holds the field), the `ramdisk_size` field a successful
`loki_patch` writes into the output header is `P` when the resolved target has the `lg`
flag, and 0 for every other target (their filler block is 512 bytes all the same). -/
theorem C11_ramdisk_size (partition : String) (abootFile img out0 pm : List Nat)
    (junk : Nat → Nat) (a b : Nat) (tgt : target)
    (hnl : ¬ is_loki img) (hP : 20 ≤ hdr_field img PAGE_SIZE)
    (hs : scan (mmap 1048576 abootFile) = .found a b) (hl : lookup a = some tgt)
    (hok : (loki_patch partition abootFile img out0 pm junk).status = .ok) :
    (tgt.lg ≠ 0 →
      rd32 (loki_patch partition abootFile img out0 pm junk).out RAMDISK_SIZE
        = hdr_field img PAGE_SIZE)
    ∧ (tgt.lg = 0 →
      rd32 (loki_patch partition abootFile img out0 pm junk).out RAMDISK_SIZE = 0
      ∧ fake_of (mmap 25174016 img) tgt = 512) := by
  have h := ramdisk_size_out partition abootFile img out0 pm junk a b tgt hnl hP hs hl hok
  constructor
  · intro hlg
    rw [h, if_pos hlg]
  · intro hlg
    refine ⟨by rw [h, if_neg (not_not.2 hlg)], ?_⟩
    unfold fake_of
    rw [if_neg (not_not.2 hlg)]

/-- C11 as stated fails: on the demo run (page size 2048, target without the `lg` flag) the
output header has `ramdisk_size = 0`, not 512; and with `page_size = 16`, `kernel_size = 0`,
`ramdisk_size = 0` the run succeeds with a 16-byte header page, and bytes 16..19 of the
output hold the first bytes of the shellcode. -/
theorem C11_counterexample :
    scan (mmap 1048576 demo_aboot) = .found 0x88e0f5c0 ABOOT_BASE_SAMSUNG
    ∧ lookup 0x88e0f5c0 = some demo_target
    ∧ demo_target.lg = 0
    ∧ ¬ is_loki (demo_img 2048 5000 3000 100 16340)
    ∧ hdr_field (demo_img 2048 5000 3000 100 16340) PAGE_SIZE = 2048
    ∧ (loki_patch "boot" demo_aboot (demo_img 2048 5000 3000 100 16340) [] (patch ++ [0, 0, 0])
        (fun _ => 0)).status = .ok
    ∧ rd32 (loki_patch "boot" demo_aboot (demo_img 2048 5000 3000 100 16340) []
        (patch ++ [0, 0, 0]) (fun _ => 0)).out RAMDISK_SIZE = 0
    ∧ ¬ is_loki (demo_img 16 0 0 0 4052)
    ∧ hdr_field (demo_img 16 0 0 0 4052) PAGE_SIZE = 16
    ∧ (loki_patch "boot" demo_aboot (demo_img 16 0 0 0 4052) [] (patch ++ [0, 0, 0])
        (fun _ => 0)).status = .ok
    ∧ rd32 (loki_patch "boot" demo_aboot (demo_img 16 0 0 0 4052) [] (patch ++ [0, 0, 0])
        (fun _ => 0)).out RAMDISK_SIZE = 0x4d0db5fe := by
  obtain ⟨-, -, -, f4, -⟩ := demo_fields 2048 5000 3000 100 16340 (by decide) (by decide)
    (by decide) (by decide)
  obtain ⟨-, -, -, g4, -⟩ := demo_fields 16 0 0 0 4052 (by decide) (by decide) (by decide)
    (by decide)
  have hrun := demo_run 16 0 0 0 4052 [] [0, 0, 0] (fun _ => 0) (by decide) (by decide)
    (by decide) (by decide) (by decide) (by decide) (by decide)
  have hF : 16 + align_up 0 (u32 (16 + 0xffffffff)) + align_up 0 (u32 (16 + 0xffffffff)) = 16 := by
    decide
  rw [hF] at hrun
  refine ⟨demo_scan, demo_lookup, rfl, demo_not_loki _ _ _ _ _, f4, demo_run_2048, ?_,
    demo_not_loki _ _ _ _ _, g4, by rw [hrun], ?_⟩
  · rw [ramdisk_size_out _ _ _ _ _ _ _ _ _ (demo_not_loki _ _ _ _ _) (by rw [f4]; decide)
      demo_scan demo_lookup demo_run_2048]
    rfl
  · rw [hrun]
    show rd32 (pwrite _ 16 _) 16 = _
    rw [rd32_congr2 _ ((demo_patch [0, 0, 0]).take sizeof_patch) 16 0
      (fun i hi => by
        rw [Nat.zero_add]
        exact getElem?_pwrite_mid _ _ _ _
          (by simp only [List.length_append, List.length_take, filler_length]; omega)
          (by show i < 65; omega))]
    decide

/-- C11 (amended) on the demo run: the target has no `lg` flag, `ramdisk_size` becomes 0. -/
theorem C11_ramdisk_size_witness :
    demo_target.lg = 0
    ∧ rd32 (loki_patch "boot" demo_aboot (demo_img 2048 5000 3000 100 16340) []
        (patch ++ [0, 0, 0]) (fun _ => 0)).out RAMDISK_SIZE = 0 :=
  ⟨rfl, ((C11_ramdisk_size "boot" demo_aboot (demo_img 2048 5000 3000 100 16340) []
    (patch ++ [0, 0, 0]) (fun _ => 0) 0x88e0f5c0 ABOOT_BASE_SAMSUNG demo_target
    (demo_not_loki _ _ _ _ _)
    (by rw [(demo_fields 2048 5000 3000 100 16340 (by decide) (by decide) (by decide)
      (by decide)).2.2.2.1]; decide)
    demo_scan demo_lookup demo_run_2048).2 rfl).1⟩

/-! ## C12 -/

theorem slice_out_low (E fill dtb data : List Nat) (F off o n : Nat) (hF : F ≤ E.length)
    (hj : o + n ≤ F) : slice (pwrite (E.take F ++ fill ++ dtb) (F + off) data) o n = slice E o n :=
  slice_congr _ _ _ _ (fun i hi => out_low _ _ _ _ _ _ _ hF (by omega))

/-- The three saved values in the Loki header after the stores of `loki_patch`. -/
theorem rewritten_saved (m : List Nat) (tgt : target) (page_size page_mask : Nat)
    (h : 4096 ≤ m.length) :
    rd32 (rewritten m tgt page_size page_mask) 0x488 = rd32 m KERNEL_SIZE
    ∧ rd32 (rewritten m tgt page_size page_mask) 0x48c = rd32 m RAMDISK_SIZE
    ∧ rd32 (rewritten m tgt page_size page_mask) 0x490
        = u32 (rd32 m KERNEL_ADDR + align_up (rd32 m KERNEL_SIZE) page_mask) := by
  have hv1 := rd32_lt m KERNEL_SIZE
  have hv2 := rd32_lt m RAMDISK_SIZE
  unfold rewritten
  generalize rd32 m KERNEL_SIZE = v1 at hv1 ⊢
  generalize rd32 m RAMDISK_SIZE = v2 at hv2 ⊢
  generalize (rd32 m KERNEL_ADDR + align_up v1 page_mask) = w3
  generalize (align_up v1 page_mask + v2) = w4
  generalize (tgt.check_sigs - (tgt.check_sigs &&& 0xf)) = w5
  generalize (if tgt.lg ≠ 0 then page_size else 0) = v6
  have l1 : (wr32 m 0x488 v1).length = m.length := wr32_length _ _ _ (by omega)
  have l2 : (wr32 (wr32 m 0x488 v1) 0x48c v2).length = m.length := by
    rw [wr32_length _ _ _ (by omega), l1]
  have l3 : (wr32 (wr32 (wr32 m 0x488 v1) 0x48c v2) 0x490 (u32 w3)).length = m.length := by
    rw [wr32_length _ _ _ (by omega), l2]
  have l4 : (wr32 (wr32 (wr32 (wr32 m 0x488 v1) 0x48c v2) 0x490 (u32 w3)) KERNEL_SIZE (u32 w4)).length
      = m.length := by
    rw [wr32_length _ _ _ (by simp only [KERNEL_SIZE]; omega), l3]
  have l5 : (wr32 (wr32 (wr32 (wr32 (wr32 m 0x488 v1) 0x48c v2) 0x490 (u32 w3)) KERNEL_SIZE (u32 w4))
      RAMDISK_ADDR (u32 w5)).length = m.length := by
    rw [wr32_length _ _ _ (by simp only [RAMDISK_ADDR]; omega), l4]
  have outer : ∀ j, 24 ≤ j →
      rd32 (wr32 (wr32 (wr32 (wr32 (wr32 (wr32 m 0x488 v1) 0x48c v2) 0x490 (u32 w3))
        KERNEL_SIZE (u32 w4)) RAMDISK_ADDR (u32 w5)) RAMDISK_SIZE v6) j
      = rd32 (wr32 (wr32 (wr32 m 0x488 v1) 0x48c v2) 0x490 (u32 w3)) j := by
    intro j hj
    rw [rd32_wr32_of_ge _ _ _ _ (by simp only [RAMDISK_SIZE]; omega)
        (by simp only [RAMDISK_SIZE]; omega),
      rd32_wr32_of_ge _ _ _ _ (by simp only [RAMDISK_ADDR]; omega)
        (by simp only [RAMDISK_ADDR]; omega),
      rd32_wr32_of_ge _ _ _ _ (by simp only [KERNEL_SIZE]; omega)
        (by simp only [KERNEL_SIZE]; omega)]
  refine ⟨?_, ?_, ?_⟩
  · rw [outer _ (by omega), rd32_wr32_of_lt _ _ _ _ (by omega) (by omega),
      rd32_wr32_of_lt _ _ _ _ (by omega) (by omega), rd32_wr32_same _ _ _ (by omega)]
    exact Nat.mod_eq_of_lt hv1
  · rw [outer _ (by omega), rd32_wr32_of_lt _ _ _ _ (by omega) (by omega),
      rd32_wr32_same _ _ _ (by omega)]
    exact Nat.mod_eq_of_lt hv2
  · rw [outer _ (by omega), rd32_wr32_same _ _ _ (by omega)]
    simp only [u32, Nat.mod_mod]

/-- The saved values in the Loki header of the image after all stores of `loki_patch`. -/
theorem edited_saved (orig : List Nat) (recovery : Nat) (tgt : target) (h : 4096 ≤ orig.length) :
    rd32 (edited orig recovery tgt) 0x488 = rd32 orig KERNEL_SIZE
    ∧ rd32 (edited orig recovery tgt) 0x48c = rd32 orig RAMDISK_SIZE
    ∧ rd32 (edited orig recovery tgt) 0x490
        = u32 (rd32 orig KERNEL_ADDR + align_up (rd32 orig KERNEL_SIZE) (mask_of orig)) := by
  have hs := stamped_length orig recovery tgt h
  have rs := rd32_stamped orig recovery tgt h
  obtain ⟨r1, r2, r3⟩ := rewritten_saved (stamped orig recovery tgt) tgt (rd32 orig PAGE_SIZE)
    (mask_of orig) (by rw [hs]; exact h)
  rw [rs KERNEL_SIZE (by decide)] at r1 r3
  rw [rs RAMDISK_SIZE (by decide)] at r2
  rw [rs KERNEL_ADDR (by decide)] at r3
  exact ⟨r1, r2, r3⟩

/-- The Loki header of the output of a successful run whose header page reaches past it. -/
theorem loki_hdr_out (partition : String) (abootFile img out0 pm : List Nat)
    (junk : Nat → Nat) (a b : Nat) (tgt : target)
    (hnl : ¬ is_loki img) (hP : 0x494 ≤ hdr_field img PAGE_SIZE)
    (hs : scan (mmap 1048576 abootFile) = .found a b) (hl : lookup a = some tgt)
    (hok : (loki_patch partition abootFile img out0 pm junk).status = .ok) :
    slice (loki_patch partition abootFile img out0 pm junk).out 0x400 4 = LOKI_MAGIC
    ∧ (partition = "boot" → rd32 (loki_patch partition abootFile img out0 pm junk).out 0x404 = 0)
    ∧ (partition = "recovery" →
        rd32 (loki_patch partition abootFile img out0 pm junk).out 0x404 = 1)
    ∧ slice (loki_patch partition abootFile img out0 pm junk).out 0x408 127
        = strncpy tgt.build 127
    ∧ rd32 (loki_patch partition abootFile img out0 pm junk).out 0x488
        = hdr_field img KERNEL_SIZE
    ∧ rd32 (loki_patch partition abootFile img out0 pm junk).out 0x48c
        = hdr_field img RAMDISK_SIZE
    ∧ rd32 (loki_patch partition abootFile img out0 pm junk).out 0x490
        = u32 (hdr_field img KERNEL_ADDR
            + align_up (hdr_field img KERNEL_SIZE) (mask_of (mmap 25174016 img)))
    ∧ rd32 (loki_patch partition abootFile img out0 pm junk).out RAMDISK_ADDR
        = u32 (tgt.check_sigs - (tgt.check_sigs &&& 0xf)) := by
  obtain ⟨recovery, hk, h4, hF, -, hout⟩ := patch_ok_at _ _ _ _ _ _ _ _ _ hnl hs hl hok
  obtain ⟨hle, -, e3, -, -, -, e7, e8, e9⟩ := edited_facts (mmap 25174016 img) recovery tgt h4
  obtain ⟨s1, s2, s3⟩ := edited_saved (mmap 25174016 img) recovery tgt h4
  have hFP : 0x494 ≤ seg_end (mmap 25174016 img) := by
    unfold seg_end
    have : 0x494 ≤ rd32 (mmap 25174016 img) PAGE_SIZE := hP
    omega
  have hEl : seg_end (mmap 25174016 img) ≤ (edited (mmap 25174016 img) recovery tgt).length := by
    rw [hle]; exact hF
  have hne : ("recovery" : String) ≠ "boot" := by decide
  rw [hout]
  dsimp only
  rw [slice_out_low _ _ _ _ _ _ _ _ hEl (by omega), slice_out_low _ _ _ _ _ _ _ _ hEl (by omega),
    rd32_out_low _ _ _ _ _ _ _ hEl (by omega), rd32_out_low _ _ _ _ _ _ _ hEl (by omega),
    rd32_out_low _ _ _ _ _ _ _ hEl (by omega), rd32_out_low _ _ _ _ _ _ _ hEl (by omega),
    rd32_out_low _ _ _ _ _ _ _ hEl (by simp only [RAMDISK_ADDR]; omega)]
  refine ⟨e7, ?_, ?_, e9, s1, s2, s3, e3⟩
  · intro hb
    rcases hk with ⟨-, hr⟩ | ⟨hp, -⟩
    · rw [e8, hr]; rfl
    · rw [hp] at hb; exact absurd hb hne
  · intro hb
    rcases hk with ⟨hp, -⟩ | ⟨-, hr⟩
    · rw [hp] at hb; exact absurd hb.symm hne
    · rw [e8, hr]; rfl

theorem targets_build_len : ∀ t ∈ targets, (t.build.toList.map Char.toNat).length ≤ 127 := by
  decide

theorem strncpy_prefix (s : String) (n : Nat) (h : (s.toList.map Char.toNat).length ≤ n) :
    (strncpy s n).take (s.toList.map Char.toNat).length = s.toList.map Char.toNat := by
  unfold strncpy
  rw [List.take_of_length_le h, List.take_left]

theorem slice_slice_take (m : List Nat) (o n k : Nat) (h : k ≤ n) :
    (slice m o n).take k = slice m o k := by
  unfold slice
  rw [List.take_take, Nat.min_eq_left h]

theorem boot_hdr_length (k ka r ra s sa ta P dt : Nat) :
    (boot_hdr k ka r ra s sa ta P dt).length = 44 := rfl

theorem boot_hdr_addr (k ka r ra s sa ta P dt : Nat) (hka : ka < 4294967296)
    (hs : s < 4294967296) :
    rd32 (boot_hdr k ka r ra s sa ta P dt) KERNEL_ADDR = ka
    ∧ rd32 (boot_hdr k ka r ra s sa ta P dt) 24 = s := by
  refine ⟨?_, ?_⟩ <;>
  · simp only [boot_hdr, BOOT_MAGIC, le32, rd32, byteAt, KERNEL_ADDR, List.cons_append,
      List.nil_append, List.getD_cons_zero, List.getD_cons_succ]
    omega

theorem gen_fields (k ka r ra s P dt : Nat) (body : List Nat) (hk : k < 4294967296)
    (hka : ka < 4294967296) (hr : r < 4294967296) (hra : ra < 4294967296)
    (hs : s < 4294967296) (hP : P < 4294967296) (hdt : dt < 4294967296) :
    hdr_field (gen_img k ka r ra s P dt body) KERNEL_SIZE = k
    ∧ hdr_field (gen_img k ka r ra s P dt body) KERNEL_ADDR = ka
    ∧ hdr_field (gen_img k ka r ra s P dt body) RAMDISK_SIZE = r
    ∧ hdr_field (gen_img k ka r ra s P dt body) RAMDISK_ADDR = ra
    ∧ hdr_field (gen_img k ka r ra s P dt body) 24 = s
    ∧ hdr_field (gen_img k ka r ra s P dt body) PAGE_SIZE = P
    ∧ hdr_field (gen_img k ka r ra s P dt body) DT_SIZE = dt := by
  obtain ⟨f1, f2, f3, f4, f5⟩ := boot_hdr_fields k ka r ra s 0x80f00000 0x80200100 P dt hk hr
    hra hP hdt
  obtain ⟨g1, g2⟩ := boot_hdr_addr k ka r ra s 0x80f00000 0x80200100 P dt hka hs
  have ha : ∀ off, off + 4 ≤ 44 → hdr_field (gen_img k ka r ra s P dt body) off
      = rd32 (boot_hdr k ka r ra s 0x80f00000 0x80200100 P dt) off := by
    intro off ho
    unfold gen_img
    rw [hdr_field_append _ _ _ (by rw [boot_hdr_length]; exact ho)
      (by rw [boot_hdr_length]; decide)]
  rw [ha _ (by decide), ha _ (by decide), ha _ (by decide), ha _ (by decide), ha _ (by decide),
    ha _ (by decide), ha _ (by decide)]
  exact ⟨f1, g1, f2, f3, g2, f4, f5⟩

theorem gen_length (k ka r ra s P dt : Nat) (body : List Nat) :
    (gen_img k ka r ra s P dt body).length = 44 + body.length := by
  unfold gen_img
  rw [List.length_append, boot_hdr_length]

theorem gen_mapped_length (k ka r ra s P dt : Nat) (body : List Nat)
    (hn : (44 + body.length) % 4096 = 0) (hL : 44 + body.length ≤ 25174016) :
    (mmap 25174016 (gen_img k ka r ra s P dt body)).length = 44 + body.length := by
  rw [mmap_length, gen_length, hn]
  omega

theorem gen_getElem? (k ka r ra s P dt : Nat) (body : List Nat) (i : Nat) :
    (gen_img k ka r ra s P dt body)[44 + i]? = body[i]? := by
  unfold gen_img
  rw [List.getElem?_append_right (by rw [boot_hdr_length]; omega), boot_hdr_length]
  have e : 44 + i - 44 = i := by omega
  rw [e]

theorem gen_not_loki (k ka r ra s P dt : Nat) (body : List Nat) (h : body[980]? = some 0) :
    ¬ is_loki (gen_img k ka r ra s P dt body) := by
  have hb : 980 < body.length := by
    by_contra hc
    rw [List.getElem?_eq_none (by omega)] at h
    exact absurd h (by simp)
  apply not_is_loki_of_zero
  rw [mmap_getElem? _ _ _ (by rw [gen_length]; omega) (by decide),
    show (0x400 : Nat) = 44 + 980 from rfl, gen_getElem?, h]
  decide

/-- The run of `loki_patch` succeeds when the scan resolves a target, the shellcode call
succeeds and the segments the header declares lie inside the mapped image. -/
theorem patch_run (partition : String) (abootFile img out0 pm : List Nat) (junk : Nat → Nat)
    (a b : Nat) (tgt : target) (hp : partition = "boot" ∨ partition = "recovery")
    (hs : scan (mmap 1048576 abootFile) = .found a b) (hl : lookup a = some tgt)
    (hnl : ¬ is_loki img) (h4 : 4096 ≤ (mmap 25174016 img).length)
    (hsc : ¬ (loki_patch_shellcode pm tgt.hdr (hdr_field img RAMDISK_ADDR)).1 < 0)
    (hF : seg_end (mmap 25174016 img) ≤ (mmap 25174016 img).length)
    (hdt : hdr_field img DT_SIZE ≠ 0 →
        seg_end (mmap 25174016 img) + hdr_field img DT_SIZE ≤ (mmap 25174016 img).length) :
    (loki_patch partition abootFile img out0 pm junk).status = .ok := by
  rw [loki_patch_resolved partition abootFile img out0 pm junk a b tgt hp hs hl]
  exact body_run _ _ _ _ _ _ _ h4 hnl hsc hF hdt

theorem seg_end_eq (img : List Nat) (P k r : Nat) (hP : hdr_field img PAGE_SIZE = P)
    (hk : hdr_field img KERNEL_SIZE = k) (hr : hdr_field img RAMDISK_SIZE = r) :
    seg_end (mmap 25174016 img)
      = P + align_up k (u32 (P + 0xffffffff)) + align_up r (u32 (P + 0xffffffff)) := by
  simp only [hdr_field] at hP hk hr
  simp only [seg_end, mask_of, hP, hk, hr]

/-- C12 (amended): for a source image without the Loki magic whose page size is a power of
two `P ≥ 2048`, and the target the scan resolved, the output of a successful `loki_patch`
has at offset 0x400 the magic "LOKI"; at 0x404 the kind flag, 0 for "boot" and 1 for
"recovery"; at 0x408 the build string of the target (NUL-padded to 127 bytes); at 0x488 and
0x48c the source header's `kernel_size` and `ramdisk_size`; and at 0x490 the source
`kernel_addr` plus `page_align(kernel_size, P)`, reduced modulo 2^32. -/
theorem C12_loki_header (partition : String) (abootFile img out0 pm : List Nat)
    (junk : Nat → Nat) (e a b : Nat) (tgt : target)
    (hnl : ¬ is_loki img) (hP : hdr_field img PAGE_SIZE = 2 ^ e) (h2048 : 2048 ≤ 2 ^ e)
    (hs : scan (mmap 1048576 abootFile) = .found a b) (hl : lookup a = some tgt)
    (hok : (loki_patch partition abootFile img out0 pm junk).status = .ok) :
    slice (loki_patch partition abootFile img out0 pm junk).out 0x400 4 = LOKI_MAGIC
    ∧ (partition = "boot" → rd32 (loki_patch partition abootFile img out0 pm junk).out 0x404 = 0)
    ∧ (partition = "recovery" →
        rd32 (loki_patch partition abootFile img out0 pm junk).out 0x404 = 1)
    ∧ slice (loki_patch partition abootFile img out0 pm junk).out 0x408
        (tgt.build.toList.map Char.toNat).length = tgt.build.toList.map Char.toNat
    ∧ slice (loki_patch partition abootFile img out0 pm junk).out 0x408 127
        = strncpy tgt.build 127
    ∧ rd32 (loki_patch partition abootFile img out0 pm junk).out 0x488
        = hdr_field img KERNEL_SIZE
    ∧ rd32 (loki_patch partition abootFile img out0 pm junk).out 0x48c
        = hdr_field img RAMDISK_SIZE
    ∧ rd32 (loki_patch partition abootFile img out0 pm junk).out 0x490
        = (hdr_field img KERNEL_ADDR + page_align (hdr_field img KERNEL_SIZE) (2 ^ e))
            % 4294967296 := by
  obtain ⟨h1, h2, h3, h4, h5, h6, h7, -⟩ :=
    loki_hdr_out partition abootFile img out0 pm junk a b tgt hnl (by rw [hP]; omega) hs hl hok
  obtain ⟨he, hm⟩ := mask_of_pow (mmap 25174016 img) e hP
  have hlen := targets_build_len tgt (lookup_some _ _ hl).1
  refine ⟨h1, h2, h3, ?_, h4, h5, h6, ?_⟩
  · rw [← slice_slice_take _ _ 127 _ hlen, h4, strncpy_prefix _ _ hlen]
  · rw [h7, hm, align_up_eq (hdr_field img KERNEL_SIZE) e (rd32_lt _ _) he]
    unfold u32
    exact Nat.add_mod_mod _ _ _

/-- C12 as stated fails when the sum does not fit the 32-bit field: with `page_size = 2048`,
`kernel_addr = 0xfffff800`, `kernel_size = 1` the run succeeds and the Loki header has
`ramdisk_addr = 0`, while `kernel_addr + page_align(1, 2048) = 4294967296`. -/
theorem C12_counterexample :
    ¬ is_loki (gen_img 1 0xfffff800 0 0x82008000 0 2048 0 (List.replicate 4052 0))
    ∧ hdr_field (gen_img 1 0xfffff800 0 0x82008000 0 2048 0 (List.replicate 4052 0)) PAGE_SIZE
        = 2 ^ 11
    ∧ scan (mmap 1048576 demo_aboot) = .found 0x88e0f5c0 ABOOT_BASE_SAMSUNG
    ∧ lookup 0x88e0f5c0 = some demo_target
    ∧ (loki_patch "boot" demo_aboot
        (gen_img 1 0xfffff800 0 0x82008000 0 2048 0 (List.replicate 4052 0)) []
        (patch ++ [0, 0, 0]) (fun _ => 0)).status = .ok
    ∧ rd32 (loki_patch "boot" demo_aboot
        (gen_img 1 0xfffff800 0 0x82008000 0 2048 0 (List.replicate 4052 0)) []
        (patch ++ [0, 0, 0]) (fun _ => 0)).out 0x490 = 0
    ∧ hdr_field (gen_img 1 0xfffff800 0 0x82008000 0 2048 0 (List.replicate 4052 0)) KERNEL_ADDR
        + page_align (hdr_field (gen_img 1 0xfffff800 0 0x82008000 0 2048 0
            (List.replicate 4052 0)) KERNEL_SIZE) 2048 = 4294967296 := by
  obtain ⟨f1, f2, f3, f4, -, f6, f7⟩ := gen_fields 1 0xfffff800 0 0x82008000 0 2048 0
    (List.replicate 4052 0) (by decide) (by decide) (by decide) (by decide) (by decide)
    (by decide) (by decide)
  have hnl : ¬ is_loki (gen_img 1 0xfffff800 0 0x82008000 0 2048 0 (List.replicate 4052 0)) :=
    gen_not_loki _ _ _ _ _ _ _ _ (by rw [List.getElem?_replicate, if_pos (by decide)])
  have hml := gen_mapped_length 1 0xfffff800 0 0x82008000 0 2048 0 (List.replicate 4052 0)
    (by rw [List.length_replicate]) (by rw [List.length_replicate]; decide)
  rw [List.length_replicate] at hml
  have hse := seg_end_eq _ _ _ _ f6 f1 f3
  have hF : 2048 + align_up 1 (u32 (2048 + 0xffffffff)) + align_up 0 (u32 (2048 + 0xffffffff))
      = 4096 := by decide
  rw [hF] at hse
  have hok : (loki_patch "boot" demo_aboot
      (gen_img 1 0xfffff800 0 0x82008000 0 2048 0 (List.replicate 4052 0)) []
      (patch ++ [0, 0, 0]) (fun _ => 0)).status = .ok := by
    apply patch_run _ _ _ _ _ _ _ _ _ (Or.inl rfl) demo_scan demo_lookup hnl
    · rw [hml]
    · rw [f4]
      have := sc_pristine 0x88ed32e0 0x82008000 [0, 0, 0] (by decide) (by decide) (by decide)
      show ¬ (loki_patch_shellcode (patch ++ [0, 0, 0]) 0x88ed32e0 0x82008000).1 < 0
      rw [this]
      exact Int.lt_irrefl 0
    · rw [hse, hml]
    · intro hc
      exact absurd f7 hc
  have hP : hdr_field (gen_img 1 0xfffff800 0 0x82008000 0 2048 0 (List.replicate 4052 0))
      PAGE_SIZE = 2 ^ 11 := by rw [f6]; rfl
  refine ⟨hnl, hP, demo_scan, demo_lookup, hok, ?_, by rw [f1, f2]; decide⟩
  rw [(loki_hdr_out _ _ _ _ _ _ _ _ _ hnl (by rw [f6]; decide) demo_scan demo_lookup
    hok).2.2.2.2.2.2.1, f1, f2]
  have hm : mask_of (mmap 25174016
      (gen_img 1 0xfffff800 0 0x82008000 0 2048 0 (List.replicate 4052 0))) = 2047 := by
    have : rd32 (mmap 25174016
        (gen_img 1 0xfffff800 0 0x82008000 0 2048 0 (List.replicate 4052 0))) PAGE_SIZE = 2048 := f6
    rw [mask_of, this]
    decide
  rw [hm]
  decide

/-- C12 (amended) on the demo run: the output has "LOKI" at 0x400 and kind flag 0. -/
theorem C12_loki_header_witness :
    slice (loki_patch "boot" demo_aboot (demo_img 2048 5000 3000 100 16340) []
        (patch ++ [0, 0, 0]) (fun _ => 0)).out 0x400 4 = LOKI_MAGIC
    ∧ rd32 (loki_patch "boot" demo_aboot (demo_img 2048 5000 3000 100 16340) []
        (patch ++ [0, 0, 0]) (fun _ => 0)).out 0x404 = 0
    ∧ rd32 (loki_patch "boot" demo_aboot (demo_img 2048 5000 3000 100 16340) []
        (patch ++ [0, 0, 0]) (fun _ => 0)).out 0x488 = 5000 := by
  obtain ⟨f1, -, -, f4, -⟩ := demo_fields 2048 5000 3000 100 16340 (by decide) (by decide)
    (by decide) (by decide)
  obtain ⟨h1, h2, -, -, -, h6, -⟩ := C12_loki_header "boot" demo_aboot
    (demo_img 2048 5000 3000 100 16340) [] (patch ++ [0, 0, 0]) (fun _ => 0) 11 0x88e0f5c0
    ABOOT_BASE_SAMSUNG demo_target (demo_not_loki _ _ _ _ _) (by rw [f4]; rfl) (by decide)
    demo_scan demo_lookup demo_run_2048
  exact ⟨h1, h2 rfl, by rw [h6, f1]⟩

/-! ## C13 -/

/-- The run of `loki_patch` leaves by "Failed to patch shellcode" when the scan resolves a
target, the image has no Loki magic and the shellcode call fails. -/
theorem patch_shellcode_fail (partition : String) (abootFile img out0 pm : List Nat)
    (junk : Nat → Nat) (a b : Nat) (tgt : target)
    (hp : partition = "boot" ∨ partition = "recovery")
    (hs : scan (mmap 1048576 abootFile) = .found a b) (hl : lookup a = some tgt)
    (hnl : ¬ is_loki img) (h4 : 4096 ≤ (mmap 25174016 img).length)
    (hsc : (loki_patch_shellcode pm tgt.hdr (hdr_field img RAMDISK_ADDR)).1 < 0) :
    (loki_patch partition abootFile img out0 pm junk).status = .shellcode := by
  have hs' := stamped_length (mmap 25174016 img) (if partition = "boot" then 0 else 1) tgt h4
  have rs := rd32_stamped (mmap 25174016 img) (if partition = "boot" then 0 else 1) tgt h4
  have hb := body_eq (if partition = "boot" then 0 else 1) abootFile b tgt img pm junk h4 hnl
  rw [← rs KERNEL_SIZE (by decide), ← rs RAMDISK_SIZE (by decide),
    rewrite_eq _ _ _ _ _ _ _ _ (by rw [hs']; exact h4), rs KERNEL_SIZE (by decide),
    rs RAMDISK_SIZE (by decide), rs RAMDISK_ADDR (by decide)] at hb
  have hsc' : (loki_patch_shellcode pm tgt.hdr (rd32 (mmap 25174016 img) RAMDISK_ADDR)).1 < 0 :=
    hsc
  rw [loki_patch_resolved partition abootFile img out0 pm junk a b tgt hp hs hl, hb, if_pos hsc']

set_option maxRecDepth 100000 in
/-- A second call on the template left by the call with (0x88ed32e0, 0x82008000), with
another ramdisk address: no marker is left, the call returns -1. -/
theorem sc_second_call :
    loki_patch_shellcode (demo_patch [0, 0, 0]) 0x88ed32e0 0x82208000
      = (-1, demo_patch [0, 0, 0]) := by
  decide

set_option maxRecDepth 100000 in
/-- A second call with the same addresses finds them in place and returns 0. -/
theorem sc_same_call :
    (loki_patch_shellcode (demo_patch [0, 0, 0]) 0x88ed32e0 0x82008000).1 = 0 := by
  decide

/-- C13 fails on the code: `loki_patch_shellcode` stores into the global `patch[]`.  After
the call with header 0x88ed32e0 and ramdisk address 0x82008000 on the pristine template the
array holds these two values in place of the markers; a second call with the same header
and the ramdisk address 0x82208000 finds no marker to replace, returns -1 and leaves the
first address in the buffer (a second call with the same addresses returns 0).  So
`loki_patch` for a boot image with ramdisk address 0x82008000 succeeds, and the following
`loki_patch` for a recovery image with ramdisk address 0x82208000, run in the same process
as `loki_check` does, leaves by "Failed to patch shellcode". -/
theorem C13_template_overwritten :
    loki_patch_shellcode (patch ++ [0, 0, 0]) 0x88ed32e0 0x82008000
      = (0, demo_patch [0, 0, 0])
    ∧ (demo_patch [0, 0, 0]).take sizeof_patch ≠ patch
    ∧ loki_patch_shellcode (demo_patch [0, 0, 0]) 0x88ed32e0 0x82208000
      = (-1, demo_patch [0, 0, 0])
    ∧ (loki_patch_shellcode (demo_patch [0, 0, 0]) 0x88ed32e0 0x82008000).1 = 0
    ∧ (loki_patch "boot" demo_aboot (demo_img 2048 5000 3000 100 16340) [] (patch ++ [0, 0, 0])
        (fun _ => 0)).status = .ok
    ∧ (loki_patch "boot" demo_aboot (demo_img 2048 5000 3000 100 16340) [] (patch ++ [0, 0, 0])
        (fun _ => 0)).pm = demo_patch [0, 0, 0]
    ∧ ¬ is_loki (gen_img 5000 0x80208000 3000 0x82208000 0 2048 100 (List.replicate 16340 0))
    ∧ hdr_field (gen_img 5000 0x80208000 3000 0x82208000 0 2048 100 (List.replicate 16340 0))
        RAMDISK_ADDR = 0x82208000
    ∧ (loki_patch "recovery" demo_aboot
        (gen_img 5000 0x80208000 3000 0x82208000 0 2048 100 (List.replicate 16340 0)) []
        (demo_patch [0, 0, 0]) (fun _ => 0)).status = .shellcode := by
  obtain ⟨-, -, -, f4, -⟩ := gen_fields 5000 0x80208000 3000 0x82208000 0 2048 100
    (List.replicate 16340 0) (by decide) (by decide) (by decide) (by decide) (by decide)
    (by decide) (by decide)
  have hnl : ¬ is_loki
      (gen_img 5000 0x80208000 3000 0x82208000 0 2048 100 (List.replicate 16340 0)) :=
    gen_not_loki _ _ _ _ _ _ _ _ (by rw [List.getElem?_replicate, if_pos (by decide)])
  have hml := gen_mapped_length 5000 0x80208000 3000 0x82208000 0 2048 100
    (List.replicate 16340 0) (by rw [List.length_replicate])
    (by rw [List.length_replicate]; decide)
  rw [List.length_replicate] at hml
  have hsc2 := sc_second_call
  have hrun := demo_run 2048 5000 3000 100 16340 [] [0, 0, 0] (fun _ => 0) (by decide)
    (by decide) (by decide) (by decide) (by decide) (by decide) (by decide)
  refine ⟨sc_pristine 0x88ed32e0 0x82008000 [0, 0, 0] (by decide) (by decide) (by decide),
    by decide, hsc2, sc_same_call, demo_run_2048, by rw [hrun], hnl, f4, ?_⟩
  apply patch_shellcode_fail _ _ _ _ _ _ _ _ _ (Or.inr rfl) demo_scan demo_lookup hnl
  · rw [hml]; decide
  · rw [f4]
    show (loki_patch_shellcode (demo_patch [0, 0, 0]) 0x88ed32e0 0x82208000).1 < 0
    rw [hsc2]
    decide

/-! ## C14 -/

theorem mmap_replicate_zero (len n : Nat) :
    mmap len (List.replicate n 0)
      = List.replicate (min len (n + (4096 - n % 4096) % 4096)) 0 := by
  unfold mmap
  rw [List.length_replicate, ← List.replicate_add, List.take_replicate]

/-- C14: for a non-empty partition image, `loki_check_partition` reports blank (returns 0)
when the image has no "LOKI" at offset 0x400 and does not start with "ANDROID!", so in
particular for an all-zero image; it reports needs-lokifying (returns 1) exactly when the
image has no "LOKI" at 0x400 and starts with "ANDROID!". -/
theorem C14_check_partition (img : List Nat) (hne : img ≠ []) :
    (¬ is_loki img → slice (mmap 25174016 img) 0 8 ≠ BOOT_MAGIC →
      loki_check_partition img = .blank ∧ (loki_check_partition img).ret = some 0)
    ∧ (loki_check_partition img = .needsLokifying
        ↔ ¬ is_loki img ∧ slice (mmap 25174016 img) 0 8 = BOOT_MAGIC)
    ∧ ((loki_check_partition img).ret = some 1
        ↔ ¬ is_loki img ∧ slice (mmap 25174016 img) 0 8 = BOOT_MAGIC)
    ∧ (∀ n, img = List.replicate n 0 → loki_check_partition img = .blank) := by
  have h4 := mmap_length_of_ne_nil img hne
  have hlen : ¬ (mmap 25174016 img).length < 0x404 := by omega
  have key : loki_check_partition img =
      if slice (mmap 25174016 img) 0x400 4 ≠ LOKI_MAGIC then
        if slice (mmap 25174016 img) 0 8 = BOOT_MAGIC then .needsLokifying else .blank
      else .isLoki := by
    unfold loki_check_partition
    dsimp only
    rw [if_neg hlen]
  have hblank : ¬ is_loki img → slice (mmap 25174016 img) 0 8 ≠ BOOT_MAGIC →
      loki_check_partition img = .blank := by
    intro h1 h2
    have h1' : slice (mmap 25174016 img) 0x400 4 ≠ LOKI_MAGIC := h1
    rw [key, if_pos h1', if_neg h2]
  refine ⟨fun h1 h2 => ⟨hblank h1 h2, by rw [hblank h1 h2]; rfl⟩, ?_, ?_, ?_⟩
  · rw [key]
    unfold is_loki
    by_cases h1 : slice (mmap 25174016 img) 0x400 4 = LOKI_MAGIC
    · rw [if_neg (not_not.2 h1)]; simp [h1]
    · rw [if_pos h1]
      by_cases h2 : slice (mmap 25174016 img) 0 8 = BOOT_MAGIC
      · rw [if_pos h2]; simp [h1, h2]
      · rw [if_neg h2]; simp [h1, h2]
  · rw [key]
    unfold is_loki
    by_cases h1 : slice (mmap 25174016 img) 0x400 4 = LOKI_MAGIC
    · rw [if_neg (not_not.2 h1)]; simp [h1, CheckStatus.ret]
    · rw [if_pos h1]
      by_cases h2 : slice (mmap 25174016 img) 0 8 = BOOT_MAGIC
      · rw [if_pos h2]; simp [h1, h2, CheckStatus.ret]
      · rw [if_neg h2]; simp [h1, h2, CheckStatus.ret]
  · intro n hn
    have hn0 : 0 < n := by
      rcases Nat.eq_zero_or_pos n with h | h
      · rw [h] at hn; exact absurd hn hne
      · exact h
    have hz : ∀ i, i < 4096 → (mmap 25174016 img)[i]? = some 0 := by
      intro i hi
      rw [hn, mmap_replicate_zero, List.getElem?_replicate, if_pos (by omega)]
    apply hblank
    · apply not_is_loki_of_zero
      rw [hz _ (by decide)]
      decide
    · intro hc
      have : (slice (mmap 25174016 img) 0 8)[0]? = BOOT_MAGIC[0]? := by rw [hc]
      rw [getElem?_slice, if_pos (by decide), hz _ (by decide)] at this
      exact absurd this (by decide)

/-- C14 on a partition of two zero bytes: blank. -/
theorem C14_check_partition_witness :
    ([0, 0] : List Nat) ≠ [] ∧ loki_check_partition [0, 0] = .blank :=
  ⟨by decide, (C14_check_partition [0, 0] (by decide)).2.2.2 2 rfl⟩

/-! ## C15 -/

theorem flash_rel_out (ra : Nat) (hra : ra < 4294967296)
    (h : ra < flash_base ra ∨ 0x40000 - 8 < ra - flash_base ra) :
    0x40000 - 8 < flash_rel ra 0 := by
  unfold flash_rel
  unfold flash_base at h ⊢
  unfold u32
  simp only [ABOOT_BASE_SAMSUNG, ABOOT_BASE_LG, ABOOT_BASE_G2] at h ⊢
  split_ifs at h ⊢ <;> omega

theorem is_loki_length (img : List Nat) (h : is_loki img) : 0x404 ≤ (mmap 25174016 img).length := by
  unfold is_loki at h
  have hl := congrArg List.length h
  simp only [slice, List.length_take, List.length_drop, LOKI_MAGIC, List.length_cons,
    List.length_nil] at hl
  omega

/-- C15: for an image with the Loki magic and the requested kind flag whose header
`ramdisk_addr` lies below the base `loki_flash` selects for it, or more than 0x40000 - 8
above it, `loki_flash` leaves at once by "Invalid .lok file", whatever the bootloader
holds, and the destination is unchanged. -/
theorem C15_flash_out_of_window (partition : String) (abootFile lokiImg dest : List Nat)
    (hp : partition = BOOT_PATH ∨ partition = RECOVERY_PATH) (hl : is_loki lokiImg)
    (hk : rd32 (mmap 25174016 lokiImg) 0x404 = requested_kind partition)
    (hout : hdr_field lokiImg RAMDISK_ADDR < flash_base (hdr_field lokiImg RAMDISK_ADDR)
      ∨ 0x40000 - 8 < hdr_field lokiImg RAMDISK_ADDR
          - flash_base (hdr_field lokiImg RAMDISK_ADDR)) :
    loki_flash partition abootFile lokiImg dest = ⟨.invalidLok, dest⟩
    ∧ flash_loop (mmap 0x40000 abootFile) (hdr_field lokiImg RAMDISK_ADDR) [0, 4, 8, 12]
        = .invalid := by
  have h4 := is_loki_length lokiImg hl
  have hrel := flash_rel_out (hdr_field lokiImg RAMDISK_ADDR) (rd32_lt _ _) hout
  have hloop : flash_loop (mmap 0x40000 abootFile) (hdr_field lokiImg RAMDISK_ADDR)
      [0, 4, 8, 12] = .invalid := by
    rw [flash_loop_cons, if_pos hrel]
  have hloop' : flash_loop (mmap 0x40000 abootFile) (rd32 (mmap 25174016 lokiImg) RAMDISK_ADDR)
      [0, 4, 8, 12] = .invalid := hloop
  have hk' : rd32 (mmap 25174016 lokiImg) 0x404 = if partition = BOOT_PATH then 0 else 1 := hk
  have hl' : ¬ (slice (mmap 25174016 lokiImg) 0x400 4 ≠ LOKI_MAGIC) := not_not.2 hl
  refine ⟨?_, hloop⟩
  unfold loki_flash
  rw [if_neg (by rcases hp with h | h <;> simp [h])]
  dsimp only
  rw [if_neg (by omega), if_neg hl', if_neg (not_not.2 hk'), hloop']

theorem rd32_le32 (v : Nat) (hv : v < 4294967296) : rd32 (le32 v) 0 = v := by
  simp only [rd32, byteAt, le32, List.getD_cons_zero, List.getD_cons_succ]
  omega

theorem lok_img_length (ra kind : Nat) : (lok_img ra kind).length = 1032 := by
  simp only [lok_img, List.length_append, List.length_replicate, le32_length, LOKI_MAGIC,
    List.length_cons, List.length_nil]

theorem lok_img_facts (ra kind : Nat) (hra : ra < 4294967296) (hk : kind < 4294967296) :
    is_loki (lok_img ra kind)
    ∧ rd32 (mmap 25174016 (lok_img ra kind)) 0x404 = kind
    ∧ hdr_field (lok_img ra kind) RAMDISK_ADDR = ra := by
  have hlen := lok_img_length ra kind
  have hA : (List.replicate 20 0 ++ le32 ra ++ List.replicate 1000 0).length = 1024 := by
    simp only [List.length_append, List.length_replicate, le32_length]
  have hB : (List.replicate 20 0 ++ le32 ra ++ List.replicate 1000 0 ++ LOKI_MAGIC).length
      = 1028 := by
    rw [List.length_append, hA]; rfl
  refine ⟨?_, ?_, ?_⟩
  · unfold is_loki
    rw [slice_mmap _ _ _ _ (by rw [hlen]; decide) (by decide)]
    unfold lok_img
    rw [List.append_assoc _ LOKI_MAGIC, slice_append_at _ _ _ _ hA]
    rfl
  · rw [rd32_mmap _ _ (by rw [hlen]) (by rw [hlen]; decide)]
    unfold lok_img
    rw [show (0x404 : Nat) = (List.replicate 20 0 ++ le32 ra ++ List.replicate 1000 0
      ++ LOKI_MAGIC).length + 0 from by rw [hB], rd32_append_right]
    exact rd32_le32 kind hk
  · unfold hdr_field
    rw [rd32_mmap _ _ (by rw [hlen]; decide) (by rw [hlen]; decide)]
    unfold lok_img
    rw [List.append_assoc, List.append_assoc, List.append_assoc]
    rw [show RAMDISK_ADDR = (List.replicate 20 0).length + 0 from rfl, rd32_append_right,
      rd32_append_left _ _ _ (by rw [le32_length])]
    exact rd32_le32 ra hra

/-- C15 on a Loki boot image with `ramdisk_addr = 0`, below the LG G2 base selected for it:
refused as invalid although the bootloader starts with a known signature. -/
theorem C15_flash_out_of_window_witness :
    is_loki (lok_img 0 0)
    ∧ hdr_field (lok_img 0 0) RAMDISK_ADDR < flash_base (hdr_field (lok_img 0 0) RAMDISK_ADDR)
    ∧ loki_flash BOOT_PATH PATTERN5 (lok_img 0 0) [1, 2, 3] = ⟨.invalidLok, [1, 2, 3]⟩ := by
  obtain ⟨g1, g2, g3⟩ := lok_img_facts 0 0 (by decide) (by decide)
  have hlt : hdr_field (lok_img 0 0) RAMDISK_ADDR
      < flash_base (hdr_field (lok_img 0 0) RAMDISK_ADDR) := by
    rw [g3]; decide
  exact ⟨g1, hlt, (C15_flash_out_of_window BOOT_PATH PATTERN5 (lok_img 0 0) [1, 2, 3]
    (Or.inl rfl) g1 (by rw [g2]; rfl) (Or.inl hlt)).1⟩

/-! ## C18 -/

theorem byteAt_lt (m : List Nat) (i : Nat) : byteAt m i < 256 := by
  unfold byteAt
  exact Nat.mod_lt _ (by decide)

/-- The two phases of an iteration of the loop of `loki_patch_shellcode`. -/
theorem sc_step_phases (h r : Nat) (s : ScState) (i : Nat) :
    sc_step h r s i =
      (fun s1 : ScState =>
        if rd32 s1.mem i = 0xeeeeeeee then (⟨wr32 s1.mem i r, s1.found_header, 1⟩ : ScState)
        else if rd32 s1.mem i = r then ⟨s1.mem, s1.found_header, 2⟩
        else s1)
      (if rd32 s.mem i = 0xffffffff then ⟨wr32 s.mem i h, 1, s.found_ramdisk⟩
        else if rd32 s.mem i = h then ⟨s.mem, 2, s.found_ramdisk⟩
        else s) := rfl

/-- No iteration clears a flag. -/
theorem sc_step_mono (h r : Nat) (s : ScState) (i : Nat) :
    (s.found_header ≠ 0 → (sc_step h r s i).found_header ≠ 0)
    ∧ (s.found_ramdisk ≠ 0 → (sc_step h r s i).found_ramdisk ≠ 0) := by
  rw [sc_step_phases]
  generalize hs1 : (if rd32 s.mem i = 0xffffffff then (⟨wr32 s.mem i h, 1, s.found_ramdisk⟩ : ScState)
        else if rd32 s.mem i = h then ⟨s.mem, 2, s.found_ramdisk⟩
        else s) = s1
  have h1 : (s.found_header ≠ 0 → s1.found_header ≠ 0) ∧ s1.found_ramdisk = s.found_ramdisk := by
    rw [← hs1]
    split_ifs <;> simp
  dsimp only
  split_ifs
  · exact ⟨fun hh => h1.1 hh, fun _ => Nat.one_ne_zero⟩
  · exact ⟨fun hh => h1.1 hh, fun _ => (by decide : (2 : Nat) ≠ 0)⟩
  · exact ⟨fun hh => h1.1 hh, fun hh => by rw [h1.2]; exact hh⟩

theorem sc_fold_mono (h r : Nat) (l : List Nat) : ∀ s : ScState,
    (s.found_header ≠ 0 → (l.foldl (sc_step h r) s).found_header ≠ 0)
    ∧ (s.found_ramdisk ≠ 0 → (l.foldl (sc_step h r) s).found_ramdisk ≠ 0) := by
  induction l with
  | nil => intro s; exact ⟨id, id⟩
  | cons i l ih =>
    intro s
    obtain ⟨a1, a2⟩ := sc_step_mono h r s i
    obtain ⟨b1, b2⟩ := ih (sc_step h r s i)
    exact ⟨fun hh => b1 (a1 hh), fun hh => b2 (a2 hh)⟩

/-- An iteration that sees the header marker sets `found_header`. -/
theorem sc_step_header (h r : Nat) (s : ScState) (i : Nat) (hw : rd32 s.mem i = 0xffffffff) :
    (sc_step h r s i).found_header ≠ 0 := by
  rw [sc_step_phases, if_pos hw]
  dsimp only
  split_ifs <;> exact Nat.one_ne_zero

theorem rd32_ff (m : List Nat) (i : Nat) (h : rd32 m i = 0xffffffff) (k : Nat) (hk : k < 4) :
    byteAt m (i + k) = 0xff := by
  have b0 := byteAt_lt m i
  have b1 := byteAt_lt m (i + 1)
  have b2 := byteAt_lt m (i + 2)
  have b3 := byteAt_lt m (i + 3)
  unfold rd32 at h
  have : k = 0 ∨ k = 1 ∨ k = 2 ∨ k = 3 := by omega
  rcases this with rfl | rfl | rfl | rfl
  · rw [Nat.add_zero]; omega
  · omega
  · omega
  · omega

/-- Up to index 59 either the ramdisk flag is set or the ramdisk marker is still in place. -/
theorem sc_step_inv (h r : Nat) (s : ScState) (i : Nat) (hi : 56 ≤ i) (hi' : i ≤ 59)
    (hI : s.found_ramdisk ≠ 0
      ∨ (64 ≤ s.mem.length ∧ ∀ j, 60 ≤ j → j < 64 → byteAt s.mem j = 0xee)) :
    (sc_step h r s i).found_ramdisk ≠ 0
      ∨ (64 ≤ (sc_step h r s i).mem.length
        ∧ ∀ j, 60 ≤ j → j < 64 → byteAt (sc_step h r s i).mem j = 0xee) := by
  rcases hI with hI | ⟨hlen, hb⟩
  · left; exact (sc_step_mono h r s i).2 hI
  rw [sc_step_phases]
  generalize hs1 : (if rd32 s.mem i = 0xffffffff then (⟨wr32 s.mem i h, 1, s.found_ramdisk⟩ : ScState)
        else if rd32 s.mem i = h then ⟨s.mem, 2, s.found_ramdisk⟩
        else s) = s1
  have h1 : 64 ≤ s1.mem.length ∧ ∀ j, 60 ≤ j → j < 64 → byteAt s1.mem j = 0xee := by
    rw [← hs1]
    by_cases c1 : rd32 s.mem i = 0xffffffff
    · rw [if_pos c1]
      have h56 : i = 56 := by
        by_contra hne
        have := rd32_ff s.mem i c1 (60 - i) (by omega)
        have e : i + (60 - i) = 60 := by omega
        rw [e, hb 60 (by omega) (by omega)] at this
        exact absurd this (by decide)
      subst h56
      refine ⟨by show 64 ≤ (wr32 s.mem 56 h).length; rw [wr32_length _ _ _ (by omega)]; exact hlen,
        fun j hj hj' => ?_⟩
      show byteAt (poke s.mem 56 (le32 h)) j = 0xee
      rw [byteAt_poke_of_ge _ _ _ _ (by omega) (by rw [le32_length]; omega)]
      exact hb j hj hj'
    · rw [if_neg c1]
      split_ifs
      · exact ⟨hlen, hb⟩
      · exact ⟨hlen, hb⟩
  dsimp only
  split_ifs
  · left; exact Nat.one_ne_zero
  · left; exact (by decide : (2 : Nat) ≠ 0)
  · right; exact h1

/-- At index 60 the ramdisk flag is set, if not before. -/
theorem sc_step_ramdisk (h r : Nat) (s : ScState)
    (hI : s.found_ramdisk ≠ 0
      ∨ (64 ≤ s.mem.length ∧ ∀ j, 60 ≤ j → j < 64 → byteAt s.mem j = 0xee)) :
    (sc_step h r s 60).found_ramdisk ≠ 0 := by
  rcases hI with hI | ⟨hlen, hb⟩
  · exact (sc_step_mono h r s 60).2 hI
  have hw : rd32 s.mem 60 = 0xeeeeeeee := by
    unfold rd32
    rw [hb 60 (by omega) (by omega), hb 61 (by omega) (by omega), hb 62 (by omega) (by omega),
      hb 63 (by omega) (by omega)]
  rw [sc_step_phases]
  generalize hs1 : (if rd32 s.mem 60 = 0xffffffff then (⟨wr32 s.mem 60 h, 1, s.found_ramdisk⟩ : ScState)
        else if rd32 s.mem 60 = h then ⟨s.mem, 2, s.found_ramdisk⟩
        else s) = s1
  have h1 : s1.mem = s.mem := by
    rw [← hs1, if_neg (by rw [hw]; decide)]
    split_ifs <;> rfl
  dsimp only
  rw [h1, if_pos hw]
  exact Nat.one_ne_zero

/-- On the pristine template `loki_patch_shellcode` returns 0, whatever its arguments and
whatever follows the array in memory. -/
theorem sc_always (header ramdisk : Nat) (tail : List Nat) :
    (loki_patch_shellcode (patch ++ tail) header ramdisk).1 = 0 := by
  have hrange : List.range sizeof_patch
      = List.range' 0 56 ++ 56 :: 57 :: 58 :: 59 :: 60 :: List.range' 61 4 := by decide
  have hlen : 65 ≤ (patch ++ tail).length := by
    simp only [List.length_append]; have : patch.length = 65 := rfl; omega
  have p1 := sc_fold_noop (u32 header) (u32 ramdisk) (patch ++ tail) (List.range' 0 56)
    (by
      intro i hi
      have hi56 : i < 56 := by simpa using hi
      rw [rd32_append_left _ _ _ (by show i + 4 ≤ 65; omega)]
      exact patch_words_before_markers i hi)
    ⟨patch ++ tail, 0, 0⟩ rfl
  have w56 : rd32 (patch ++ tail) 56 = 0xffffffff := by
    rw [rd32_append_left _ _ _ (by decide)]; rfl
  have hb : ∀ j, 60 ≤ j → j < 64 → byteAt (patch ++ tail) j = 0xee := by
    intro j h1 h2
    rw [byteAt_append_left _ _ _ (by show j < 65; omega)]
    have : j = 60 ∨ j = 61 ∨ j = 62 ∨ j = 63 := by omega
    rcases this with rfl | rfl | rfl | rfl <;> rfl
  unfold loki_patch_shellcode
  rw [hrange, List.foldl_append, List.foldl_cons, List.foldl_cons, List.foldl_cons,
    List.foldl_cons, List.foldl_cons]
  generalize hS0 : List.foldl (sc_step (u32 header) (u32 ramdisk)) ⟨patch ++ tail, 0, 0⟩
    (List.range' 0 56) = S0 at p1
  obtain ⟨a1, -, -⟩ := p1
  have I0 : S0.found_ramdisk ≠ 0
      ∨ (64 ≤ S0.mem.length ∧ ∀ j, 60 ≤ j → j < 64 → byteAt S0.mem j = 0xee) := by
    right; rw [a1]; exact ⟨by omega, hb⟩
  have H1 := sc_step_header (u32 header) (u32 ramdisk) S0 56 (by rw [a1]; exact w56)
  have I1 := sc_step_inv (u32 header) (u32 ramdisk) S0 56 (by omega) (by omega) I0
  generalize sc_step (u32 header) (u32 ramdisk) S0 56 = S1 at H1 I1
  have H2 := (sc_step_mono (u32 header) (u32 ramdisk) S1 57).1 H1
  have I2 := sc_step_inv (u32 header) (u32 ramdisk) S1 57 (by omega) (by omega) I1
  generalize sc_step (u32 header) (u32 ramdisk) S1 57 = S2 at H2 I2
  have H3 := (sc_step_mono (u32 header) (u32 ramdisk) S2 58).1 H2
  have I3 := sc_step_inv (u32 header) (u32 ramdisk) S2 58 (by omega) (by omega) I2
  generalize sc_step (u32 header) (u32 ramdisk) S2 58 = S3 at H3 I3
  have H4 := (sc_step_mono (u32 header) (u32 ramdisk) S3 59).1 H3
  have I4 := sc_step_inv (u32 header) (u32 ramdisk) S3 59 (by omega) (by omega) I3
  generalize sc_step (u32 header) (u32 ramdisk) S3 59 = S4 at H4 I4
  have H5 := (sc_step_mono (u32 header) (u32 ramdisk) S4 60).1 H4
  have R5 := sc_step_ramdisk (u32 header) (u32 ramdisk) S4 I4
  generalize sc_step (u32 header) (u32 ramdisk) S4 60 = S5 at H5 R5
  obtain ⟨m1, m2⟩ := sc_fold_mono (u32 header) (u32 ramdisk) (List.range' 61 4) S5
  dsimp only
  rw [if_pos ⟨m1 H5, m2 R5⟩]

theorem ne_shellcode_ite (c : Prop) [Decidable c] (a b : PatchResult)
    (ha : a.status ≠ .shellcode) (hb : b.status ≠ .shellcode) :
    (if c then a else b).status ≠ .shellcode := by
  split_ifs <;> assumption

theorem emit_ne_shellcode (abootFile : List Nat) (aboot_base : Nat) (tgt : target)
    (orig : List Nat) (page_size page_mask k r offset fake_size : Nat) (pm : List Nat)
    (junk : Nat → Nat) :
    (loki_patch_emit abootFile aboot_base tgt orig page_size page_mask k r offset
      fake_size pm junk).status ≠ .shellcode := by
  unfold loki_patch_emit
  dsimp only
  split_ifs <;> simp



theorem sc_nonneg (tail : List Nat) (h r : Nat) :
    ¬ (loki_patch_shellcode (patch ++ tail) h r).1 < 0 := by
  rw [sc_always]
  exact Int.lt_irrefl 0


theorem ne_shellcode_of_not (c : Prop) [Decidable c] (a b : PatchResult) (hc : ¬ c)
    (hb : b.status ≠ .shellcode) : (if c then a else b).status ≠ .shellcode := by
  rw [if_neg hc]; exact hb

theorem rewrite_ne_shellcode (abootFile : List Nat) (b : Nat) (tgt : target)
    (orig : List Nat) (ps pmask k r : Nat) (pm : List Nat) (junk : Nat → Nat)
    (hsc : ∀ h r, ¬ (loki_patch_shellcode pm h r).1 < 0) :
    (loki_patch_rewrite abootFile b tgt orig ps pmask k r pm junk).status ≠ .shellcode := by
  unfold loki_patch_rewrite
  dsimp only
  exact ne_shellcode_of_not _ _ _ (hsc _ _) (emit_ne_shellcode _ _ _ _ _ _ _ _ _ _ _ _)

theorem body_ne_shellcode (recovery : Nat) (abootFile : List Nat) (b : Nat) (tgt : target)
    (img pm : List Nat) (junk : Nat → Nat)
    (hsc : ∀ h r, ¬ (loki_patch_shellcode pm h r).1 < 0) :
    (loki_patch_body recovery abootFile b tgt img pm junk).status ≠ .shellcode := by
  unfold loki_patch_body
  dsimp only
  exact ne_shellcode_ite _ _ _ (by simp)
    (ne_shellcode_ite _ _ _ (ne_shellcode_ite _ _ _ (by simp) (by simp))
      (rewrite_ne_shellcode _ _ _ _ _ _ _ _ _ _ hsc))

/-- When the shellcode call cannot fail on the memory at `patch[]`, `loki_patch` never
leaves by "Failed to patch shellcode". -/
theorem patch_ne_shellcode (partition : String) (abootFile img out0 pm : List Nat)
    (junk : Nat → Nat) (hsc : ∀ h r, ¬ (loki_patch_shellcode pm h r).1 < 0) :
    (loki_patch partition abootFile img out0 pm junk).status ≠ .shellcode := by
  unfold loki_patch
  by_cases hp : partition ≠ "boot" ∧ partition ≠ "recovery"
  · rw [if_pos hp]; simp
  rw [if_neg hp]
  cases hs : scan (mmap 1048576 abootFile) with
  | fault => simp [hs]
  | exhausted => simp [hs]
  | found t b =>
    simp only [hs, if_neg (scan_found_ne_zero _ _ _ hs)]
    cases hl : lookup t with
    | none => simp [hl]
    | some tgt =>
      simp only [hl]
      exact body_ne_shellcode _ _ _ _ _ _ _ hsc

/-- C18: on the pristine template (followed by any bytes) `loki_patch_shellcode` returns 0
for every header and ramdisk address, so the failure exit tests the template only; with the
pristine template in `patch[]` no input makes `loki_patch` leave by "Failed to patch
shellcode". -/
theorem C18_shellcode_total (header ramdisk : Nat) (tail : List Nat) :
    (loki_patch_shellcode (patch ++ tail) header ramdisk).1 = 0
    ∧ ∀ (partition : String) (abootFile img out0 : List Nat) (junk : Nat → Nat),
        (loki_patch partition abootFile img out0 (patch ++ tail) junk).status ≠ .shellcode :=
  ⟨sc_always header ramdisk tail,
    fun partition abootFile img out0 junk =>
      patch_ne_shellcode partition abootFile img out0 (patch ++ tail) junk (sc_nonneg tail)⟩

/-! ## C16 -/

theorem getElem?_pwrite_data (file data : List Nat) (p i : Nat) (hi : i < data.length) :
    (pwrite file p data)[p + i]? = data[i]? := by
  have hl : (file.take p ++ List.replicate (p - file.length) 0).length = p := by
    rw [List.length_append, List.length_take, List.length_replicate]; omega
  unfold pwrite
  rw [List.append_assoc (file.take p ++ List.replicate (p - file.length) 0),
    List.getElem?_append_right (by omega), hl, List.getElem?_append_left (by omega)]
  have e : p + i - p = i := by omega
  rw [e]

theorem pwrite_length_ge (file data : List Nat) (p : Nat) :
    file.length ≤ (pwrite file p data).length := by
  unfold pwrite
  simp only [List.length_append, List.length_take, List.length_drop, List.length_replicate]
  omega

/-- Where the shellcode lies in the output of a successful run, for power-of-two page sizes. -/
theorem splice_out (partition : String) (abootFile img out0 pm : List Nat)
    (junk : Nat → Nat) (e a b : Nat) (tgt : target) (P ak ar fake off dt : Nat)
    (hnl : ¬ is_loki img) (hP : hdr_field img PAGE_SIZE = P) (hPe : P = 2 ^ e)
    (hak : ak = page_align (hdr_field img KERNEL_SIZE) P % 4294967296)
    (har : ar = page_align (hdr_field img RAMDISK_SIZE) P % 4294967296)
    (hfake : fake = if tgt.lg ≠ 0 then P else 512)
    (hoff : off = tgt.check_sigs % 16) (hdt : dt = hdr_field img DT_SIZE)
    (hs : scan (mmap 1048576 abootFile) = .found a b) (hl : lookup a = some tgt)
    (hok : (loki_patch partition abootFile img out0 pm junk).status = .ok) :
    off = tgt.check_sigs &&& 0xf
    ∧ (∀ i, i < ((loki_patch partition abootFile img out0 pm junk).pm.take sizeof_patch).length →
        (loki_patch partition abootFile img out0 pm junk).out[P + ak + ar + off + i]?
          = ((loki_patch partition abootFile img out0 pm junk).pm.take sizeof_patch)[i]?)
    ∧ (128 ≤ P →
        off + 65 ≤ fake
        ∧ P + ak + ar + off + (fake - off) = P + ak + ar + fake
        ∧ (loki_patch partition abootFile img out0 pm junk).out.length = P + ak + ar + fake + dt
        ∧ (∀ j, j < P + ak + ar →
            (loki_patch partition abootFile img out0 pm junk).out[j]?
              = (edited (mmap 25174016 img) (if partition = "boot" then 0 else 1) tgt)[j]?)
        ∧ (∀ i, i < dt →
            (loki_patch partition abootFile img out0 pm junk).out[P + ak + ar + fake + i]?
              = (edited (mmap 25174016 img) (if partition = "boot" then 0 else 1)
                  tgt)[P + ak + ar + i]?)) := by
  obtain ⟨recovery, hk, h4, hF, hFdt, hout⟩ := patch_ok_at _ _ _ _ _ _ _ _ _ hnl hs hl hok
  have hrec : recovery = if partition = "boot" then 0 else 1 := by
    rcases hk with ⟨hp, hr⟩ | ⟨hp, hr⟩
    · rw [hr, if_pos hp]
    · rw [hr, if_neg (by rw [hp]; decide)]
  rw [hrec] at hout
  obtain ⟨hle, -⟩ := edited_facts (mmap 25174016 img) (if partition = "boot" then 0 else 1) tgt h4
  obtain ⟨he, hm⟩ := mask_of_pow (mmap 25174016 img) e (by rw [← hPe]; exact hP)
  have hand : tgt.check_sigs &&& 0xf = off := by
    rw [hoff]; exact Nat.and_pow_two_sub_one_eq_mod tgt.check_sigs 4
  have hka : align_up (rd32 (mmap 25174016 img) KERNEL_SIZE) (mask_of (mmap 25174016 img)) = ak := by
    rw [hm, align_up_eq _ e (rd32_lt _ _) he, hak, hPe]; rfl
  have hra : align_up (rd32 (mmap 25174016 img) RAMDISK_SIZE) (mask_of (mmap 25174016 img)) = ar := by
    rw [hm, align_up_eq _ e (rd32_lt _ _) he, har, hPe]; rfl
  have hse : seg_end (mmap 25174016 img) = P + ak + ar := by
    unfold seg_end
    rw [hka, hra]
    have : rd32 (mmap 25174016 img) PAGE_SIZE = P := hP
    rw [this]
  have hfk : fake_of (mmap 25174016 img) tgt = fake := by
    unfold fake_of
    have : rd32 (mmap 25174016 img) PAGE_SIZE = P := hP
    rw [this, hfake]
  rw [hse, hfk, hand, ← hdt] at hout
  rw [hse] at hF
  rw [hse, ← hdt] at hFdt
  have hoff16 : off < 16 := by rw [hoff]; exact Nat.mod_lt _ (by decide)
  generalize hdata : (loki_patch_shellcode pm tgt.hdr (hdr_field img RAMDISK_ADDR)).2.take
    sizeof_patch = data at hout
  have hdl : data.length ≤ 65 := by
    rw [← hdata, List.length_take]; exact Nat.min_le_left _ _
  generalize hE : edited (mmap 25174016 img) (if partition = "boot" then 0 else 1) tgt = E
    at hout hle
  have hEl : P + ak + ar ≤ E.length := by rw [hle]; exact hF
  have htk : (E.take (P + ak + ar)).length = P + ak + ar := by
    rw [List.length_take]; omega
  have hsl : (slice E (P + ak + ar) dt).length = dt := by
    by_cases hd : dt = 0
    · rw [hd]; simp [slice]
    · exact slice_length _ _ _ (by rw [hle]; exact hFdt hd)
  have hfl : (E.take (P + ak + ar) ++ filler abootFile (tgt.check_sigs - b - off) fake junk
      ++ slice E (P + ak + ar) dt).length = P + ak + ar + fake + dt := by
    rw [List.length_append, List.length_append, htk, filler_length, hsl]
  have hpm : (loki_patch partition abootFile img out0 pm junk).pm.take sizeof_patch = data := by
    rw [hout]
    dsimp only
    exact hdata
  rw [hpm]
  rw [hout]
  dsimp only
  refine ⟨hand.symm, fun i hi => getElem?_pwrite_data _ _ _ _ hi, fun h128 => ?_⟩
  have hfake128 : 128 ≤ fake := by rw [hfake]; split_ifs <;> omega
  refine ⟨by omega, by omega, ?_, ?_, ?_⟩
  · rw [pwrite_length _ _ _ (by rw [hfl]; omega), hfl]
  · intro j hj
    exact out_low _ _ _ _ _ _ _ hEl hj
  · intro i hi
    rw [getElem?_pwrite_high _ _ _ _ (by rw [hfl]; omega) (by omega),
      List.getElem?_append_right (by rw [List.length_append, htk, filler_length]; omega),
      List.length_append, htk, filler_length]
    have e : P + ak + ar + fake + i - (P + ak + ar + fake) = i := by omega
    rw [e, getElem?_slice, if_pos hi]

/-- C16 (amended): for a source image without the Loki magic whose page size `P` is a power
of two, in the output of a successful `loki_patch` the bytes of `patch[]` as the shellcode
call left them (65 bytes) start at `F + (check_sigs & 0xf)`, where `F = P + ak + ar` is the
start of the filler block and `ak`, `ar` are `page_align` of the kernel and ramdisk sizes
modulo 2^32; that is `fake_size - offset` bytes before the end of the filler block.  For
`P ≥ 128` they end inside the filler block, the output is `F + fake_size + dt` bytes long,
and the bytes before the filler block (header, kernel, ramdisk) and after it (device tree)
are those of the edited source image, as written before the splice. -/
theorem C16_splice_position (partition : String) (abootFile img out0 pm : List Nat)
    (junk : Nat → Nat) (e a b : Nat) (tgt : target) (P ak ar fake off dt : Nat)
    (hnl : ¬ is_loki img) (hP : hdr_field img PAGE_SIZE = P) (hPe : P = 2 ^ e)
    (hak : ak = page_align (hdr_field img KERNEL_SIZE) P % 4294967296)
    (har : ar = page_align (hdr_field img RAMDISK_SIZE) P % 4294967296)
    (hfake : fake = if tgt.lg ≠ 0 then P else 512)
    (hoff : off = tgt.check_sigs % 16) (hdt : dt = hdr_field img DT_SIZE)
    (hs : scan (mmap 1048576 abootFile) = .found a b) (hl : lookup a = some tgt)
    (hok : (loki_patch partition abootFile img out0 pm junk).status = .ok) :
    off = tgt.check_sigs &&& 0xf
    ∧ (∀ i, i < ((loki_patch partition abootFile img out0 pm junk).pm.take sizeof_patch).length →
        (loki_patch partition abootFile img out0 pm junk).out[P + ak + ar + off + i]?
          = ((loki_patch partition abootFile img out0 pm junk).pm.take sizeof_patch)[i]?)
    ∧ (128 ≤ P →
        off + 65 ≤ fake
        ∧ P + ak + ar + off + (fake - off) = P + ak + ar + fake
        ∧ (loki_patch partition abootFile img out0 pm junk).out.length = P + ak + ar + fake + dt
        ∧ (∀ j, j < P + ak + ar →
            (loki_patch partition abootFile img out0 pm junk).out[j]?
              = (edited (mmap 25174016 img) (if partition = "boot" then 0 else 1) tgt)[j]?)
        ∧ (∀ i, i < dt →
            (loki_patch partition abootFile img out0 pm junk).out[P + ak + ar + fake + i]?
              = (edited (mmap 25174016 img) (if partition = "boot" then 0 else 1)
                  tgt)[P + ak + ar + i]?)) :=
  splice_out partition abootFile img out0 pm junk e a b tgt P ak ar fake off dt hnl hP hPe
    hak har hfake hoff hdt hs hl hok

/-- The demo run with `page_size = 24`, `kernel_size = 1`, `ramdisk_size = 0`: the code pads
the kernel to `(1 + 23) & ~23 = 8` bytes, the filler block starts at 32, and the shellcode
lies at 32, so that byte 48 of the output is byte 16 of the shellcode. -/
theorem odd_page_run :
    (loki_patch "boot" demo_aboot (demo_img 24 1 0 0 4052) [] (patch ++ [0, 0, 0])
      (fun _ => 0)).status = .ok
    ∧ (loki_patch "boot" demo_aboot (demo_img 24 1 0 0 4052) [] (patch ++ [0, 0, 0])
      (fun _ => 0)).out[48]? = some 0x90
    ∧ ((loki_patch "boot" demo_aboot (demo_img 24 1 0 0 4052) [] (patch ++ [0, 0, 0])
      (fun _ => 0)).pm.take sizeof_patch)[0]? = some 0xfe := by
  have hrun := demo_run 24 1 0 0 4052 [] [0, 0, 0] (fun _ => 0) (by decide)
    (by decide) (by decide) (by decide) (by decide) (by decide) (by decide)
  have hF : 24 + align_up 1 (u32 (24 + 0xffffffff)) + align_up 0 (u32 (24 + 0xffffffff)) = 32 := by
    decide
  rw [hF] at hrun
  rw [hrun]
  dsimp only
  refine ⟨rfl, ?_, by decide⟩
  have h := getElem?_pwrite_data
    (List.take 32 (edited (mmap 25174016 (demo_img 24 1 0 0 4052)) 0 demo_target)
      ++ filler demo_aboot 62952 512 (fun _ => 0)
      ++ slice (edited (mmap 25174016 (demo_img 24 1 0 0 4052)) 0 demo_target) 32 0)
    ((demo_patch [0, 0, 0]).take sizeof_patch) 32 16 (by decide)
  rw [h]
  decide

/-- The demo run with `page_size = 1024`, `kernel_size = 1000`, `ramdisk_size = 0xffffffff`:
the padded ramdisk size wraps to 0 and the output is 2560 bytes long. -/
theorem wrap_run :
    (loki_patch "boot" demo_aboot (demo_img 1024 1000 0xffffffff 0 4052) []
      (patch ++ [0, 0, 0]) (fun _ => 0)).status = .ok
    ∧ (loki_patch "boot" demo_aboot (demo_img 1024 1000 0xffffffff 0 4052) []
      (patch ++ [0, 0, 0]) (fun _ => 0)).out.length = 2560 := by
  have hrun := demo_run 1024 1000 0xffffffff 0 4052 [] [0, 0, 0] (fun _ => 0) (by decide)
    (by decide) (by decide) (by decide) (by decide) (by decide) (by decide)
  have hF : 1024 + align_up 1000 (u32 (1024 + 0xffffffff))
      + align_up 0xffffffff (u32 (1024 + 0xffffffff)) = 2048 := by decide
  rw [hF] at hrun
  have hml := demo_mapped_length 1024 1000 0xffffffff 0 4052 (by decide) (by decide)
  have h4 : 4096 ≤ (mmap 25174016 (demo_img 1024 1000 0xffffffff 0 4052)).length := by
    rw [hml]
  obtain ⟨hle, -⟩ :=
    edited_facts (mmap 25174016 (demo_img 1024 1000 0xffffffff 0 4052)) 0 demo_target h4
  generalize hE : edited (mmap 25174016 (demo_img 1024 1000 0xffffffff 0 4052)) 0 demo_target
    = E at hrun hle
  have hEl : 2048 ≤ E.length := by rw [hle, hml]; decide
  have htk : (E.take 2048).length = 2048 := by rw [List.length_take]; omega
  have hdl : ((demo_patch [0, 0, 0]).take sizeof_patch).length = 65 := rfl
  have hfl : (E.take 2048 ++ filler demo_aboot 62952 512 (fun _ => 0) ++ slice E 2048 0).length
      = 2560 := by
    rw [List.length_append, List.length_append, htk, filler_length]
    rfl
  rw [hrun]
  dsimp only
  refine ⟨rfl, ?_⟩
  rw [pwrite_length _ _ _ (by rw [hfl, hdl]; decide), hfl]

/-- C16 as stated fails where `page_align` is not what the code computes.  With
`page_size = 24` (no power of two), `kernel_size = 1`, `ramdisk_size = 0` and offset 0 the
claimed start is `24 + page_align(1, 24) + 0 = 48`, but byte 48 of the output is byte 16 of
the shellcode (0x90), not its first byte (0xfe).  With `page_size = 1024`,
`kernel_size = 1000`, `ramdisk_size = 0xffffffff` the claimed start is beyond 2^32, and the
output is 2560 bytes long. -/
theorem C16_counterexample :
    ¬ is_loki (demo_img 24 1 0 0 4052)
    ∧ hdr_field (demo_img 24 1 0 0 4052) PAGE_SIZE = 24
    ∧ hdr_field (demo_img 24 1 0 0 4052) KERNEL_SIZE = 1
    ∧ hdr_field (demo_img 24 1 0 0 4052) RAMDISK_SIZE = 0
    ∧ scan (mmap 1048576 demo_aboot) = .found 0x88e0f5c0 ABOOT_BASE_SAMSUNG
    ∧ lookup 0x88e0f5c0 = some demo_target
    ∧ (demo_target.check_sigs &&& 0xf) = 0
    ∧ 24 + page_align 1 24 + page_align 0 24 + 0 = 48
    ∧ (loki_patch "boot" demo_aboot (demo_img 24 1 0 0 4052) [] (patch ++ [0, 0, 0])
        (fun _ => 0)).status = .ok
    ∧ (loki_patch "boot" demo_aboot (demo_img 24 1 0 0 4052) [] (patch ++ [0, 0, 0])
        (fun _ => 0)).out[48]? = some 0x90
    ∧ ((loki_patch "boot" demo_aboot (demo_img 24 1 0 0 4052) [] (patch ++ [0, 0, 0])
        (fun _ => 0)).pm.take sizeof_patch)[0]? = some 0xfe
    ∧ ¬ is_loki (demo_img 1024 1000 0xffffffff 0 4052)
    ∧ hdr_field (demo_img 1024 1000 0xffffffff 0 4052) PAGE_SIZE = 2 ^ 10
    ∧ hdr_field (demo_img 1024 1000 0xffffffff 0 4052) KERNEL_SIZE = 1000
    ∧ hdr_field (demo_img 1024 1000 0xffffffff 0 4052) RAMDISK_SIZE = 0xffffffff
    ∧ 1024 + page_align 1000 1024 + page_align 0xffffffff 1024 + 0 = 4294969344
    ∧ (loki_patch "boot" demo_aboot (demo_img 1024 1000 0xffffffff 0 4052) []
        (patch ++ [0, 0, 0]) (fun _ => 0)).status = .ok
    ∧ (loki_patch "boot" demo_aboot (demo_img 1024 1000 0xffffffff 0 4052) []
        (patch ++ [0, 0, 0]) (fun _ => 0)).out.length = 2560 := by
  obtain ⟨f1, f2, -, f4, -⟩ := demo_fields 24 1 0 0 4052 (by decide) (by decide) (by decide)
    (by decide)
  obtain ⟨g1, g2, -, g4, -⟩ := demo_fields 1024 1000 0xffffffff 0 4052 (by decide) (by decide)
    (by decide) (by decide)
  obtain ⟨o1, o2, o3⟩ := odd_page_run
  obtain ⟨w1, w2⟩ := wrap_run
  exact ⟨demo_not_loki _ _ _ _ _, f4, f1, f2, demo_scan, demo_lookup, by decide, by decide,
    o1, o2, o3, demo_not_loki _ _ _ _ _, by rw [g4]; rfl, g1, g2, by decide, w1, w2⟩

/-- C16 (amended) on the demo run (page size 2048, kernel 5000, ramdisk 3000, offset 0): the
shellcode starts at 2048 + 6144 + 4096 = 12288, inside the filler block of 512 bytes. -/
theorem C16_splice_position_witness :
    (∀ i, i < ((loki_patch "boot" demo_aboot (demo_img 2048 5000 3000 100 16340) []
          (patch ++ [0, 0, 0]) (fun _ => 0)).pm.take sizeof_patch).length →
        (loki_patch "boot" demo_aboot (demo_img 2048 5000 3000 100 16340) []
          (patch ++ [0, 0, 0]) (fun _ => 0)).out[2048 + 6144 + 4096 + 0 + i]?
          = ((loki_patch "boot" demo_aboot (demo_img 2048 5000 3000 100 16340) []
              (patch ++ [0, 0, 0]) (fun _ => 0)).pm.take sizeof_patch)[i]?)
    ∧ 0 + 65 ≤ 512 := by
  obtain ⟨f1, f2, -, f4, f5⟩ := demo_fields 2048 5000 3000 100 16340 (by decide) (by decide)
    (by decide) (by decide)
  obtain ⟨-, h2, h3⟩ := C16_splice_position "boot" demo_aboot
    (demo_img 2048 5000 3000 100 16340) [] (patch ++ [0, 0, 0]) (fun _ => 0) 11 0x88e0f5c0
    ABOOT_BASE_SAMSUNG demo_target 2048 6144 4096 512 0 100
    (demo_not_loki _ _ _ _ _) f4 (by decide) (by rw [f1]; decide) (by rw [f2]; decide)
    (by decide) (by decide) f5.symm demo_scan demo_lookup demo_run_2048
  exact ⟨h2, (h3 (by decide)).1⟩

/-! ## C17 -/

theorem second_img_facts :
    second_img.length = 12288
    ∧ ¬ is_loki second_img
    ∧ slice second_img 6144 4 = [0xaa, 0xbb, 0xcc, 0xdd]
    ∧ slice second_img 8192 4 = [0xd0, 0x0d, 0xfe, 0xed] := by
  have hlen : second_img.length = 12288 := by
    unfold second_img
    rw [gen_length]
    simp only [List.length_append, List.length_replicate, List.length_cons, List.length_nil]
  have e1 : second_img
      = (boot_hdr 2048 0x80208000 2048 0x82008000 2048 0x80f00000 0x80200100 2048 4
          ++ List.replicate 6100 0)
        ++ ([0xaa, 0xbb, 0xcc, 0xdd] ++ (List.replicate 2044 0
          ++ ([0xd0, 0x0d, 0xfe, 0xed] ++ List.replicate 4092 0))) := by
    simp only [second_img, gen_img, List.append_assoc]
  have e2 : second_img
      = (boot_hdr 2048 0x80208000 2048 0x82008000 2048 0x80f00000 0x80200100 2048 4
          ++ (List.replicate 6100 0 ++ ([0xaa, 0xbb, 0xcc, 0xdd] ++ List.replicate 2044 0)))
        ++ ([0xd0, 0x0d, 0xfe, 0xed] ++ List.replicate 4092 0) := by
    simp only [second_img, gen_img, List.append_assoc]
  refine ⟨hlen, ?_, ?_, ?_⟩
  · unfold second_img
    apply gen_not_loki
    rw [List.append_assoc, List.append_assoc, List.append_assoc,
      List.getElem?_append_left (by rw [List.length_replicate]; decide),
      List.getElem?_replicate, if_pos (by decide)]
  · rw [e1, slice_append_at _ _ _ _
      (by rw [List.length_append, boot_hdr_length, List.length_replicate])]
    rfl
  · rw [e2, slice_append_at _ _ _ _
      (by simp only [List.length_append, boot_hdr_length, List.length_replicate,
        List.length_cons, List.length_nil])]
    rfl

theorem rd32_gen (k ka r ra s P dt : Nat) (body : List Nat) (off : Nat) (h : off + 4 ≤ 44) :
    rd32 (gen_img k ka r ra s P dt body) off
      = rd32 (boot_hdr k ka r ra s 0x80f00000 0x80200100 P dt) off := by
  unfold gen_img
  rw [rd32_append_left _ _ _ (by rw [boot_hdr_length]; exact h)]

/-- C17 fails on the code for an image with a second stage: `second_img` has page size 2048
and one page each of kernel, ramdisk and second stage, so its device tree (d0 0d fe ed) is at
offset 8192; `loki_patch` succeeds, and the four device-tree bytes it emits at the end of the
output are aa bb cc dd, the first bytes of the second stage at offset 6144. -/
theorem C17_dt_misplaced :
    ¬ is_loki second_img
    ∧ hdr_field second_img PAGE_SIZE = 2048
    ∧ hdr_field second_img KERNEL_SIZE = 2048
    ∧ hdr_field second_img RAMDISK_SIZE = 2048
    ∧ hdr_field second_img SECOND_SIZE = 2048
    ∧ hdr_field second_img DT_SIZE = 4
    ∧ dt_segment second_img = [0xd0, 0x0d, 0xfe, 0xed]
    ∧ slice second_img 6144 4 = [0xaa, 0xbb, 0xcc, 0xdd]
    ∧ (loki_patch "boot" demo_aboot second_img [] (patch ++ [0, 0, 0]) (fun _ => 0)).status = .ok
    ∧ (loki_patch "boot" demo_aboot second_img [] (patch ++ [0, 0, 0]) (fun _ => 0)).out.length
        = 6660
    ∧ slice (loki_patch "boot" demo_aboot second_img [] (patch ++ [0, 0, 0])
        (fun _ => 0)).out 6656 4 = [0xaa, 0xbb, 0xcc, 0xdd] := by
  obtain ⟨hlen, hnl, hS, hD⟩ := second_img_facts
  have hfields := gen_fields 2048 0x80208000 2048 0x82008000 2048 2048 4
    (List.replicate 6100 0 ++ [0xaa, 0xbb, 0xcc, 0xdd] ++ List.replicate 2044 0
      ++ [0xd0, 0x0d, 0xfe, 0xed] ++ List.replicate 4092 0)
    (by decide) (by decide) (by decide) (by decide) (by decide) (by decide) (by decide)
  have hfields' : hdr_field second_img KERNEL_SIZE = 2048
      ∧ hdr_field second_img KERNEL_ADDR = 0x80208000
      ∧ hdr_field second_img RAMDISK_SIZE = 2048
      ∧ hdr_field second_img RAMDISK_ADDR = 0x82008000
      ∧ hdr_field second_img 24 = 2048
      ∧ hdr_field second_img PAGE_SIZE = 2048
      ∧ hdr_field second_img DT_SIZE = 4 := hfields
  obtain ⟨f1, -, f3, f4, f5, f6, f7⟩ := hfields'
  have hml : (mmap 25174016 second_img).length = 12288 := by
    rw [mmap_length, hlen]
    rfl
  have hse := seg_end_eq second_img _ _ _ f6 f1 f3
  have hF : 2048 + align_up 2048 (u32 (2048 + 0xffffffff))
      + align_up 2048 (u32 (2048 + 0xffffffff)) = 6144 := by decide
  rw [hF] at hse
  have hok : (loki_patch "boot" demo_aboot second_img [] (patch ++ [0, 0, 0])
      (fun _ => 0)).status = .ok := by
    apply patch_run _ _ _ _ _ _ _ _ _ (Or.inl rfl) demo_scan demo_lookup hnl
    · rw [hml]; decide
    · rw [f4]
      have := sc_pristine 0x88ed32e0 0x82008000 [0, 0, 0] (by decide) (by decide) (by decide)
      show ¬ (loki_patch_shellcode (patch ++ [0, 0, 0]) 0x88ed32e0 0x82008000).1 < 0
      rw [this]
      exact Int.lt_irrefl 0
    · rw [hse, hml]; decide
    · intro _
      rw [hse, hml, f7]; decide
  obtain ⟨l1, -, -, -, -, l6⟩ := layout_out "boot" demo_aboot second_img [] (patch ++ [0, 0, 0])
    (fun _ => 0) 11 0x88e0f5c0 ABOOT_BASE_SAMSUNG demo_target 2048 2048 2048 512 0 4
    hnl f6 (by decide) (by decide) (by rw [f1]; decide) (by rw [f3]; decide) (by decide)
    (by decide) f7.symm demo_scan demo_lookup hok
  have hdts : dt_segment second_img = [0xd0, 0x0d, 0xfe, 0xed] := by
    obtain ⟨b1, b2, -, b4, b5⟩ := boot_hdr_fields 2048 0x80208000 2048 0x82008000 2048
      0x80f00000 0x80200100 2048 4 (by decide) (by decide) (by decide) (by decide) (by decide)
    obtain ⟨-, c2⟩ := boot_hdr_addr 2048 0x80208000 2048 0x82008000 2048 0x80f00000
      0x80200100 2048 4 (by decide) (by decide)
    unfold dt_segment second_img
    rw [rd32_gen _ _ _ _ _ _ _ _ _ (by decide), rd32_gen _ _ _ _ _ _ _ _ _ (by decide),
      rd32_gen _ _ _ _ _ _ _ _ _ (by decide), rd32_gen _ _ _ _ _ _ _ _ _ (by decide),
      rd32_gen _ _ _ _ _ _ _ _ _ (by decide), b1, b2, b4, b5]
    have c2' : rd32 (boot_hdr 2048 0x80208000 2048 0x82008000 2048 0x80f00000 0x80200100 2048 4)
      SECOND_SIZE = 2048 := c2
    rw [c2']
    exact hD
  refine ⟨hnl, f6, f1, f3, f5, f7, hdts, hS, hok, l1, ?_⟩
  have l6' : slice (loki_patch "boot" demo_aboot second_img [] (patch ++ [0, 0, 0])
      (fun _ => 0)).out 6656 4 = slice (mmap 25174016 second_img) 6144 4 := l6
  rw [l6', slice_mmap _ _ _ _ (by rw [hlen]; decide) (by decide)]
  exact hS

/-! ## C20 -/

/-- Facts of the catalog, for each entry and each base from which the scan can reach it. -/
theorem targets_family : ∀ t ∈ targets,
    ∀ b ∈ [ABOOT_BASE_SAMSUNG, ABOOT_BASE_LG, ABOOT_BASE_G2],
      b ≤ t.check_sigs → t.check_sigs - b < SCAN_LIMIT →
        (t.lg = 1 ↔ (b = ABOOT_BASE_LG ∨ b = ABOOT_BASE_G2))
        ∧ (t.lg = 0 ↔ b = ABOOT_BASE_SAMSUNG)
        ∧ flash_base (t.check_sigs - (t.check_sigs &&& 0xf)) = b
        ∧ (t.check_sigs &&& 0xf) ∈ [0, 4, 8, 12]
        ∧ t.check_sigs - b + 20 ≤ 0x40000
        ∧ (t.check_sigs &&& 0xf) ≤ t.check_sigs - b := by
  decide

theorem family_base_mem (sig : List Nat) (b : Nat) (h : family_base sig = some b) :
    b ∈ [ABOOT_BASE_SAMSUNG, ABOOT_BASE_LG, ABOOT_BASE_G2] := by
  unfold family_base at h
  simp only [ABOOT_BASE_SAMSUNG, ABOOT_BASE_LG, ABOOT_BASE_G2, List.mem_cons, List.mem_singleton,
    List.not_mem_nil, or_false]
  split_ifs at h <;> simp at h <;> omega

/-- What a resolved scan says about the target: offset, base and catalog facts. -/
theorem resolved_facts (aboot : List Nat) (t b : Nat) (tgt : target)
    (hs : scan aboot = .found t b) (hl : lookup t = some tgt) :
    ∃ o, o < SCAN_LIMIT ∧ o + 8 ≤ aboot.length
      ∧ family_base (slice aboot o 8) = some b ∧ tgt.check_sigs = o + b
      ∧ (tgt.lg = 1 ↔ (b = ABOOT_BASE_LG ∨ b = ABOOT_BASE_G2))
      ∧ (tgt.lg = 0 ↔ b = ABOOT_BASE_SAMSUNG)
      ∧ flash_base (tgt.check_sigs - (tgt.check_sigs &&& 0xf)) = b
      ∧ (tgt.check_sigs &&& 0xf) ∈ [0, 4, 8, 12]
      ∧ o + 20 ≤ 0x40000
      ∧ (tgt.check_sigs &&& 0xf) ≤ o := by
  obtain ⟨o, ho, -, hlen, hb, ht⟩ := (scan_found_iff aboot t b).1 hs
  obtain ⟨hmem, hcs⟩ := lookup_some t tgt hl
  have hcs' : tgt.check_sigs = o + b := by rw [hcs, ht]
  have hsub : tgt.check_sigs - b = o := by omega
  obtain ⟨c1, c2, c3, c4, c5, c6⟩ := targets_family tgt hmem b (family_base_mem _ _ hb)
    (by omega) (by rw [hsub]; exact ho)
  rw [hsub] at c5 c6
  exact ⟨o, ho, hlen, hb, hcs', c1, c2, c3, c4, c5, c6⟩

/-- C20: when the scan of `loki_patch` matches a signature and the address it yields is in
`targets[]`, the entry has `lg = 1` exactly when the base of the matched signature's family
is the LG or the LG G2 base, and `lg = 0` exactly when it is the Samsung base; so
`fake_size` is the page size exactly for the LG and LG G2 bases and 512 for the Samsung
base, the base with which the position of the filler bytes is computed. -/
theorem C20_family_consistent (aboot : List Nat) (t b : Nat) (tgt : target)
    (hs : scan aboot = .found t b) (hl : lookup t = some tgt) :
    (∃ o, o < SCAN_LIMIT ∧ family_base (slice aboot o 8) = some b ∧ t = o + b)
    ∧ (tgt.lg = 1 ↔ (b = ABOOT_BASE_LG ∨ b = ABOOT_BASE_G2))
    ∧ (tgt.lg = 0 ↔ b = ABOOT_BASE_SAMSUNG)
    ∧ (∀ orig : List Nat,
        fake_of orig tgt = if b = ABOOT_BASE_SAMSUNG then 0x200 else rd32 orig PAGE_SIZE) := by
  obtain ⟨o, ho, -, hb, hcs, c1, c2, -⟩ := resolved_facts aboot t b tgt hs hl
  have ht : t = o + b := by rw [← hcs, (lookup_some t tgt hl).2]
  refine ⟨⟨o, ho, hb, ht⟩, c1, c2, fun orig => ?_⟩
  unfold fake_of
  by_cases hS : b = ABOOT_BASE_SAMSUNG
  · rw [if_pos hS, if_neg (not_not.2 (c2.2 hS))]
  · rw [if_neg hS, if_pos (fun h0 => hS (c2.1 h0))]

/-- C20 on the demo dump: `PATTERN1` gives the Samsung base, and the entry found has `lg = 0`. -/
theorem C20_family_consistent_witness :
    scan (mmap 1048576 demo_aboot) = .found 0x88e0f5c0 ABOOT_BASE_SAMSUNG
    ∧ lookup 0x88e0f5c0 = some demo_target
    ∧ (demo_target.lg = 0 ↔ ABOOT_BASE_SAMSUNG = ABOOT_BASE_SAMSUNG) :=
  ⟨demo_scan, demo_lookup,
    (C20_family_consistent (mmap 1048576 demo_aboot) 0x88e0f5c0 ABOOT_BASE_SAMSUNG demo_target
      demo_scan demo_lookup).2.2.1⟩

/-! ## C19 -/

theorem mmap_getElem?_two (l1 l2 : Nat) (f : List Nat) (i : Nat) (h1 : i < l1) (h2 : i < l2) :
    (mmap l1 f)[i]? = (mmap l2 f)[i]? := by
  unfold mmap
  rw [List.getElem?_take_of_lt h1, List.getElem?_take_of_lt h2]

theorem mmap_length_two (l1 l2 : Nat) (f : List Nat) (n : Nat) (h : n ≤ (mmap l2 f).length)
    (h1 : n ≤ l1) : n ≤ (mmap l1 f).length := by
  rw [mmap_length] at h ⊢
  omega

theorem rd32_mmap_low (img : List Nat) (off : Nat) (h : off + 4 ≤ img.length)
    (hl : off + 4 ≤ 25174016) : rd32 (mmap 25174016 img) off = rd32 img off :=
  rd32_congr _ _ _ (fun i hi => mmap_getElem? _ _ _ (by omega) (by omega))

/-- The loop over `offs` ends with a match at the first value whose window holds a
signature, when the windows before it are in range and readable. -/
theorem flash_loop_first (aboot : List Nat) (ra x : Nat) (l2 : List Nat) :
    ∀ l1 : List Nat,
      (∀ y ∈ l1, flash_rel ra y ≤ 0x40000 - 8 ∧ flash_rel ra y + 8 ≤ aboot.length) →
      flash_rel ra x ≤ 0x40000 - 8 → flash_rel ra x + 8 ≤ aboot.length →
      slice aboot (flash_rel ra x) 8 ∈ known_signatures →
      flash_loop aboot ra (l1 ++ x :: l2) = .matched := by
  intro l1
  induction l1 with
  | nil =>
    intro _ h1 h2 h3
    rw [List.nil_append, flash_loop_cons, if_neg (by omega), if_neg (by omega), if_pos h3]
  | cons y l1 ih =>
    intro hall h1 h2 h3
    obtain ⟨a1, a2⟩ := hall y (List.mem_cons_self _ _)
    rw [List.cons_append, flash_loop_cons, if_neg (by omega), if_neg (by omega)]
    by_cases hm : slice aboot (flash_rel ra y) 8 ∈ known_signatures
    · rw [if_pos hm]
    · rw [if_neg hm]
      exact ih (fun z hz => hall z (List.mem_cons_of_mem _ hz)) h1 h2 h3

/-- The exits of `loki_flash` once all validation checks pass. -/
theorem flash_validated (partition : String) (abootFile lokiImg dest : List Nat)
    (hp : partition = BOOT_PATH ∨ partition = RECOVERY_PATH) (hl : is_loki lokiImg)
    (hk : rd32 (mmap 25174016 lokiImg) 0x404 = requested_kind partition)
    (hm : flash_loop (mmap 0x40000 abootFile) (hdr_field lokiImg RAMDISK_ADDR) [0, 4, 8, 12]
      = .matched) :
    (loki_flash partition abootFile lokiImg dest).status = .ok
      ∨ (loki_flash partition abootFile lokiImg dest).status = .writeFailed := by
  have h4 := is_loki_length lokiImg hl
  have hm' : flash_loop (mmap 0x40000 abootFile) (rd32 (mmap 25174016 lokiImg) RAMDISK_ADDR)
      [0, 4, 8, 12] = .matched := hm
  have hk' : rd32 (mmap 25174016 lokiImg) 0x404 = if partition = BOOT_PATH then 0 else 1 := hk
  have hl' : ¬ (slice (mmap 25174016 lokiImg) 0x400 4 ≠ LOKI_MAGIC) := not_not.2 hl
  unfold loki_flash
  rw [if_neg (by rcases hp with h | h <;> simp [h])]
  dsimp only
  rw [if_neg (by omega), if_neg hl', if_neg (not_not.2 hk'), hm']
  dsimp only
  split_ifs
  · left; rfl
  · right; rfl

theorem flash_rel_eq (cs b o off x : Nat) (hcs : cs = o + b) (hlt : cs < 4294967296)
    (hfb : flash_base (cs - off) = b) (hoff : off ≤ o) (ho : o + 20 ≤ 0x40000) (hx : x ≤ 12) :
    flash_rel (cs - off) x = o - off + x := by
  unfold flash_rel
  rw [hfb]
  have e1 : cs - off + 4294967296 - b = (o - off) + 4294967296 := by omega
  have e2 : o - off + x < 4294967296 := by omega
  rw [e1]
  unfold u32
  omega

/-- The output of a successful run is at least as long as its first three segments. -/
theorem out_length_ge (partition : String) (abootFile img out0 pm : List Nat)
    (junk : Nat → Nat) (a b : Nat) (tgt : target) (hnl : ¬ is_loki img)
    (hs : scan (mmap 1048576 abootFile) = .found a b) (hl : lookup a = some tgt)
    (hok : (loki_patch partition abootFile img out0 pm junk).status = .ok) :
    seg_end (mmap 25174016 img) ≤ (loki_patch partition abootFile img out0 pm junk).out.length
    ∧ seg_end (mmap 25174016 img) ≤ 25174016 := by
  obtain ⟨recovery, -, h4, hF, -, hout⟩ := patch_ok_at _ _ _ _ _ _ _ _ _ hnl hs hl hok
  obtain ⟨hle, -⟩ := edited_facts (mmap 25174016 img) recovery tgt h4
  have hml := mmap_length_le 25174016 img
  rw [hout]
  dsimp only
  refine ⟨le_trans ?_ (pwrite_length_ge _ _ _), by omega⟩
  rw [List.length_append, List.length_append, List.length_take, hle]
  omega

theorem flash_loop_reach (aboot : List Nat) (ra off : Nat) (hoff : off ∈ [0, 4, 8, 12])
    (hall : ∀ y, y ≤ off →
      flash_rel ra y ≤ 0x40000 - 8 ∧ flash_rel ra y + 8 ≤ aboot.length)
    (hm : slice aboot (flash_rel ra off) 8 ∈ known_signatures) :
    flash_loop aboot ra [0, 4, 8, 12] = .matched := by
  simp only [List.mem_cons, List.mem_singleton, List.not_mem_nil, or_false] at hoff
  rcases hoff with rfl | rfl | rfl | rfl
  · exact flash_loop_first aboot ra 0 [4, 8, 12] [] (by intro y hy; simp at hy)
      (hall 0 (by omega)).1 (hall 0 (by omega)).2 hm
  · exact flash_loop_first aboot ra 4 [8, 12] [0]
      (by intro y hy; simp at hy; subst hy; exact hall 0 (by omega))
      (hall 4 (by omega)).1 (hall 4 (by omega)).2 hm
  · exact flash_loop_first aboot ra 8 [12] [0, 4]
      (by intro y hy; simp at hy; rcases hy with rfl | rfl <;> exact hall _ (by omega))
      (hall 8 (by omega)).1 (hall 8 (by omega)).2 hm
  · exact flash_loop_first aboot ra 12 [] [0, 4, 8]
      (by intro y hy; simp at hy; rcases hy with rfl | rfl | rfl <;> exact hall _ (by omega))
      (hall 12 (by omega)).1 (hall 12 (by omega)).2 hm

/-- An image file with the Loki magic, the requested kind flag and the `ramdisk_addr` of a
target the scan resolved on the same bootloader passes the checks of `loki_flash`. -/
theorem validate_of_fields (path : String) (abootFile lok dest : List Nat) (a b : Nat)
    (tgt : target) (hp : path = BOOT_PATH ∨ path = RECOVERY_PATH)
    (hs : scan (mmap 1048576 abootFile) = .found a b) (hl : lookup a = some tgt)
    (hL : 2048 ≤ lok.length) (k1 : slice lok 0x400 4 = LOKI_MAGIC)
    (k2 : rd32 lok 0x404 = requested_kind path)
    (k3 : rd32 lok RAMDISK_ADDR = u32 (tgt.check_sigs - (tgt.check_sigs &&& 0xf))) :
    is_loki lok
    ∧ rd32 (mmap 25174016 lok) 0x404 = requested_kind path
    ∧ flash_base (hdr_field lok RAMDISK_ADDR) ≤ hdr_field lok RAMDISK_ADDR
    ∧ (∃ offs ∈ [0, 4, 8, 12],
        hdr_field lok RAMDISK_ADDR - flash_base (hdr_field lok RAMDISK_ADDR) + offs + 8 ≤ 0x40000
        ∧ slice (mmap 0x40000 abootFile)
            (hdr_field lok RAMDISK_ADDR - flash_base (hdr_field lok RAMDISK_ADDR) + offs) 8
          ∈ known_signatures)
    ∧ flash_loop (mmap 0x40000 abootFile) (hdr_field lok RAMDISK_ADDR) [0, 4, 8, 12] = .matched
    ∧ ((loki_flash path abootFile lok dest).status = .ok
        ∨ (loki_flash path abootFile lok dest).status = .writeFailed) := by
  obtain ⟨o, ho, hlen, hb, hcs, -, -, c3, c4, c5, c6⟩ :=
    resolved_facts (mmap 1048576 abootFile) a b tgt hs hl
  have hlt := targets_check_sigs_lt tgt (lookup_some _ _ hl).1
  have hloki : is_loki lok := by
    unfold is_loki
    rw [slice_mmap _ _ _ _ (by omega) (by decide)]
    exact k1
  have hflag : rd32 (mmap 25174016 lok) 0x404 = requested_kind path := by
    rw [rd32_mmap_low _ _ (by omega) (by decide)]
    exact k2
  generalize hoff : tgt.check_sigs &&& 0xf = off at k3 c3 c4 c6
  have hra : hdr_field lok RAMDISK_ADDR = tgt.check_sigs - off := by
    unfold hdr_field
    rw [rd32_mmap_low _ _ (by simp only [RAMDISK_ADDR]; omega) (by decide), k3]
    unfold u32
    exact Nat.mod_eq_of_lt (by omega)
  have hrel : ∀ x, x ≤ 12 → flash_rel (tgt.check_sigs - off) x = o - off + x :=
    fun x hx => flash_rel_eq tgt.check_sigs b o off x hcs hlt c3 c6 c5 hx
  have hoff12 : off ≤ 12 := by
    simp only [List.mem_cons, List.mem_singleton, List.not_mem_nil, or_false] at c4
    omega
  have hlen40 : o + 8 ≤ (mmap 0x40000 abootFile).length :=
    mmap_length_two _ _ _ _ hlen (by omega)
  have hsig : slice (mmap 0x40000 abootFile) o 8 ∈ known_signatures := by
    have e : slice (mmap 0x40000 abootFile) o 8 = slice (mmap 1048576 abootFile) o 8 :=
      slice_congr _ _ _ _ (fun i hi => mmap_getElem?_two _ _ _ _ (by omega) (by omega))
    rw [e]
    by_contra hc
    rw [(family_base_eq_none _).2 hc] at hb
    exact absurd hb (by simp)
  have hmatch : flash_loop (mmap 0x40000 abootFile) (hdr_field lok RAMDISK_ADDR) [0, 4, 8, 12]
      = .matched := by
    rw [hra]
    apply flash_loop_reach _ _ off c4
    · intro y hy
      rw [hrel y (by omega)]
      omega
    · rw [hrel off hoff12]
      have e : o - off + off = o := by omega
      rw [e]
      exact hsig
  refine ⟨hloki, hflag, ?_, ⟨off, c4, ?_, ?_⟩, hmatch,
    flash_validated path abootFile lok dest hp hloki hflag hmatch⟩
  · rw [hra, c3]; omega
  · rw [hra, c3]; omega
  · rw [hra, c3]
    have e : tgt.check_sigs - off - b + off = o := by omega
    rw [e]
    exact hsig

/-- C19: when `loki_patch` succeeds on a source image without the Loki magic whose page
size is a power of two of at least 2048 (so the scan resolved a catalog target), the image
it wrote passes the checks of `loki_flash` for the same kind against the same bootloader:
"LOKI" at 0x400, the kind flag requested, and for `d = ramdisk_addr - base` with the base
the validator selects an `offs` in {0, 4, 8, 12} such that the window at `d + offs` is
inside the 0x40000 mapped bytes and holds a known signature; the loop over `offs` ends with
a match and `loki_flash` gets to its write. -/
theorem C19_patch_then_flash (partition : String) (abootFile img out0 pm dest : List Nat)
    (junk : Nat → Nat) (e : Nat)
    (hnl : ¬ is_loki img) (hP : hdr_field img PAGE_SIZE = 2 ^ e) (h2048 : 2048 ≤ 2 ^ e)
    (hok : (loki_patch partition abootFile img out0 pm junk).status = .ok) :
    is_loki (loki_patch partition abootFile img out0 pm junk).out
    ∧ rd32 (mmap 25174016 (loki_patch partition abootFile img out0 pm junk).out) 0x404
        = requested_kind (if partition = "boot" then BOOT_PATH else RECOVERY_PATH)
    ∧ flash_base (hdr_field (loki_patch partition abootFile img out0 pm junk).out RAMDISK_ADDR)
        ≤ hdr_field (loki_patch partition abootFile img out0 pm junk).out RAMDISK_ADDR
    ∧ (∃ offs ∈ [0, 4, 8, 12],
        hdr_field (loki_patch partition abootFile img out0 pm junk).out RAMDISK_ADDR
          - flash_base (hdr_field (loki_patch partition abootFile img out0 pm junk).out
              RAMDISK_ADDR) + offs + 8 ≤ 0x40000
        ∧ slice (mmap 0x40000 abootFile)
            (hdr_field (loki_patch partition abootFile img out0 pm junk).out RAMDISK_ADDR
              - flash_base (hdr_field (loki_patch partition abootFile img out0 pm junk).out
                  RAMDISK_ADDR) + offs) 8
          ∈ known_signatures)
    ∧ flash_loop (mmap 0x40000 abootFile)
        (hdr_field (loki_patch partition abootFile img out0 pm junk).out RAMDISK_ADDR)
        [0, 4, 8, 12] = .matched
    ∧ ((loki_flash (if partition = "boot" then BOOT_PATH else RECOVERY_PATH) abootFile
          (loki_patch partition abootFile img out0 pm junk).out dest).status = .ok
        ∨ (loki_flash (if partition = "boot" then BOOT_PATH else RECOVERY_PATH) abootFile
          (loki_patch partition abootFile img out0 pm junk).out dest).status = .writeFailed) := by
  obtain ⟨a, b, tgt, hp, hs, hl⟩ := loki_patch_ok_inv _ _ _ _ _ _ hok
  obtain ⟨k1, k2, k3, -, -, -, -, k8⟩ :=
    loki_hdr_out partition abootFile img out0 pm junk a b tgt hnl (by rw [hP]; omega) hs hl hok
  obtain ⟨hlen1, -⟩ := out_length_ge partition abootFile img out0 pm junk a b tgt hnl hs hl hok
  have hL : 2048 ≤ (loki_patch partition abootFile img out0 pm junk).out.length := by
    refine le_trans ?_ hlen1
    unfold seg_end
    have : rd32 (mmap 25174016 img) PAGE_SIZE = 2 ^ e := hP
    omega
  have hpath : (if partition = "boot" then BOOT_PATH else RECOVERY_PATH) = BOOT_PATH
      ∨ (if partition = "boot" then BOOT_PATH else RECOVERY_PATH) = RECOVERY_PATH := by
    split_ifs
    · left; rfl
    · right; rfl
  have hkind : rd32 (loki_patch partition abootFile img out0 pm junk).out 0x404
      = requested_kind (if partition = "boot" then BOOT_PATH else RECOVERY_PATH) := by
    unfold requested_kind
    rcases hp with h | h
    · rw [k2 h, if_pos h, if_pos rfl]
    · have hne : ¬ partition = "boot" := by rw [h]; decide
      rw [k3 h, if_neg hne, if_neg (fun hc => boot_path_ne hc.symm)]
  exact validate_of_fields _ abootFile _ dest a b tgt hpath hs hl hL k1 hkind k8

/-- C19 on the demo run: the image written for "boot" passes the checks of `loki_flash` on
the boot path against the same dump. -/
theorem C19_patch_then_flash_witness :
    (loki_patch "boot" demo_aboot (demo_img 2048 5000 3000 100 16340) [] (patch ++ [0, 0, 0])
      (fun _ => 0)).status = .ok
    ∧ is_loki (loki_patch "boot" demo_aboot (demo_img 2048 5000 3000 100 16340) []
        (patch ++ [0, 0, 0]) (fun _ => 0)).out
    ∧ flash_loop (mmap 0x40000 demo_aboot)
        (hdr_field (loki_patch "boot" demo_aboot (demo_img 2048 5000 3000 100 16340) []
          (patch ++ [0, 0, 0]) (fun _ => 0)).out RAMDISK_ADDR) [0, 4, 8, 12] = .matched := by
  obtain ⟨-, -, -, f4, -⟩ := demo_fields 2048 5000 3000 100 16340 (by decide) (by decide)
    (by decide) (by decide)
  obtain ⟨h1, -, -, -, h5, -⟩ := C19_patch_then_flash "boot" demo_aboot
    (demo_img 2048 5000 3000 100 16340) [] (patch ++ [0, 0, 0]) [] (fun _ => 0) 11
    (demo_not_loki _ _ _ _ _) (by rw [f4]; rfl) (by decide) demo_run_2048
  exact ⟨demo_run_2048, h1, h5⟩

/-! ## C7 -/

/-- The scan dies at the first window that leaves the mapping, when no signature starts
before it. -/
theorem scan_loop_fault_of (aboot : List Nat) : ∀ (j n o : Nat), j < n →
    (∀ i, i < j → o + i + 8 ≤ aboot.length ∧ family_base (slice aboot (o + i) 8) = none) →
    aboot.length < o + j + 8 → scan_loop aboot n o = .fault := by
  intro j
  induction j with
  | zero =>
    intro n o hn _ hlen
    obtain ⟨m, rfl⟩ : ∃ m, n = m + 1 := ⟨n - 1, by omega⟩
    rw [scan_loop_succ, if_pos (by omega)]
  | succ j ih =>
    intro n o hn hall hlen
    obtain ⟨m, rfl⟩ : ∃ m, n = m + 1 := ⟨n - 1, by omega⟩
    have h0 := hall 0 (by omega)
    simp only [Nat.add_zero] at h0
    rw [scan_loop_succ, if_neg (by omega), h0.2]
    apply ih m (o + 1) (by omega)
    · intro i hi
      have := hall (i + 1) (by omega)
      have e : o + (i + 1) = o + 1 + i := by omega
      rwa [e] at this
    · omega

theorem patch_fault_of_scan (partition : String) (abootFile img out0 pm : List Nat)
    (junk : Nat → Nat) (hp : partition = "boot" ∨ partition = "recovery")
    (hs : scan (mmap 1048576 abootFile) = .fault) :
    (loki_patch partition abootFile img out0 pm junk).status = .fault := by
  unfold loki_patch
  rw [if_neg (by rcases hp with h | h <;> simp [h])]
  simp only [hs]

/-- Every window the scan loop can read lies in the mapping exactly when the dump is longer
than 1044480 bytes. -/
theorem scan_readable_iff (abootFile : List Nat) :
    (∀ o, o < 1044480 → o + 8 ≤ (mmap 1048576 abootFile).length)
      ↔ 1044480 < abootFile.length := by
  rw [mmap_length]
  constructor
  · intro h
    have := h 1044479 (by omega)
    omega
  · intro h o ho
    omega

/-- On a dump of at most 1044480 bytes without a signature the scan leaves the mapping. -/
theorem short_dump_fault (partition : String) (abootFile img out0 pm : List Nat)
    (junk : Nat → Nat) (hp : partition = "boot" ∨ partition = "recovery")
    (hlen : abootFile.length ≤ 1044480)
    (hno : ∀ o, slice (mmap 1048576 abootFile) o 8 ∉ known_signatures) :
    (loki_patch partition abootFile img out0 pm junk).status = .fault := by
  apply patch_fault_of_scan _ _ _ _ _ _ hp
  have hM : (mmap 1048576 abootFile).length ≤ 1044480 := by
    rw [mmap_length]; omega
  unfold scan
  apply scan_loop_fault_of _ ((mmap 1048576 abootFile).length - 7) SCAN_LIMIT 0
  · show (mmap 1048576 abootFile).length - 7 < 1044480
    omega
  · intro i hi
    exact ⟨by omega, (family_base_eq_none _).2 (hno _)⟩
  · omega

/-- C7 (amended): `loki_patch` fails with pattern-not-found if and only if (its first
argument being "boot" or "recovery") the dump is longer than 1 MiB - 4 KiB = 1044480 bytes,
so that every window the loop reads is mapped, and none of `PATTERN1`..`PATTERN5` starts at
an offset below 1044480 of the mapped dump.  On a dump of at most 1044480 bytes without a
signature the scan reads past the mapping and the process dies. -/
theorem C7_no_pattern_iff (partition : String) (abootFile img out0 pm : List Nat)
    (junk : Nat → Nat) :
    ((loki_patch partition abootFile img out0 pm junk).status = .noPattern
      ↔ (partition = "boot" ∨ partition = "recovery")
        ∧ 1044480 < abootFile.length
        ∧ ∀ o, o < 1044480 → slice (mmap 1048576 abootFile) o 8 ∉ known_signatures)
    ∧ ((partition = "boot" ∨ partition = "recovery") → abootFile.length ≤ 1044480 →
        (∀ o, slice (mmap 1048576 abootFile) o 8 ∉ known_signatures) →
        (loki_patch partition abootFile img out0 pm junk).status = .fault) := by
  refine ⟨?_, fun hp hlen hno => short_dump_fault partition abootFile img out0 pm junk hp hlen hno⟩
  rw [no_pattern_iff, ← scan_readable_iff]
  constructor
  · rintro ⟨hp, h⟩
    exact ⟨hp, fun o ho => (h o ho).1, fun o ho => (h o ho).2⟩
  · rintro ⟨hp, h1, h2⟩
    exact ⟨hp, fun o ho => ⟨h1 o ho, h2 o ho⟩⟩

theorem zero_dump_no_signature (n : Nat) (o : Nat) :
    slice (mmap 1048576 (List.replicate n 0)) o 8 ∉ known_signatures := by
  rw [mmap_replicate_zero]
  generalize min 1048576 (n + (4096 - n % 4096) % 4096) = m
  by_cases ho : o < m
  · rw [← family_base_eq_none]
    apply family_base_none_of_zero
    rw [List.getElem?_replicate, if_pos ho]
  · have e : slice (List.replicate m 0) o 8 = [] := by
      unfold slice
      rw [List.drop_eq_nil_of_le (by rw [List.length_replicate]; omega)]
      rfl
    rw [e]
    decide

/-- C7 as stated fails in both directions.  A dump of 1 MiB with `PATTERN1` at offset
1044480, inside the first 1 MiB, makes `loki_patch` fail with pattern-not-found.  A dump of
512 KiB of zeros holds no signature at any offset, and `loki_patch` does not fail with
pattern-not-found: the scan runs past the end of the mapping and the process dies. -/
theorem C7_counterexample :
    late_aboot.length = 1048576
    ∧ slice late_aboot 1044480 8 = PATTERN1
    ∧ PATTERN1 ∈ known_signatures
    ∧ 1044480 + 8 ≤ 1048576
    ∧ (loki_patch "boot" late_aboot [] [] patch (fun _ => 0)).status = .noPattern
    ∧ (∀ o, slice (mmap 1048576 (List.replicate 524288 0)) o 8 ∉ known_signatures)
    ∧ (loki_patch "boot" (List.replicate 524288 0) [] [] patch (fun _ => 0)).status = .fault := by
  have hp : PATTERN1.length = 8 := rfl
  have hlen := late_aboot_length
  refine ⟨hlen, ?_, by decide, by decide, ?_, zero_dump_no_signature 524288, ?_⟩
  · unfold late_aboot
    rw [List.append_assoc, slice_append_at _ _ _ _ (List.length_replicate _ _),
      List.take_append_of_le_length (by rw [hp])]
    rfl
  · rw [no_pattern_iff]
    refine ⟨Or.inl rfl, fun o ho => ?_⟩
    have ho' : o < 1044480 := ho
    refine ⟨by rw [mmap_length_of_le _ _ (by rw [hlen])]; omega, ?_⟩
    rw [← family_base_eq_none]
    apply family_base_none_of_zero
    rw [mmap_getElem? _ _ _ (by rw [hlen]; omega) (by omega)]
    unfold late_aboot
    rw [List.append_assoc, List.getElem?_append_left (by rw [List.length_replicate]; exact ho'),
      List.getElem?_replicate, if_pos ho']
  · exact short_dump_fault _ _ _ _ _ _ (Or.inl rfl) (by rw [List.length_replicate]; decide)
      (zero_dump_no_signature 524288)

/-- C7 (amended) on a dump of 512 KiB of zeros: no signature, and the scan leaves the mapping. -/
theorem C7_no_pattern_iff_witness :
    (List.replicate 524288 0).length ≤ 1044480
    ∧ (loki_patch "boot" (List.replicate 524288 0) [] [] patch (fun _ => 0)).status = .fault :=
  ⟨by rw [List.length_replicate]; decide,
    (C7_no_pattern_iff "boot" (List.replicate 524288 0) [] [] patch (fun _ => 0)).2 (Or.inl rfl)
      (by rw [List.length_replicate]; decide) (zero_dump_no_signature 524288)⟩

/-! ## C14 (the empty image) -/

/-- C14 as stated fails on the empty image: it has no "LOKI" at 0x400, does not start with
"ANDROID!" and is all-zero, but nothing of it is mapped, and `loki_check_partition` does not
return: the read of the magic at 0x400 kills the process. -/
theorem C14_counterexample :
    ¬ is_loki []
    ∧ slice (mmap 25174016 []) 0 8 ≠ BOOT_MAGIC
    ∧ ([] : List Nat) = List.replicate 0 0
    ∧ loki_check_partition [] = .fault
    ∧ (loki_check_partition []).ret = none := by
  refine ⟨?_, by decide, rfl, by decide, by decide⟩
  unfold is_loki
  decide

/-! ## C9 (counterexample) -/

/-- The run of `loki_patch` on `second_img`: it succeeds, the output is 6660 bytes long, and
its last four bytes are the first bytes of the second stage. -/
theorem second_run :
    ¬ is_loki second_img
    ∧ hdr_field second_img PAGE_SIZE = 2 ^ 11
    ∧ hdr_field second_img DT_SIZE = 4
    ∧ dt_segment second_img = [0xd0, 0x0d, 0xfe, 0xed]
    ∧ (loki_patch "boot" demo_aboot second_img [] (patch ++ [0, 0, 0]) (fun _ => 0)).status = .ok
    ∧ (loki_patch "boot" demo_aboot second_img [] (patch ++ [0, 0, 0]) (fun _ => 0)).out.length
        = 6660
    ∧ slice (loki_patch "boot" demo_aboot second_img [] (patch ++ [0, 0, 0])
        (fun _ => 0)).out 6656 4 = [0xaa, 0xbb, 0xcc, 0xdd] := by
  obtain ⟨hlen, hnl, hS, hD⟩ := second_img_facts
  have hfields : hdr_field second_img KERNEL_SIZE = 2048
      ∧ hdr_field second_img KERNEL_ADDR = 0x80208000
      ∧ hdr_field second_img RAMDISK_SIZE = 2048
      ∧ hdr_field second_img RAMDISK_ADDR = 0x82008000
      ∧ hdr_field second_img 24 = 2048
      ∧ hdr_field second_img PAGE_SIZE = 2048
      ∧ hdr_field second_img DT_SIZE = 4 :=
    gen_fields 2048 0x80208000 2048 0x82008000 2048 2048 4
      (List.replicate 6100 0 ++ [0xaa, 0xbb, 0xcc, 0xdd] ++ List.replicate 2044 0
        ++ [0xd0, 0x0d, 0xfe, 0xed] ++ List.replicate 4092 0)
      (by decide) (by decide) (by decide) (by decide) (by decide) (by decide) (by decide)
  obtain ⟨f1, -, f3, f4, -, f6, f7⟩ := hfields
  have hml : (mmap 25174016 second_img).length = 12288 := by
    rw [mmap_length, hlen]
    rfl
  have hse := seg_end_eq second_img _ _ _ f6 f1 f3
  have hF : 2048 + align_up 2048 (u32 (2048 + 0xffffffff))
      + align_up 2048 (u32 (2048 + 0xffffffff)) = 6144 := by decide
  rw [hF] at hse
  have hok : (loki_patch "boot" demo_aboot second_img [] (patch ++ [0, 0, 0])
      (fun _ => 0)).status = .ok := by
    apply patch_run _ _ _ _ _ _ _ _ _ (Or.inl rfl) demo_scan demo_lookup hnl
    · rw [hml]; decide
    · rw [f4]
      have := sc_pristine 0x88ed32e0 0x82008000 [0, 0, 0] (by decide) (by decide) (by decide)
      show ¬ (loki_patch_shellcode (patch ++ [0, 0, 0]) 0x88ed32e0 0x82008000).1 < 0
      rw [this]
      exact Int.lt_irrefl 0
    · rw [hse, hml]; decide
    · intro _
      rw [hse, hml, f7]; decide
  obtain ⟨l1, -, -, -, -, l6⟩ := layout_out "boot" demo_aboot second_img [] (patch ++ [0, 0, 0])
    (fun _ => 0) 11 0x88e0f5c0 ABOOT_BASE_SAMSUNG demo_target 2048 2048 2048 512 0 4
    hnl f6 (by decide) (by decide) (by rw [f1]; decide) (by rw [f3]; decide) (by decide)
    (by decide) f7.symm demo_scan demo_lookup hok
  have hdts : dt_segment second_img = [0xd0, 0x0d, 0xfe, 0xed] := by
    obtain ⟨b1, b2, -, b4, b5⟩ := boot_hdr_fields 2048 0x80208000 2048 0x82008000 2048
      0x80f00000 0x80200100 2048 4 (by decide) (by decide) (by decide) (by decide) (by decide)
    obtain ⟨-, c2⟩ := boot_hdr_addr 2048 0x80208000 2048 0x82008000 2048 0x80f00000
      0x80200100 2048 4 (by decide) (by decide)
    unfold dt_segment second_img
    rw [rd32_gen _ _ _ _ _ _ _ _ _ (by decide), rd32_gen _ _ _ _ _ _ _ _ _ (by decide),
      rd32_gen _ _ _ _ _ _ _ _ _ (by decide), rd32_gen _ _ _ _ _ _ _ _ _ (by decide),
      rd32_gen _ _ _ _ _ _ _ _ _ (by decide), b1, b2, b4, b5]
    have c2' : rd32 (boot_hdr 2048 0x80208000 2048 0x82008000 2048 0x80f00000 0x80200100 2048 4)
      SECOND_SIZE = 2048 := c2
    rw [c2']
    exact hD
  refine ⟨hnl, by rw [f6]; rfl, f7, hdts, hok, l1, ?_⟩
  have l6' : slice (loki_patch "boot" demo_aboot second_img [] (patch ++ [0, 0, 0])
      (fun _ => 0)).out 6656 4 = slice (mmap 25174016 second_img) 6144 4 := l6
  rw [l6', slice_mmap _ _ _ _ (by rw [hlen]; decide) (by decide)]
  exact hS

/-- C9 as stated fails on a header with `page_size = 1024`, `kernel_size = 1000`,
`ramdisk_size = 0xffffffff`: the run succeeds; the first bytes of the kernel segment of the
output are "LOKI" where the source has zeros; the output is 2560 bytes long, not
`1024 + page_align(1000) + page_align(0xffffffff) + 512`; and the first byte of the filler
block is the first byte of the shellcode, not the byte of the bootloader at that place.
On `second_img`, which has a second stage, the run succeeds and the last four bytes of the
output are aa bb cc dd, not the device tree d0 0d fe ed of the image. -/
theorem C9_counterexample :
    ¬ is_loki (demo_img 1024 1000 0xffffffff 0 4052)
    ∧ hdr_field (demo_img 1024 1000 0xffffffff 0 4052) PAGE_SIZE = 2 ^ 10
    ∧ (loki_patch "boot" demo_aboot (demo_img 1024 1000 0xffffffff 0 4052) []
        (patch ++ [0, 0, 0]) (fun _ => 0)).status = .ok
    ∧ slice (loki_patch "boot" demo_aboot (demo_img 1024 1000 0xffffffff 0 4052) []
        (patch ++ [0, 0, 0]) (fun _ => 0)).out 1024 4 = LOKI_MAGIC
    ∧ slice (mmap 25174016 (demo_img 1024 1000 0xffffffff 0 4052)) 1024 4 = [0, 0, 0, 0]
    ∧ (loki_patch "boot" demo_aboot (demo_img 1024 1000 0xffffffff 0 4052) []
        (patch ++ [0, 0, 0]) (fun _ => 0)).out.length = 2560
    ∧ 1024 + page_align 1000 1024 + page_align 0xffffffff 1024 + 512 + 0 = 4294969856
    ∧ (loki_patch "boot" demo_aboot (demo_img 1024 1000 0xffffffff 0 4052) []
        (patch ++ [0, 0, 0]) (fun _ => 0)).out[2048]? = some 0xfe
    ∧ demo_aboot[62952]? = some 0xf0
    ∧ ¬ is_loki second_img
    ∧ hdr_field second_img PAGE_SIZE = 2 ^ 11
    ∧ hdr_field second_img DT_SIZE = 4
    ∧ dt_segment second_img = [0xd0, 0x0d, 0xfe, 0xed]
    ∧ (loki_patch "boot" demo_aboot second_img [] (patch ++ [0, 0, 0]) (fun _ => 0)).status = .ok
    ∧ (loki_patch "boot" demo_aboot second_img [] (patch ++ [0, 0, 0]) (fun _ => 0)).out.length
        = 6660
    ∧ slice (loki_patch "boot" demo_aboot second_img [] (patch ++ [0, 0, 0])
        (fun _ => 0)).out 6656 4 = [0xaa, 0xbb, 0xcc, 0xdd] := by
  obtain ⟨s1, s2, s3, s4, s5, s6, s7⟩ := second_run
  obtain ⟨-, -, -, f4, -⟩ := demo_fields 1024 1000 0xffffffff 0 4052 (by decide) (by decide)
    (by decide) (by decide)
  have hrun := demo_run 1024 1000 0xffffffff 0 4052 [] [0, 0, 0] (fun _ => 0) (by decide)
    (by decide) (by decide) (by decide) (by decide) (by decide) (by decide)
  have hF : 1024 + align_up 1000 (u32 (1024 + 0xffffffff))
      + align_up 0xffffffff (u32 (1024 + 0xffffffff)) = 2048 := by decide
  rw [hF] at hrun
  have hml := demo_mapped_length 1024 1000 0xffffffff 0 4052 (by decide) (by decide)
  have h4 : 4096 ≤ (mmap 25174016 (demo_img 1024 1000 0xffffffff 0 4052)).length := by
    rw [hml]
  obtain ⟨hle, -, -, -, -, -, e7, -⟩ :=
    edited_facts (mmap 25174016 (demo_img 1024 1000 0xffffffff 0 4052)) 0 demo_target h4
  generalize hE : edited (mmap 25174016 (demo_img 1024 1000 0xffffffff 0 4052)) 0 demo_target
    = E at hrun hle e7
  have hEl : 2048 ≤ E.length := by rw [hle, hml]; decide
  have htk : (E.take 2048).length = 2048 := by rw [List.length_take]; omega
  have hdl : ((demo_patch [0, 0, 0]).take sizeof_patch).length = 65 := rfl
  have hfl : (E.take 2048 ++ filler demo_aboot 62952 512 (fun _ => 0) ++ slice E 2048 0).length
      = 2560 := by
    rw [List.length_append, List.length_append, htk, filler_length]
    rfl
  refine ⟨demo_not_loki _ _ _ _ _, by rw [f4]; rfl, by rw [hrun], ?_, ?_, ?_, by decide, ?_, ?_,
    s1, s2, s3, s4, s5, s6, s7⟩
  · rw [hrun, ← e7]
    exact slice_congr _ _ _ _ (fun i hi => out_low0 _ _ _ _ _ _ hEl (by omega))
  · apply List.ext_getElem?
    intro i
    rw [getElem?_slice]
    by_cases hi : i < 4
    · rw [if_pos hi, mmap_getElem? _ _ _
        (by unfold demo_img; rw [List.length_append, demo_hdr_length, List.length_replicate]; omega)
        (by omega), demo_img_zero _ _ _ _ _ _ (by omega) (by omega)]
      have : i = 0 ∨ i = 1 ∨ i = 2 ∨ i = 3 := by omega
      rcases this with rfl | rfl | rfl | rfl <;> rfl
    · rw [if_neg hi]
      exact (List.getElem?_eq_none (by simp only [List.length_cons, List.length_nil]; omega)).symm
  · rw [hrun]
    dsimp only
    rw [pwrite_length _ _ _ (by rw [hfl, hdl]; decide), hfl]
  · rw [hrun]
    dsimp only
    rw [getElem?_pwrite_at _ _ _ (by rw [hfl]; decide) (by rw [hdl]; decide)]
    rfl
  · unfold demo_aboot
    rw [List.getElem?_append_right (by rw [List.length_replicate]), List.length_replicate]
    rfl

end Loki
